import Mathlib

/-!
# Cubit: buffer arena, voxel-vertex mapper, visibility state machine, export and paint buffers

A shallow embedding of the parts of the `cubit` Maya plug-in that manage
GPU buffers (`src/directx/directx.h`, `src/directx/directx.cpp`), map render
vertices to voxel cells and allocate the paint buffers
(`src/custommayaconstructs/draw/voxelshape.h`), hide or show voxels and build
the render geometry (`src/custommayaconstructs/draw/voxelsubsceneoverride.h`),
copy the deformed geometry back to a mesh
(`src/directx/compute/deformverticescompute.h`), and of the helpers for
rounded-up division, Morton codes and half-precision conversion
(`src/utils.h`, `src/utils.cpp`).

Conventions of the embedding:

* a `ComPtr<ID3D11Buffer>` is an `Option (List α)`: `none` is the null
  handle, `some xs` a structured buffer whose elements are `xs`
  (`StructureByteStride = sizeof(T)`, so `ByteWidth / StructureByteStride`
  is `xs.length`); the device creates every buffer it is asked for (the code
  does not read the `HRESULT` of `CreateBuffer`);
* an operation that the C++ leaves undefined (reading or writing a
  `std::vector` out of range, dereferencing a null pointer, a region copy
  that leaves a buffer, a division by zero) or that throws returns `none`;
* `int` arithmetic: the products of the paint allocation (`intMul`) are taken
  as undefined when they leave the range of `int`, and the theorems about
  them assume that they do not; the sum and the difference of
  `divideRoundUp` are computed in two's complement (`intWrap`), as the
  target machine computes them;
* the memory behind a raw pointer is the list of the elements that can be
  written through it; behind a null pointer there is none;
* what a buffer operation asks of the device and reports to the host's memory
  accounting is the list of its calls, in program order (`DeviceEvent`);
* `std::unordered_set<uint>` is a list without repetition in insertion
  order, `std::unordered_map<MString, std::vector<uint32_t>>` is an
  association list read by its first matching key;
* Maya render state that no index or ID depends on (instance transform
  matrices, bounding boxes, enable flags, viewport refresh) is left out; the
  voxel decoration items that `updateVoxelRenderItem` looks up by name are
  taken to be in the container, and `modelMatrices` to hold a matrix for
  every global voxel ID;
* counts of elements held in memory are natural numbers; 32-bit wrap-around
  is modelled where the code computes an index or a count from caller data
  (`deleteFromBuffer`, the scatter loop of `copyGeometryDataToMesh`, the
  `int` products of the paint allocation), and the unsigned difference
  passed to `reserve` in `hideSelectedVoxels` is modelled because it wraps on
  small inputs;
* a `uint32_t` is a natural number below `2^32`: a left shift and a
  subtraction are reduced modulo `2^32`, and `&`, `|`, `^`, `>>` are the
  bitwise operations on natural numbers; a `float` argument is the 32-bit
  pattern that `memcpy` reads from it;
* `update` is modelled on a populated container with no geometry rebuild
  pending; `initialState` is the state that the rebuild branch leaves, and
  `Reachable` follows events that are each followed by an `update`; a handler
  only schedules the refresh, so several handlers can run before one
  `update`, and such runs are written as compositions of the handlers.
-/

namespace Cubit

/-! ## Buffer arena (`src/directx/directx.h`) -/

/-- A `ComPtr<ID3D11Buffer>` holding elements of type `α`; `none` is the null handle. -/
abbrev Buffer (α : Type) := Option (List α)

/-- Embeds `DirectX::getNumElementsInBuffer`: `0` for a null handle, otherwise
`ByteWidth / StructureByteStride`. -/
def getNumElementsInBuffer {α : Type} (buffer : Buffer α) : Nat :=
  match buffer with
  | none => 0
  | some xs => xs.length

/-- Embeds `DirectX::createReadWriteBuffer`: a fresh buffer initialised with `data`. -/
def createReadWriteBuffer {α : Type} (data : List α) : Buffer α :=
  some data

/-- Embeds `DirectX::createBufferFromBufferTemplate`: a fresh buffer with the flags of
`existingBuffer` (not modelled) and the contents `data`. -/
def createBufferFromBufferTemplate {α : Type} (_existingBuffer : List α) (data : List α) : List α :=
  data

/-- Embeds `DirectX::copyBufferSubregion`: `CopySubresourceRegion` of `numElements`
elements from `srcBuffer` at `srcOffset` into `dstBuffer` at `dstOffset`.
A copy that leaves either buffer is undefined. -/
def copyBufferSubregion {α : Type} (srcBuffer dstBuffer : List α)
    (srcOffset dstOffset numElements : Nat) : Option (List α) :=
  if srcOffset + numElements ≤ srcBuffer.length ∧ dstOffset + numElements ≤ dstBuffer.length then
    some (dstBuffer.take dstOffset ++ (srcBuffer.drop srcOffset).take numElements
      ++ dstBuffer.drop (dstOffset + numElements))
  else
    none

/-- Embeds `std::vector<T>::resize(n)`: truncate, or pad with value-initialised elements. -/
def vectorResize {α : Type} [Inhabited α] (v : List α) (n : Nat) : List α :=
  v.take n ++ List.replicate (n - v.length) default

/-- Embeds `DirectX::addToBuffer` ("Prepend data to a buffer"). -/
def addToBuffer {α : Type} [Inhabited α] (buffer : Buffer α) (addedData : List α) :
    Option (Buffer α) :=
  match buffer with
  | none => some (createReadWriteBuffer addedData)
  | some old =>
    let numNewElements := addedData.length
    let numExistingElements := getNumElementsInBuffer buffer
    let resized := vectorResize addedData (numExistingElements + numNewElements)
    let newBuffer := createBufferFromBufferTemplate old resized
    match copyBufferSubregion old newBuffer 0 numNewElements numExistingElements with
    | none => none
    | some copied => some (some copied)

/-- Width of the C++ `uint` used for element counts and offsets. -/
def uintSize : Nat := 4294967296

/-- Embeds `DirectX::deleteFromBuffer`; `offset + numRemovedElements` is an unsigned
32-bit sum. -/
def deleteFromBuffer {α : Type} [Inhabited α] (buffer : Buffer α)
    (numRemovedElements offset : Nat) : Option (Buffer α) :=
  let numExistingElements := getNumElementsInBuffer buffer
  if numRemovedElements ≥ numExistingElements then
    some none
  else
    match buffer with
    | none => some none
    | some old =>
      let newData : List α := List.replicate (numExistingElements - numRemovedElements) default
      let newBuffer := createBufferFromBufferTemplate old newData
      let afterFront :=
        if offset > 0 then copyBufferSubregion old newBuffer 0 0 offset else some newBuffer
      match afterFront with
      | none => none
      | some nb =>
        let removedEnd := (offset + numRemovedElements) % uintSize
        if removedEnd < numExistingElements then
          match copyBufferSubregion old nb removedEnd offset (numExistingElements - removedEnd) with
          | none => none
          | some copied => some (some copied)
        else
          some (some nb)

/-! ## Voxel-vertex mapper (`src/custommayaconstructs/draw/voxelshape.h`) -/

/-- Modelled from the spec: the `Voxels` record produced by the voxelizer, whose
declaration is not among the sources. It holds the occupied-cell count, for every
cell the surface and the interior face-index list (an `MObjectArray` of
single-indexed components with `int` elements), the locality keys of the occupied
cells and the lookup from a key to the dense sorted index of its cell. -/
structure Voxels where
  numOccupied : Int
  surfaceFaceComponents : List (List Int)
  interiorFaceComponents : List (List Int)
  mortonCodes : List Nat
  mortonCodesToSortedIdx : List (Nat × Nat)

/-- The "unassigned" stamp of a vertex. -/
def UINT_MAX : Nat := 4294967295

/-- Reading `v[i]` of a `std::vector` with an `int` index: defined only inside the vector. -/
def vectorAt {α : Type} (v : List α) (i : Int) : Option α :=
  if i < 0 then none else v[i.toNat]?

/-- One pass of the loop over `k` in `addVoxelIdToVerts`:
`vertexVoxelIds[vertexIndices[3 * faceIndex + k]] = voxelIndex`. -/
def stampVertex (vertexIndices : List Nat) (voxelIndex : Nat) (faceIndex : Int)
    (vertexVoxelIds : List Nat) (k : Int) : Option (List Nat) :=
  match vectorAt vertexIndices (3 * faceIndex + k) with
  | none => none
  | some vertexIndex =>
    if vertexIndex < vertexVoxelIds.length then some (vertexVoxelIds.set vertexIndex voxelIndex)
    else none

/-- The loop `for (int k = 0; k < 3; ++k)` for one face index of a component. -/
def stampTriangle (vertexIndices : List Nat) (voxelIndex : Nat)
    (vertexVoxelIds : List Nat) (faceIndex : Int) : Option (List Nat) :=
  [0, 1, 2].foldlM (stampVertex vertexIndices voxelIndex faceIndex) vertexVoxelIds

/-- The lambda `addVoxelIdToVerts` of `VoxelShape::getVoxelIdsForVertices`. -/
def addVoxelIdToVerts (vertexIndices : List Nat) (faceComponents : List (List Int))
    (voxelIndex : Nat) (vertexVoxelIds : List Nat) : Option (List Nat) :=
  match faceComponents[voxelIndex]? with
  | none => none
  | some faceComponent =>
    faceComponent.foldlM (stampTriangle vertexIndices voxelIndex) vertexVoxelIds

/-- The body of the loop over `i` in `getVoxelIdsForVertices`:
`mortonCodesToSortedIdx.at(mortonCodes[i])`, then the surface and the interior faces. -/
def stampVoxel (vertexIndices : List Nat) (voxels : Voxels)
    (vertexVoxelIds : List Nat) (i : Nat) : Option (List Nat) :=
  match voxels.mortonCodes[i]? with
  | none => none
  | some code =>
    match voxels.mortonCodesToSortedIdx.lookup code with
    | none => none
    | some voxelIndex =>
      match addVoxelIdToVerts vertexIndices voxels.surfaceFaceComponents voxelIndex
          vertexVoxelIds with
      | none => none
      | some stamped =>
        addVoxelIdToVerts vertexIndices voxels.interiorFaceComponents voxelIndex stamped

/-- Embeds `VoxelShape::getVoxelIdsForVertices`. -/
def getVoxelIdsForVertices (vertexIndices : List Nat) (numVertices : Nat) (voxels : Voxels) :
    Option (List Nat) :=
  (List.range voxels.numOccupied.toNat).foldlM (stampVoxel vertexIndices voxels)
    (List.replicate numVertices UINT_MAX)

/-- The cell index that the `i`-th locality key resolves to. -/
def sortedIdx (voxels : Voxels) (i : Nat) : Option Nat :=
  match voxels.mortonCodes[i]? with
  | none => none
  | some code => voxels.mortonCodesToSortedIdx.lookup code

/-- The render vertices referenced by the triangle `faceIndex`. -/
def triangleVertices (vertexIndices : List Nat) (faceIndex : Int) : List Nat :=
  ([0, 1, 2] : List Int).flatMap (fun k => (vectorAt vertexIndices (3 * faceIndex + k)).toList)

/-- The surface face list of cell `c` followed by its interior face list. -/
def cellFaces (voxels : Voxels) (c : Nat) : List Int :=
  voxels.surfaceFaceComponents.getD c [] ++ voxels.interiorFaceComponents.getD c []

/-- The render vertices referenced by the faces of cell `c`. -/
def cellVertices (vertexIndices : List Nat) (voxels : Voxels) (c : Nat) : List Nat :=
  (cellFaces voxels c).flatMap (triangleVertices vertexIndices)

/-- Two cells with one surface triangle each over six render vertices. -/
def twoCellVoxels : Voxels :=
  { numOccupied := 2
    surfaceFaceComponents := [[0], [1]]
    interiorFaceComponents := [[], []]
    mortonCodes := [5, 9]
    mortonCodesToSortedIdx := [(5, 0), (9, 1)] }

/-- The result `r` of a step is `ids` with the value `c` written at every index of `fp`. -/
def Stamps (c : Nat) (fp : List Nat) (r : Option (List Nat)) (ids : List Nat) : Prop :=
  ∃ out, r = some out ∧ out.length = ids.length ∧
    ∀ v, out[v]? = if v ∈ fp then some c else ids[v]?

/-! ## Visibility state machine (`src/custommayaconstructs/draw/voxelsubsceneoverride.h`) -/

/-- Embeds `VoxelSubSceneOverride::ShowHideStateChange`. -/
inductive ShowHideStateChange where
  | None
  | HideSelected
  | ShowAll
  | ShowSelected
  deriving DecidableEq, Repr

/-- Embeds `RenderItemFaceIdxMap`: hidden index-buffer entries per render item name. -/
abbrev RenderItemFaceIdxMap := List (String × List Nat)

/-- What the visibility code reads of an `MRenderItem` in the subscene container. -/
structure RenderItem where
  internalObjectId : Nat
  name : String
  deriving DecidableEq, Repr

/-- The members of `VoxelSubSceneOverride` that the hide/show code reads or writes.
`meshIndexBuffers` holds the contents of each `MIndexBuffer` by render item name. -/
structure VoxelSubSceneOverride where
  showHideStateChange : ShowHideStateChange
  shouldUpdate : Bool
  selectionChanged : Bool
  hideAllowed : Bool
  voxelsToHide : List Nat
  visibleVoxelIdToGlobalId : List Nat
  hiddenFaces : RenderItemFaceIdxMap
  recentlyHiddenFaces : RenderItemFaceIdxMap
  hiddenVoxels : List Nat
  recentlyHiddenVoxels : List Nat
  meshIndexBuffers : List (String × List Nat)
  allMeshIndices : List Nat
  meshRenderItemIDs : List Nat
  deriving DecidableEq, Repr

/-- Embeds `std::unordered_set<uint>::insert`. -/
def setInsert (s : List Nat) (x : Nat) : List Nat :=
  if x ∈ s then s else s ++ [x]

/-- Embeds `map[key] = value` on an `std::unordered_map` keyed by item name. -/
def mapSet {β : Type} : List (String × β) → String → β → List (String × β)
  | [], key, value => [(key, value)]
  | (k, v) :: rest, key, value =>
    if k = key then (key, value) :: rest else (k, v) :: mapSet rest key value

/-- The value of `map[key]`: the stored vector, or the empty vector that `operator[]`
creates for a missing key. -/
def mapIndex (m : RenderItemFaceIdxMap) (key : String) : List Nat :=
  (m.lookup key).getD []

/-- Embeds `std::unordered_map<uint, uint>::insert`, which keeps an existing entry. -/
def insertIfAbsent (m : List (Nat × Nat)) (key value : Nat) : List (Nat × Nat) :=
  match m.lookup key with
  | some _ => m
  | none => m ++ [(key, value)]

/-- Embeds `std::sort` on a vector of `uint`. -/
def sortAscending (v : List Nat) : List Nat :=
  v.insertionSort (fun a b => a ≤ b)

/-- Whether `s` begins with `pattern`. -/
def startsWithChars : List Char → List Char → Bool
  | _, [] => true
  | [], _ :: _ => false
  | c :: cs, p :: ps => c == p && startsWithChars cs ps

/-- First position at or after `pos` where `pattern` occurs, else `-1`. -/
def indexWFrom (pattern : List Char) : List Char → Nat → Int
  | [], pos => if pattern.isEmpty then (pos : Int) else -1
  | c :: cs, pos =>
    if startsWithChars (c :: cs) pattern then (pos : Int) else indexWFrom pattern cs (pos + 1)

/-- Embeds `MString::indexW(const MString&)`: index of the first occurrence, or `-1`. -/
def indexW (s pattern : String) : Int :=
  indexWFrom pattern.data s.data 0

/-- Embeds `VoxelSubSceneOverride::invalidateRecentlyHidden`. -/
def invalidateRecentlyHidden (s : VoxelSubSceneOverride) : VoxelSubSceneOverride :=
  { s with
    hiddenFaces := s.recentlyHiddenFaces.foldl
      (fun hiddenFaces entry =>
        match hiddenFaces.lookup entry.1 with
        | none => mapSet hiddenFaces entry.1 entry.2
        | some existing => mapSet hiddenFaces entry.1 (existing ++ entry.2))
      s.hiddenFaces
    recentlyHiddenFaces := []
    hiddenVoxels := s.recentlyHiddenVoxels.foldl setInsert s.hiddenVoxels
    recentlyHiddenVoxels := []
    hideAllowed := true }

/-- Embeds `VoxelSubSceneOverride::onSelectionChanged` (the highlight matrices are render state). -/
def onSelectionChanged (s : VoxelSubSceneOverride) : VoxelSubSceneOverride :=
  invalidateRecentlyHidden { s with shouldUpdate := true, selectionChanged := true }

/-- The loop at the end of `onShowHideStateChange`:
`voxelsToHide.insert(visibleVoxelIdToGlobalId[voxelInstanceId])` for every selected instance. -/
def collectVoxelsToHide (activeComponents : List (List Int)) (s : VoxelSubSceneOverride) :
    Option VoxelSubSceneOverride :=
  activeComponents.foldlM
    (fun st comp => comp.foldlM
      (fun st2 voxelInstanceId =>
        match vectorAt st2.visibleVoxelIdToGlobalId voxelInstanceId with
        | none => none
        | some globalId => some { st2 with voxelsToHide := setInsert st2.voxelsToHide globalId })
      st)
    s

/-- Embeds `VoxelSubSceneOverride::onShowHideStateChange`. `hasActiveComponents` and
`activeComponents` are what the shape reports about the current selection. -/
def onShowHideStateChange (procName : String) (isProcEntry : Bool) (hasActiveComponents : Bool)
    (activeComponents : List (List Int)) (s : VoxelSubSceneOverride) :
    Option VoxelSubSceneOverride :=
  if !isProcEntry then some s
  else
    let toggleHideCommand := indexW procName "toggleVisibilityAndKeepSelection" != -1
    let hideCommand := procName == "hide"
    let showHiddenCommand := indexW procName "showHidden" != -1
    if !toggleHideCommand && !hideCommand && !showHiddenCommand then some s
    else
      let pending :=
        if hideCommand then
          (if s.hideAllowed then ShowHideStateChange.HideSelected else ShowHideStateChange.None)
        else if showHiddenCommand then ShowHideStateChange.ShowAll
        else if toggleHideCommand then
          (if s.recentlyHiddenVoxels.length > 0 then ShowHideStateChange.ShowSelected
           else if hasActiveComponents then ShowHideStateChange.HideSelected
           else ShowHideStateChange.ShowAll)
        else s.showHideStateChange
      let s1 := { s with shouldUpdate := true, showHideStateChange := pending }
      if pending != ShowHideStateChange.HideSelected then some s1
      else collectVoxelsToHide activeComponents { s1 with hideAllowed := false }

/-- The lambda `addIndicesToHide` of `hideSelectedMeshFaces`. -/
def addIndicesToHide (allMeshIndices : List Nat) (faceComponents : List (List Int))
    (voxelInstanceId : Nat) (indicesToHide : List (Nat × Nat)) : Option (List (Nat × Nat)) :=
  match faceComponents[voxelInstanceId]? with
  | none => none
  | some faceComponent =>
    faceComponent.foldlM
      (fun acc faceIdx =>
        ([0, 1, 2] : List Int).foldlM
          (fun acc2 k =>
            match vectorAt allMeshIndices (faceIdx * 3 + k) with
            | none => none
            | some index => some (insertIfAbsent acc2 index voxelInstanceId))
          acc)
      indicesToHide

/-- The loop over `voxelsToHide` that fills `indicesToHide` in `hideSelectedMeshFaces`. -/
def buildIndicesToHide (voxels : Voxels) (allMeshIndices : List Nat) (voxelsToHide : List Nat) :
    Option (List (Nat × Nat)) :=
  voxelsToHide.foldlM
    (fun acc voxelInstanceId =>
      match addIndicesToHide allMeshIndices voxels.surfaceFaceComponents voxelInstanceId acc with
      | none => none
      | some acc1 =>
        addIndicesToHide allMeshIndices voxels.interiorFaceComponents voxelInstanceId acc1)
    []

/-- Running state of the scan of one index buffer in `hideSelectedMeshFaces`. -/
structure HideScan where
  newIndices : List Nat
  recentlyHiddenVoxels : List Nat
  recentlyHiddenFaces : RenderItemFaceIdxMap

/-- One pass of the loop over the entries of an index buffer. -/
def hideScanStep (indicesToHide : List (Nat × Nat)) (itemName : String) (st : HideScan)
    (index : Nat) : HideScan :=
  match indicesToHide.lookup index with
  | none => { st with newIndices := st.newIndices ++ [index] }
  | some voxel =>
    { st with
      recentlyHiddenVoxels := setInsert st.recentlyHiddenVoxels voxel
      recentlyHiddenFaces :=
        mapSet st.recentlyHiddenFaces itemName (mapIndex st.recentlyHiddenFaces itemName ++ [index]) }

/-- The body of the loop over the container's render items in `hideSelectedMeshFaces`. -/
def hideItemFaces (indicesToHide : List (Nat × Nat)) (s : VoxelSubSceneOverride)
    (item : RenderItem) : Option VoxelSubSceneOverride :=
  if item.internalObjectId ∈ s.meshRenderItemIDs then
    match s.meshIndexBuffers.lookup item.name with
    | none => none
    | some indices =>
      let scan := indices.foldl (hideScanStep indicesToHide item.name)
        { newIndices := [], recentlyHiddenVoxels := s.recentlyHiddenVoxels,
          recentlyHiddenFaces := s.recentlyHiddenFaces }
      some { s with
        meshIndexBuffers := mapSet s.meshIndexBuffers item.name scan.newIndices
        recentlyHiddenVoxels := scan.recentlyHiddenVoxels
        recentlyHiddenFaces := scan.recentlyHiddenFaces }
  else some s

/-- Embeds `VoxelSubSceneOverride::hideSelectedMeshFaces`. -/
def hideSelectedMeshFaces (voxels : Voxels) (container : List RenderItem)
    (s : VoxelSubSceneOverride) : Option VoxelSubSceneOverride :=
  match buildIndicesToHide voxels s.allMeshIndices s.voxelsToHide with
  | none => none
  | some indicesToHide => container.foldlM (hideItemFaces indicesToHide) s

/-- The body of the loop over the passed map in `showSelectedMeshFaces`. -/
def showItemFaces (container : List RenderItem) (meshIndexBuffers : List (String × List Nat))
    (entry : String × List Nat) : Option (List (String × List Nat)) :=
  match container.find? (fun item => item.name == entry.1) with
  | none => some meshIndexBuffers
  | some _ =>
    if entry.2.length = 0 then some meshIndexBuffers
    else
      match meshIndexBuffers.lookup entry.1 with
      | none => none
      | some oldData => some (mapSet meshIndexBuffers entry.1 (oldData ++ entry.2))

/-- Embeds `VoxelSubSceneOverride::showSelectedMeshFaces`: the new index buffers and the passed
map after `clear()`. -/
def showSelectedMeshFaces (container : List RenderItem)
    (selectedRenderItemFaces : RenderItemFaceIdxMap)
    (meshIndexBuffers : List (String × List Nat)) :
    Option (List (String × List Nat) × RenderItemFaceIdxMap) :=
  match selectedRenderItemFaces.foldlM (showItemFaces container) meshIndexBuffers with
  | none => none
  | some merged => some (merged, [])

/-- Embeds `VoxelSubSceneOverride::hideSelectedVoxels`. The size passed to `reserve` is an
unsigned difference; when it wraps, `reserve` throws `std::length_error`. -/
def hideSelectedVoxels (s : VoxelSubSceneOverride) : Option VoxelSubSceneOverride :=
  if s.visibleVoxelIdToGlobalId.length < s.voxelsToHide.length then none
  else
    some { s with
      visibleVoxelIdToGlobalId :=
        s.visibleVoxelIdToGlobalId.filter (fun globalVoxelId => !(s.voxelsToHide.contains globalVoxelId))
      voxelsToHide := [] }

/-- Embeds `VoxelSubSceneOverride::showSelectedVoxels`: the new `visibleVoxelIdToGlobalId` and the
passed set after `clear()`. -/
def showSelectedVoxels (visibleVoxelIdToGlobalId selectedVoxels : List Nat) :
    List Nat × List Nat :=
  (sortAscending (visibleVoxelIdToGlobalId ++ selectedVoxels), [])

/-- The `switch (showHideStateChange)` of `VoxelSubSceneOverride::update`. -/
def applyShowHideStateChange (voxels : Voxels) (container : List RenderItem)
    (s : VoxelSubSceneOverride) : Option VoxelSubSceneOverride :=
  match s.showHideStateChange with
  | ShowHideStateChange.None => some s
  | ShowHideStateChange.ShowAll =>
    let s1 := invalidateRecentlyHidden s
    match showSelectedMeshFaces container s1.hiddenFaces s1.meshIndexBuffers with
    | none => none
    | some shown =>
      let voxelsShown := showSelectedVoxels s1.visibleVoxelIdToGlobalId s1.hiddenVoxels
      some { s1 with
        meshIndexBuffers := shown.1
        hiddenFaces := shown.2
        visibleVoxelIdToGlobalId := voxelsShown.1
        hiddenVoxels := voxelsShown.2 }
  | ShowHideStateChange.ShowSelected =>
    match showSelectedMeshFaces container s.recentlyHiddenFaces s.meshIndexBuffers with
    | none => none
    | some shown =>
      let voxelsShown := showSelectedVoxels s.visibleVoxelIdToGlobalId s.recentlyHiddenVoxels
      some (invalidateRecentlyHidden { s with
        meshIndexBuffers := shown.1
        recentlyHiddenFaces := shown.2
        visibleVoxelIdToGlobalId := voxelsShown.1
        recentlyHiddenVoxels := voxelsShown.2 })
  | ShowHideStateChange.HideSelected =>
    match hideSelectedMeshFaces voxels container s with
    | none => none
    | some s1 => hideSelectedVoxels s1

/-- Embeds `VoxelSubSceneOverride::update` on a populated container, with no geometry rebuild
pending: the selection flag is consumed, the pending show/hide action runs, and the
pending state and `shouldUpdate` are reset. -/
def update (voxels : Voxels) (container : List RenderItem) (s : VoxelSubSceneOverride) :
    Option VoxelSubSceneOverride :=
  match applyShowHideStateChange voxels container { s with selectionChanged := false } with
  | none => none
  | some s1 =>
    some { s1 with showHideStateChange := ShowHideStateChange.None, shouldUpdate := false }

/-- The state in which the `container.count() <= 0` branch of `update` leaves a freshly
constructed override: nothing hidden, a 1:1 `visibleVoxelIdToGlobalId`, and the index
data that the geometry extractor delivered. -/
def initialState (voxels : Voxels) (allMeshIndices : List Nat)
    (meshIndexBuffers : List (String × List Nat)) (meshRenderItemIDs : List Nat) :
    VoxelSubSceneOverride :=
  { showHideStateChange := ShowHideStateChange.None
    shouldUpdate := false
    selectionChanged := false
    hideAllowed := true
    voxelsToHide := []
    visibleVoxelIdToGlobalId := List.range voxels.numOccupied.toNat
    hiddenFaces := []
    recentlyHiddenFaces := []
    hiddenVoxels := []
    recentlyHiddenVoxels := []
    meshIndexBuffers := meshIndexBuffers
    allMeshIndices := allMeshIndices
    meshRenderItemIDs := meshRenderItemIDs }

/-- Whether `hideSelectedMeshFaces` removes the index-buffer entry `index`: it is a key
of `indicesToHide`. -/
def isHidden (indicesToHide : List (Nat × Nat)) (index : Nat) : Bool :=
  (indicesToHide.lookup index).isSome

/-- The result `r` of a step is `M` extended so that it also hides every index of `fp`. -/
def Marks (fp : List Nat) (r : Option (List (Nat × Nat))) (M : List (Nat × Nat)) : Prop :=
  ∃ out, r = some out ∧ ∀ idx, isHidden out idx = (isHidden M idx || decide (idx ∈ fp))

/-- Whether `index` is a render-vertex index of a triangle in the surface or interior
face list of a cell in `voxelsToHide`. -/
def belongsToHiddenCell (voxels : Voxels) (allMeshIndices voxelsToHide : List Nat)
    (index : Nat) : Bool :=
  decide (∃ c ∈ voxelsToHide, index ∈ cellVertices allMeshIndices voxels c)

/-- An external event observed by the override: the `SelectionChanged` event or a
procedure callback of `MCommandMessage`. -/
inductive Event where
  | selectionChanged
  | procCallback (procName : String) (isProcEntry hasActiveComponents : Bool)
      (activeComponents : List (List Int))

/-- The handler that an event runs. -/
def handleEvent (e : Event) (s : VoxelSubSceneOverride) : Option VoxelSubSceneOverride :=
  match e with
  | Event.selectionChanged => some (onSelectionChanged s)
  | Event.procCallback procName isProcEntry hasActiveComponents activeComponents =>
    onShowHideStateChange procName isProcEntry hasActiveComponents activeComponents s

/-- An event followed by the `update` of the next frame. -/
def eventThenUpdate (voxels : Voxels) (container : List RenderItem)
    (s : VoxelSubSceneOverride) (e : Event) : Option VoxelSubSceneOverride :=
  match handleEvent e s with
  | none => none
  | some s1 => update voxels container s1

/-- The states that a sequence of events, each followed by `update`, leads to from `init`. -/
inductive Reachable (voxels : Voxels) (container : List RenderItem)
    (init : VoxelSubSceneOverride) : VoxelSubSceneOverride → Prop where
  | start : Reachable voxels container init init
  | next (s s' : VoxelSubSceneOverride) (e : Event) :
      Reachable voxels container init s →
      eventThenUpdate voxels container s e = some s' →
      Reachable voxels container init s'

/-- What holds of the state between two frames: no show/hide action is pending, nothing
is recently hidden while plain hide is armed, and faces are recently hidden only
together with voxels. -/
def FrameInvariant (s : VoxelSubSceneOverride) : Prop :=
  s.showHideStateChange = ShowHideStateChange.None ∧
  (s.hideAllowed = true → s.recentlyHiddenVoxels = []) ∧
  (s.recentlyHiddenVoxels = [] → s.recentlyHiddenFaces = [])

/-! ## Example scene: four cells, two surface triangles each -/

/-- Four occupied cells (IDs 0 to 3), each with two surface faces over six render
vertices of its own. -/
def fourCellVoxels : Voxels :=
  { numOccupied := 4
    surfaceFaceComponents := [[0, 1], [2, 3], [4, 5], [6, 7]]
    interiorFaceComponents := [[], [], [], []]
    mortonCodes := [10, 11, 12, 13]
    mortonCodesToSortedIdx := [(10, 0), (11, 1), (12, 2), (13, 3)] }

/-- The whole-mesh index list of the example: triangle `f` uses the vertices
`3f, 3f+1, 3f+2`. -/
def fourCellIndices : List Nat :=
  [0, 1, 2, 3, 4, 5, 6, 7, 8, 9, 10, 11, 12, 13, 14, 15, 16, 17, 18, 19, 20, 21, 22, 23]

/-- The container of the example: one mesh render item (one shading group) and the four
voxel decoration items. -/
def fourCellContainer : List RenderItem :=
  [ { internalObjectId := 1, name := "voxelRenderItem_A" },
    { internalObjectId := 2, name := "VoxelWireframeRenderItem" },
    { internalObjectId := 3, name := "VoxelSelectionItem" },
    { internalObjectId := 4, name := "VoxelSelectedHighlightItem" },
    { internalObjectId := 5, name := "VoxelPreviewSelectionHighlightItem" } ]

/-- The example after its first `update`: the single shading group draws every triangle. -/
def fourCellInitial : VoxelSubSceneOverride :=
  initialState fourCellVoxels fourCellIndices [("voxelRenderItem_A", fourCellIndices)] [1]

/-- The example after a `hide` command with voxel instance 1 selected. -/
def hideCellOnePending : VoxelSubSceneOverride :=
  { fourCellInitial with
    showHideStateChange := ShowHideStateChange.HideSelected
    shouldUpdate := true
    hideAllowed := false
    voxelsToHide := [1] }

/-- The example when the two triangles of cell 1 belong to a shading set without a
surface shader: `buildGeometryRequirements` skips that set, so no render item draws the
vertices 6 to 11, which stay in the whole-mesh index list. -/
def unshadedCellInitial : VoxelSubSceneOverride :=
  initialState fourCellVoxels fourCellIndices
    [("voxelRenderItem_A", [0, 1, 2, 3, 4, 5, 12, 13, 14, 15, 16, 17, 18, 19, 20, 21, 22, 23])]
    [1]

/-- A state in which more cells are queued for hiding than are visible. -/
def moreToHideThanVisible : VoxelSubSceneOverride :=
  { fourCellInitial with
    showHideStateChange := ShowHideStateChange.HideSelected
    visibleVoxelIdToGlobalId := [0]
    voxelsToHide := [5, 6] }

/-! ## Buffer arena: device calls and memory reports -/

/-- A call that a buffer operation makes on the device, or a report that it makes to
the host's memory accounting (`MRenderer::holdGPUMemory`, `releaseGPUMemory`). -/
inductive DeviceEvent where
  | createBuffer (numElements : Nat)
  | copySubresourceRegion (srcOffset dstOffset numElements : Nat)
  | holdGPUMemory (byteWidth : Nat)
  | releaseGPUMemory (byteWidth : Nat)
  deriving DecidableEq, Repr

/-- Embeds `DirectX::notifyMayaOfMemoryUsage` for a buffer of elements of `sizeofT`
bytes: nothing for a null handle, otherwise one report of `ByteWidth`. -/
def notifyMayaOfMemoryUsage {α : Type} (sizeofT : Nat) (buffer : Buffer α) (acquire : Bool) :
    List DeviceEvent :=
  match buffer with
  | none => []
  | some xs =>
    if acquire then [DeviceEvent.holdGPUMemory (sizeofT * xs.length)]
    else [DeviceEvent.releaseGPUMemory (sizeofT * xs.length)]

/-- The calls of `createBufferFromBufferTemplate` and of `createReadWriteBuffer`:
`CreateBuffer`, then `notifyMayaOfMemoryUsage(buffer, true)`. -/
def createBufferCalls {α : Type} (sizeofT : Nat) (data : List α) : List DeviceEvent :=
  DeviceEvent.createBuffer data.length :: notifyMayaOfMemoryUsage sizeofT (some data) true

/-- The device calls and memory reports of `DirectX::addToBuffer`, in program order. -/
def addToBufferCalls {α : Type} [Inhabited α] (sizeofT : Nat) (buffer : Buffer α)
    (addedData : List α) : List DeviceEvent :=
  match buffer with
  | none => createBufferCalls sizeofT addedData
  | some old =>
    let numNewElements := addedData.length
    let numExistingElements := getNumElementsInBuffer buffer
    let resized := vectorResize addedData (numExistingElements + numNewElements)
    let newBuffer := createBufferFromBufferTemplate old resized
    createBufferCalls sizeofT resized
      ++ [DeviceEvent.copySubresourceRegion 0 numNewElements numExistingElements]
      ++ notifyMayaOfMemoryUsage sizeofT buffer false
      ++ notifyMayaOfMemoryUsage sizeofT (some newBuffer) true

/-- The device calls and memory reports of `DirectX::deleteFromBuffer`, in program order. -/
def deleteFromBufferCalls {α : Type} [Inhabited α] (sizeofT : Nat) (buffer : Buffer α)
    (numRemovedElements offset : Nat) : List DeviceEvent :=
  let numExistingElements := getNumElementsInBuffer buffer
  if numRemovedElements ≥ numExistingElements then
    notifyMayaOfMemoryUsage sizeofT buffer false
  else
    let newData : List α := List.replicate (numExistingElements - numRemovedElements) default
    let removedEnd := (offset + numRemovedElements) % uintSize
    createBufferCalls sizeofT newData
      ++ (if offset > 0 then [DeviceEvent.copySubresourceRegion 0 0 offset] else [])
      ++ (if removedEnd < numExistingElements then
            [DeviceEvent.copySubresourceRegion removedEnd offset
              (numExistingElements - removedEnd)]
          else [])
      ++ notifyMayaOfMemoryUsage sizeofT buffer false

/-- The memory reports among the calls. -/
def memoryReports (calls : List DeviceEvent) : List DeviceEvent :=
  calls.filter (fun e =>
    match e with
    | DeviceEvent.holdGPUMemory _ => true
    | DeviceEvent.releaseGPUMemory _ => true
    | _ => false)

/-- The change of the memory that the host counts as held, after the reports of `calls`. -/
def heldMemoryChange (calls : List DeviceEvent) : Int :=
  calls.foldl
    (fun total e =>
      match e with
      | DeviceEvent.holdGPUMemory n => total + (n : Int)
      | DeviceEvent.releaseGPUMemory n => total - (n : Int)
      | _ => total)
    0

/-- One cell whose surface face list names triangle 1. -/
def strayFaceVoxels : Voxels :=
  { numOccupied := 1
    surfaceFaceComponents := [[1]]
    interiorFaceComponents := [[]]
    mortonCodes := [5]
    mortonCodesToSortedIdx := [(5, 0)] }

/-- One cell whose surface face list names triangle 0. -/
def oneCellVoxels : Voxels :=
  { numOccupied := 1
    surfaceFaceComponents := [[0]]
    interiorFaceComponents := [[]]
    mortonCodes := [5]
    mortonCodesToSortedIdx := [(5, 0)] }

/-! ## Export of the deformed geometry (`src/directx/compute/deformverticescompute.h`) -/

/-- What `copyGeometryDataToMesh` reads and writes of a Maya mesh through `MFnMesh`: the
memory behind `getRawPoints` (three floats per logical vertex) and behind
`getRawNormals`. -/
structure MeshData (α : Type) where
  rawPoints : List α
  rawNormals : List α

/-- The memory that `MFnMesh::getRawPoints` points to. A function set constructed from a
path that does not resolve to a mesh is not attached to an object: the call fails and
returns the null pointer, behind which no element can be written. -/
def getRawPoints {α : Type} (mesh : Option (MeshData α)) : List α :=
  match mesh with
  | none => []
  | some m => m.rawPoints

/-- The memory that `MFnMesh::getRawNormals` points to; see `getRawPoints`. -/
def getRawNormals {α : Type} (mesh : Option (MeshData α)) : List α :=
  match mesh with
  | none => []
  | some m => m.rawNormals

/-- Embeds `DirectX::copyBufferToPointer`: `memcpy` of the `ByteWidth` bytes of the
buffer to `outData`; undefined when it writes past the memory behind `outData`. -/
def copyBufferToPointer {α : Type} (buffer : List α) (outData : List α) : Option (List α) :=
  if buffer.length ≤ outData.length then some (buffer ++ outData.drop buffer.length)
  else none

/-- The assignment `p[index] = value` through a raw pointer `p`. -/
def pointerWrite {α : Type} (memory : List α) (index : Nat) (value : α) : Option (List α) :=
  if index < memory.length then some (memory.set index value) else none

/-- The body of the loop of `copyGeometryDataToMesh` for the extracted vertex `i`:
three assignments `rawPositions[mayaVertexId * 3 + k] = positionData[i * 3 + k]`, where
`mayaVertexId * 3 + k` is computed in `uint`. -/
def scatterVertex {α : Type} (positionData rawPositions : List α) (i mayaVertexId : Nat) :
    Option (List α) :=
  match positionData[i * 3]? with
  | none => none
  | some x =>
    match pointerWrite rawPositions ((mayaVertexId * 3) % uintSize) x with
    | none => none
    | some raw1 =>
      match positionData[i * 3 + 1]? with
      | none => none
      | some y =>
        match pointerWrite raw1 ((mayaVertexId * 3 + 1) % uintSize) y with
        | none => none
        | some raw2 =>
          match positionData[i * 3 + 2]? with
          | none => none
          | some z => pointerWrite raw2 ((mayaVertexId * 3 + 2) % uintSize) z

/-- The loop `for (size_t i = 0; i < exportVertexIdMap.size(); i++)` of
`copyGeometryDataToMesh`, from the extracted vertex `i` on; `rest` holds
`exportVertexIdMap[i], exportVertexIdMap[i + 1], ...`. -/
def scatterFrom {α : Type} (positionData : List α) : Nat → List Nat → List α → Option (List α)
  | _, [], rawPositions => some rawPositions
  | i, mayaVertexId :: rest, rawPositions =>
    match scatterVertex positionData rawPositions i mayaVertexId with
    | none => none
    | some written => scatterFrom positionData (i + 1) rest written

/-- Embeds `DeformVerticesCompute::copyGeometryDataToMesh`. The arguments are the contents
of the positions and of the normals buffer, the `exportVertexIdMap` and the mesh that
`meshDagPath` resolves to (`none` when it resolves to no mesh); the result is the mesh
after the call. The closing `updateSurface` call writes no point or normal. -/
def copyGeometryDataToMesh {α : Type} (positionsBuffer normalsBuffer : List α)
    (exportVertexIdMap : List Nat) (mesh : Option (MeshData α)) :
    Option (Option (MeshData α)) :=
  let positionData := positionsBuffer
  match copyBufferToPointer normalsBuffer (getRawNormals mesh) with
  | none => none
  | some normals =>
    let rawPositions := getRawPoints mesh
    match scatterFrom positionData 0 exportVertexIdMap rawPositions with
    | none => none
    | some points =>
      some (mesh.map (fun _ => { rawPoints := points, rawNormals := normals }))

/-! ## Paint buffers (`src/custommayaconstructs/draw/voxelshape.h`) -/

/-- Modelled from the spec: the `VoxelEditMode` enumeration, whose declaration is not
among the sources; the members are those that the sources name. -/
inductive VoxelEditMode where
  | Object
  | Selection
  | FacePaint
  | ParticlePaint
  deriving DecidableEq, Repr

/-- Modelled from the spec: a `PingPongView`, whose declaration is not among the sources.
A default-constructed one is not initialised; one constructed from the four views of two
paint buffers is, and `elementCount` is the element count of these views. -/
structure PingPongView where
  isInitialized : Bool
  elementCount : Nat
  deriving DecidableEq, Repr

/-- Modelled from the spec: what a `PaintDeltaCompute` pass, whose declaration is not
among the sources, is handed by the shape: the element count of the delta view given to
its constructor, and the granularity and element count given to `setPaintViews`. -/
structure PaintDeltaCompute where
  deltaViewElements : Nat
  paintsFaces : Bool
  numElements : Nat
  deriving DecidableEq, Repr

/-- The paint members of `VoxelShape`, with the `Voxels` record behind `getVoxels()`
(`none` for a null pointer). The paint values are `uint16_t`; `paintDeltaUAV` is the
element count of the view. `paintDeltaAllocations` is a ghost field: it counts the
executions of the assignment `paintDeltaBuffer = DirectX::createReadWriteBuffer(...)`. -/
structure VoxelShape where
  voxels : Option Voxels
  paintDeltaCompute : PaintDeltaCompute
  facePaintBufferA : Buffer Nat
  facePaintBufferB : Buffer Nat
  facePaintViews : PingPongView
  particlePaintBufferA : Buffer Nat
  particlePaintBufferB : Buffer Nat
  particlePaintViews : PingPongView
  paintDeltaBuffer : Buffer Nat
  paintDeltaUAV : Nat
  paintDeltaAllocations : Nat

/-- The largest `int`. -/
def INT_MAX : Int := 2147483647

/-- The product `a * b` of two `int` values; signed overflow is undefined. -/
def intMul (a b : Int) : Option Int :=
  if -INT_MAX - 1 ≤ a * b ∧ a * b ≤ INT_MAX then some (a * b) else none

/-- The vector `std::vector<uint16_t> emptyData(elementCount, 0)` for an `int` count: a
negative count converts to a size that the constructor rejects by throwing. -/
def emptyPaintData (elementCount : Int) : Option (List Nat) :=
  if elementCount < 0 then none else some (List.replicate elementCount.toNat 0)

/-- Embeds `VoxelShape::allocatePaintDeltaBuffer`. -/
def allocatePaintDeltaBuffer (s : VoxelShape) : Option VoxelShape :=
  match s.voxels with
  | none => some s
  | some voxels =>
    let numVoxels := voxels.numOccupied
    match intMul numVoxels 8 with
    | none => none
    | some elementCount =>
      match emptyPaintData elementCount with
      | none => none
      | some emptyData =>
        some { s with
          paintDeltaBuffer := createReadWriteBuffer emptyData
          paintDeltaUAV := elementCount.toNat
          paintDeltaCompute :=
            { deltaViewElements := elementCount.toNat, paintsFaces := false, numElements := 0 }
          paintDeltaAllocations := s.paintDeltaAllocations + 1 }

/-- Embeds `VoxelShape::allocatePaintBuffers`; `facePaintMode` selects the buffers and the
views that the caller passes by reference. -/
def allocatePaintBuffers (elementsPerVoxel : Int) (facePaintMode : Bool) (s : VoxelShape) :
    Option VoxelShape :=
  match s.voxels with
  | none => some s
  | some voxels =>
    let numVoxels := voxels.numOccupied
    match intMul numVoxels elementsPerVoxel with
    | none => none
    | some elementCount =>
      match emptyPaintData elementCount with
      | none => none
      | some emptyData =>
        let paintViews : PingPongView :=
          { isInitialized := true, elementCount := elementCount.toNat }
        if facePaintMode then
          some { s with
            facePaintBufferA := createReadWriteBuffer emptyData
            facePaintBufferB := createReadWriteBuffer emptyData
            facePaintViews := paintViews }
        else
          some { s with
            particlePaintBufferA := createReadWriteBuffer emptyData
            particlePaintBufferB := createReadWriteBuffer emptyData
            particlePaintViews := paintViews }

/-- Embeds `VoxelShape::getPaintView`: the shape after the call (the returned reference is
to `facePaintViews` or to `particlePaintViews` of that shape). -/
def getPaintView (s : VoxelShape) (paintMode : VoxelEditMode) : Option VoxelShape :=
  match (if s.paintDeltaBuffer.isNone then allocatePaintDeltaBuffer s else some s) with
  | none => none
  | some s1 =>
    let facePaintMode : Bool := paintMode == VoxelEditMode.FacePaint
    let paintViews := if facePaintMode then s1.facePaintViews else s1.particlePaintViews
    if !paintViews.isInitialized then
      let elementsPerVoxel : Int := if facePaintMode then 6 else 8
      allocatePaintBuffers elementsPerVoxel facePaintMode s1
    else
      some s1

/-- Embeds `VoxelShape::subscribeToPaintStateChanges` up to the call of `setPaintViews`
(the stroke callback that it registers is not run here). `getVoxels()` is dereferenced
without a test, and the `int` product is converted to `uint`. -/
def subscribeToPaintStateChanges (s : VoxelShape) (paintMode : VoxelEditMode) :
    Option VoxelShape :=
  let isFacePaintMode : Bool := paintMode == VoxelEditMode.FacePaint
  match s.voxels with
  | none => none
  | some voxels =>
    match intMul voxels.numOccupied (if isFacePaintMode then 6 else 8) with
    | none => none
    | some product =>
      let numElements := (product % (uintSize : Int)).toNat
      some { s with
        paintDeltaCompute :=
          { s.paintDeltaCompute with paintsFaces := isFacePaintMode, numElements := numElements } }

/-- What `VoxelSubSceneOverride::onEditModeChange` does to the shape it draws, with a
renderer override instance present: for a paint mode of this shape,
`sendVoxelInfoToPaintRenderOp` fetches the paint view and the shape subscribes to the
paint strokes. -/
def onEditModeChange (s : VoxelShape) (newMode : VoxelEditMode) (isThisShape : Bool) :
    Option VoxelShape :=
  let isPaintMode : Bool :=
    newMode == VoxelEditMode.FacePaint || newMode == VoxelEditMode.ParticlePaint
  if isPaintMode && isThisShape then
    match getPaintView s newMode with
    | none => none
    | some s1 => subscribeToPaintStateChanges s1 newMode
  else
    some s

/-- A call that reaches the paint buffers of a shape. -/
inductive PaintCall where
  | getPaintView (paintMode : VoxelEditMode)
  | onEditModeChange (newMode : VoxelEditMode) (isThisShape : Bool)
  deriving DecidableEq, Repr

/-- Runs one call on the shape. -/
def runPaintCall (s : VoxelShape) (call : PaintCall) : Option VoxelShape :=
  match call with
  | PaintCall.getPaintView paintMode => getPaintView s paintMode
  | PaintCall.onEditModeChange newMode isThisShape => onEditModeChange s newMode isThisShape

/-- Runs the calls in order. -/
def runPaintCalls (calls : List PaintCall) (s : VoxelShape) : Option VoxelShape :=
  calls.foldlM runPaintCall s

/-- A shape over `voxels` before any paint buffer exists. -/
def unpaintedShape (voxels : Voxels) : VoxelShape :=
  { voxels := some voxels
    paintDeltaCompute := { deltaViewElements := 0, paintsFaces := false, numElements := 0 }
    facePaintBufferA := none
    facePaintBufferB := none
    facePaintViews := { isInitialized := false, elementCount := 0 }
    particlePaintBufferA := none
    particlePaintBufferB := none
    particlePaintViews := { isInitialized := false, elementCount := 0 }
    paintDeltaBuffer := none
    paintDeltaUAV := 0
    paintDeltaAllocations := 0 }

/-- The delta buffer of the shape holds `8 * N` elements and was allocated `k` times,
over a voxel record with `N` occupied cells. -/
def DeltaAllocated (N k : Nat) (s : VoxelShape) : Prop :=
  (∃ voxels, s.voxels = some voxels ∧ voxels.numOccupied = (N : Int)) ∧
  (∃ xs, s.paintDeltaBuffer = some xs ∧ xs.length = 8 * N) ∧
  s.paintDeltaAllocations = k

/-- The example after cell 1 was hidden (its six indices left the index buffer), with
cell 0 hidden earlier and committed by a selection change. -/
def cellOneRecentlyHidden : VoxelSubSceneOverride :=
  { fourCellInitial with
    hideAllowed := false
    visibleVoxelIdToGlobalId := [2, 3]
    hiddenFaces := [("voxelRenderItem_A", [0, 1, 2, 3, 4, 5])]
    recentlyHiddenFaces := [("voxelRenderItem_A", [6, 7, 8, 9, 10, 11])]
    hiddenVoxels := [0]
    recentlyHiddenVoxels := [1]
    meshIndexBuffers := [("voxelRenderItem_A", [12, 13, 14, 15, 16, 17, 18, 19, 20, 21, 22, 23])] }

/-- What holds of the voxel lists between two frames: nothing is queued for hiding, the
visible list is strictly ascending, the two hidden sets have no repetition, and the
visible list, the hidden set and the recently hidden set are pairwise disjoint. -/
def VisibleInvariant (s : VoxelSubSceneOverride) : Prop :=
  s.voxelsToHide = [] ∧
  s.visibleVoxelIdToGlobalId.Sorted (· < ·) ∧
  s.hiddenVoxels.Nodup ∧
  s.recentlyHiddenVoxels.Nodup ∧
  (∀ x ∈ s.hiddenVoxels, x ∉ s.visibleVoxelIdToGlobalId) ∧
  (∀ x ∈ s.recentlyHiddenVoxels, x ∉ s.visibleVoxelIdToGlobalId) ∧
  (∀ x ∈ s.recentlyHiddenVoxels, x ∉ s.hiddenVoxels)

/-- The example after a `hide` command with voxel instance 1 selected and the `update`
that follows it. -/
def cellOneHidden : VoxelSubSceneOverride :=
  { fourCellInitial with
    hideAllowed := false
    visibleVoxelIdToGlobalId := [0, 2, 3]
    recentlyHiddenFaces := [("voxelRenderItem_A", [6, 7, 8, 9, 10, 11])]
    recentlyHiddenVoxels := [1]
    meshIndexBuffers :=
      [("voxelRenderItem_A", [0, 1, 2, 3, 4, 5, 12, 13, 14, 15, 16, 17, 18, 19, 20, 21, 22, 23])] }

/-- The example after the hide of cell 1 and a selection change. -/
def cellOneCommitted : VoxelSubSceneOverride :=
  { fourCellInitial with
    visibleVoxelIdToGlobalId := [0, 2, 3]
    hiddenFaces := [("voxelRenderItem_A", [6, 7, 8, 9, 10, 11])]
    hiddenVoxels := [1]
    meshIndexBuffers :=
      [("voxelRenderItem_A", [0, 1, 2, 3, 4, 5, 12, 13, 14, 15, 16, 17, 18, 19, 20, 21, 22, 23])] }

/-- The example after the hide of cell 1 and a visibility toggle that shows it again: its
indices are back at the end of the index buffer. -/
def cellOneShownAgain : VoxelSubSceneOverride :=
  { fourCellInitial with
    meshIndexBuffers :=
      [("voxelRenderItem_A", [0, 1, 2, 3, 4, 5, 12, 13, 14, 15, 16, 17, 18, 19, 20, 21, 22, 23,
        6, 7, 8, 9, 10, 11])] }

/-- The example after a `hide` command with voxel instance 1 selected, a `SelectionChanged`
event before the refresh, and then `update`: cell 1 is recently hidden and plain hide is
armed again. -/
def cellOneHiddenRearmed : VoxelSubSceneOverride :=
  { cellOneHidden with hideAllowed := true }

/-- The state `cellOneHiddenRearmed` after a `hide` command with voxel instance 1 selected,
which now stands for cell 2. -/
def hideCellTwoPending : VoxelSubSceneOverride :=
  { cellOneHiddenRearmed with
    showHideStateChange := ShowHideStateChange.HideSelected
    shouldUpdate := true
    hideAllowed := false
    voxelsToHide := [2] }

/-- A container with two mesh render items (two shading groups). -/
def twoItemContainer : List RenderItem :=
  [ { internalObjectId := 1, name := "voxelRenderItem_A" },
    { internalObjectId := 2, name := "voxelRenderItem_B" } ]

/-- The four cells drawn by two render items, A for the cells 0 and 1 and B for the cells
2 and 3, with cell 3 recently hidden and a hide of cell 1 pending. -/
def twoItemHideCellOnePending : VoxelSubSceneOverride :=
  { showHideStateChange := ShowHideStateChange.HideSelected
    shouldUpdate := true
    selectionChanged := false
    hideAllowed := false
    voxelsToHide := [1]
    visibleVoxelIdToGlobalId := [0, 1, 2]
    hiddenFaces := []
    recentlyHiddenFaces := [("voxelRenderItem_B", [18, 19, 20, 21, 22, 23])]
    hiddenVoxels := []
    recentlyHiddenVoxels := [3]
    meshIndexBuffers :=
      [("voxelRenderItem_A", [0, 1, 2, 3, 4, 5, 6, 7, 8, 9, 10, 11]),
       ("voxelRenderItem_B", [12, 13, 14, 15, 16, 17])]
    allMeshIndices := fourCellIndices
    meshRenderItemIDs := [1, 2] }

/-! ## Integer helpers (`src/utils.h`) -/

/-- The `int` that a two's-complement machine holds for the integer `v`: `v` reduced
modulo `2^32` into the range from `-2^31` to `2^31 - 1`. -/
def intWrap (v : Int) : Int :=
  (v + 2147483648) % 4294967296 - 2147483648

/-- The quotient `a / b` of two `int` values, truncated toward zero; undefined for a zero
divisor and for `INT_MIN / -1`. -/
def intDiv (a b : Int) : Option Int :=
  if b = 0 then none
  else if a = -INT_MAX - 1 ∧ b = -1 then none
  else some (Int.tdiv a b)

/-- Embeds `Utils::divideRoundUp`: `(numerator + denominator - 1) / denominator` in `int`,
evaluated from left to right, the sum and the difference in two's complement. -/
def divideRoundUp (numerator denominator : Int) : Option Int :=
  intDiv (intWrap (intWrap (numerator + denominator) - 1)) denominator

/-! ## Half-precision conversion (`src/utils.cpp`) -/

/-- Embeds `Utils::floatToHalf` on the 32 bits of its argument (the `memcpy` of the
`float` into a `uint32_t`). `exponent` is a `uint32_t`: the subtraction of 112 wraps, and
`exponent <= 0` holds only for `exponent == 0`. The result is converted to `uint16_t`. -/
def floatToHalf (bits : Nat) : Nat :=
  let sign := (bits >>> 16) &&& 0x8000
  let exponent := (((bits >>> 23) &&& 0xFF) + (uintSize - 112)) % uintSize
  let mantissa := bits &&& 0x007FFFFF
  if exponent ≤ 0 then
    sign % 65536
  else if exponent ≥ 31 then
    (sign ||| 0x7C00) % 65536
  else
    (sign ||| (exponent <<< 10) % uintSize ||| (mantissa >>> 13)) % 65536

/-- The number that IEEE 754 assigns to the binary32 pattern `bits` when it encodes a
normal number (exponent field from 1 to 254): sign bit 31, exponent bits 23 to 30 with
bias 127, and 23 fraction bits behind an implicit leading one. -/
def binary32Value (bits : Nat) : ℚ :=
  (-1) ^ (bits / 2 ^ 31) * (2 : ℚ) ^ (((bits / 2 ^ 23 % 256 : Nat) : Int) - 127)
    * (1 + ((bits % 2 ^ 23 : Nat) : ℚ) / 2 ^ 23)

/-- The number that IEEE 754 assigns to the binary16 pattern `half` when it encodes a
normal number (exponent field from 1 to 30): sign bit 15, exponent bits 10 to 14 with
bias 15, and 10 fraction bits behind an implicit leading one. -/
def binary16Value (half : Nat) : ℚ :=
  (-1) ^ (half / 2 ^ 15) * (2 : ℚ) ^ (((half / 2 ^ 10 % 32 : Nat) : Int) - 15)
    * (1 + ((half % 2 ^ 10 : Nat) : ℚ) / 2 ^ 10)

/-! ## Morton codes (`src/utils.cpp`) -/

/-- The lambda `spreadBits` of `Utils::toMortonCode`, on a `uint32_t`: every left shift
drops the bits that leave the 32-bit word. -/
def spreadBits (value : Nat) : Nat :=
  let value := (value ||| (value <<< 16) % uintSize) &&& 0x030000FF
  let value := (value ||| (value <<< 8) % uintSize) &&& 0x0300F00F
  let value := (value ||| (value <<< 4) % uintSize) &&& 0x030C30C3
  let value := (value ||| (value <<< 2) % uintSize) &&& 0x09249249
  value

/-- Embeds `Utils::toMortonCode`. -/
def toMortonCode (x y z : Nat) : Nat :=
  let xBits := spreadBits x
  let yBits := (spreadBits y <<< 1) % uintSize
  let zBits := (spreadBits z <<< 2) % uintSize
  xBits ||| yBits ||| zBits

/-- The lambda `compactBits` of `Utils::fromMortonCode`. -/
def compactBits (value : Nat) : Nat :=
  let value := value &&& 0x09249249
  let value := (value ^^^ (value >>> 2)) &&& 0x030C30C3
  let value := (value ^^^ (value >>> 4)) &&& 0x0300F00F
  let value := (value ^^^ (value >>> 8)) &&& 0x030000FF
  let value := (value ^^^ (value >>> 16)) &&& 0x000003FF
  value

/-- Embeds `Utils::fromMortonCode`: the values written to `x`, `y` and `z`. -/
def fromMortonCode (mortonCode : Nat) : Nat × Nat × Nat :=
  (compactBits mortonCode, compactBits (mortonCode >>> 1), compactBits (mortonCode >>> 2))

/-! ## Geometry build (`src/custommayaconstructs/draw/voxelsubsceneoverride.h`) -/

/-- What `createMeshRenderItems` reads of the `MGeometryExtractor` of one build: the
`vertexid` stream (for every extracted vertex the ID of the mesh vertex it was split from,
delivered as whole-number floats), the index buffer of the whole mesh, and for every
shading set that gets a render item its ID, its name and its index buffer. -/
structure GeometryExtractor where
  vertexIds : List Nat
  indices : List Nat
  items : List (Nat × String × List Nat)
  deriving DecidableEq, Repr

/-- Embeds `MGeometryExtractor::vertexCount`. -/
def GeometryExtractor.vertexCount (extractor : GeometryExtractor) : Nat :=
  extractor.vertexIds.length

/-- The members of `VoxelSubSceneOverride` that `createMeshRenderItems` writes (the
vertex buffers hold no index or ID and are left out). -/
structure MeshBuild where
  meshIndexBuffers : List (String × List Nat)
  meshRenderItemIDs : List Nat
  allMeshIndices : List Nat
  extractedVertexIdMap : List Nat
  deriving DecidableEq, Repr

/-- Embeds `VoxelSubSceneOverride::getAllMeshIndices`: `allMeshIndices` is resized and
overwritten with the extractor's indices; the result is the extractor's vertex count. -/
def getAllMeshIndices (extractor : GeometryExtractor) (s : MeshBuild) : MeshBuild × Nat :=
  ({ s with allMeshIndices := extractor.indices }, extractor.vertexCount)

/-- Embeds `VoxelSubSceneOverride::getVertexIdMapping`: one `push_back` onto
`extractedVertexIdMap` for every extracted vertex. -/
def getVertexIdMapping (extractor : GeometryExtractor) (s : MeshBuild) : MeshBuild :=
  { s with
    extractedVertexIdMap :=
      extractor.vertexIds.foldl (fun map vertexId => map ++ [vertexId]) s.extractedVertexIdMap }

/-- Embeds `VoxelSubSceneOverride::createMeshRenderItems`: the four `clear()` calls, the
early returns (`extractor = none`: the mesh has no vertex or Maya reports a failure), one
index buffer and render item per shading set, `getAllMeshIndices` and
`getVertexIdMapping`. The result is the state and the `exportVertexIdMap` passed to
`initializeDeformVerticesCompute` (`none` after an early return). -/
def createMeshRenderItems (extractor : Option GeometryExtractor) (s : MeshBuild) :
    MeshBuild × Option (List Nat) :=
  let s1 := { s with meshIndexBuffers := [], meshRenderItemIDs := [], allMeshIndices := [] }
  match extractor with
  | none => (s1, none)
  | some e =>
    let s2 := e.items.foldl
      (fun st item =>
        { st with
          meshIndexBuffers := mapSet st.meshIndexBuffers item.2.1 item.2.2
          meshRenderItemIDs := setInsert st.meshRenderItemIDs item.1 })
      s1
    let s3 := (getAllMeshIndices e s2).1
    let s4 := getVertexIdMapping e s3
    (s4, some s4.extractedVertexIdMap)

/-- A freshly constructed override: every member is empty. -/
def emptyMeshBuild : MeshBuild :=
  { meshIndexBuffers := [], meshRenderItemIDs := [], allMeshIndices := [],
    extractedVertexIdMap := [] }

/-- The extraction of a one-triangle mesh whose vertex 1 is split in two by a UV seam. -/
def seamExtraction : GeometryExtractor :=
  { vertexIds := [0, 1, 1, 2], indices := [0, 1, 3], items := [(1, "voxelRenderItem_A", [0, 1, 3])] }

/-- The extraction of the same mesh without UVs, as the rebuild for an export requests it:
no vertex is split. -/
def exportExtraction : GeometryExtractor :=
  { vertexIds := [0, 1, 2], indices := [0, 1, 2], items := [(1, "voxelRenderItem_A", [0, 1, 2])] }

/-! # Properties -/

/-! ## Association lists -/

theorem lookup_mapSet_self {β : Type} (m : List (String × β)) (k : String) (v : β) :
    (mapSet m k v).lookup k = some v := by
  induction m with
  | nil => simp [mapSet, List.lookup]
  | cons e rest ih =>
    obtain ⟨k', v'⟩ := e
    by_cases h : k' = k
    · simp [mapSet, h, List.lookup]
    · have h' : (k == k') = false := by simpa using fun e => h e.symm
      simp [mapSet, h, List.lookup, h', ih]

theorem lookup_mapSet_ne {β : Type} (m : List (String × β)) (k k' : String) (v : β)
    (hne : k' ≠ k) : (mapSet m k v).lookup k' = m.lookup k' := by
  have hb : (k' == k) = false := by simpa using hne
  induction m with
  | nil => simp [mapSet, List.lookup, hb]
  | cons e rest ih =>
    obtain ⟨k0, v0⟩ := e
    by_cases h : k0 = k
    · subst h
      simp [mapSet, List.lookup, hb]
    · simp only [mapSet, h, if_false, List.lookup]
      cases hk : (k' == k0) <;> simp [ih]

theorem mem_keys_mapSet {β : Type} (m : List (String × β)) (k k' : String) (v : β) :
    k' ∈ (mapSet m k v).map Prod.fst ↔ k' = k ∨ k' ∈ m.map Prod.fst := by
  induction m with
  | nil => simp [mapSet]
  | cons e rest ih =>
    obtain ⟨k0, v0⟩ := e
    by_cases h : k0 = k
    · subst h
      simp [mapSet]
    · simp only [mapSet, h, if_false, List.map_cons, List.mem_cons, ih]
      tauto

theorem nodup_keys_mapSet {β : Type} (m : List (String × β)) (k : String) (v : β)
    (hnd : (m.map Prod.fst).Nodup) : ((mapSet m k v).map Prod.fst).Nodup := by
  induction m with
  | nil => simp [mapSet]
  | cons e rest ih =>
    obtain ⟨k0, v0⟩ := e
    simp only [List.map_cons, List.nodup_cons] at hnd
    by_cases h : k0 = k
    · subst h
      simpa [mapSet] using hnd
    · simp only [mapSet, h, if_false, List.map_cons, List.nodup_cons]
      refine ⟨?_, ih hnd.2⟩
      intro hmem
      rcases (mem_keys_mapSet rest k k0 v).mp hmem with h1 | h1
      · exact h h1
      · exact hnd.1 h1

theorem lookup_isSome_iff {β : Type} (m : List (String × β)) (k : String) :
    (m.lookup k).isSome = true ↔ k ∈ m.map Prod.fst := by
  induction m with
  | nil => simp [List.lookup]
  | cons e rest ih =>
    obtain ⟨k0, v0⟩ := e
    simp only [List.lookup, List.map_cons, List.mem_cons]
    cases hk : (k == k0)
    · have : k ≠ k0 := by simpa using hk
      simp [ih, this]
    · have : k = k0 := by simpa using hk
      simp [this]

theorem lookup_isSome_mapSet {β : Type} (m : List (String × β)) (k k' : String) (v : β)
    (hk : (m.lookup k).isSome = true) :
    ((mapSet m k v).lookup k').isSome = (m.lookup k').isSome := by
  by_cases h : k' = k
  · subst h
    rw [lookup_mapSet_self, hk]
    rfl
  · rw [lookup_mapSet_ne m k k' v h]


/-! ## Buffer arena: properties -/

theorem addToBuffer_existing {α : Type} [Inhabited α] (old addedData : List α) :
    addToBuffer (some old) addedData = some (some (addedData ++ old)) := by
  have h1 : List.take (old.length + addedData.length) addedData = addedData :=
    List.take_of_length_le (by omega)
  have h2 : List.drop (addedData.length + old.length) addedData = [] :=
    List.drop_of_length_le (by omega)
  simp [addToBuffer, getNumElementsInBuffer, vectorResize, createBufferFromBufferTemplate,
    copyBufferSubregion, List.take_append_eq_append_take, List.drop_append_eq_append_drop, h1, h2]

theorem deleteFromBuffer_front {α : Type} [Inhabited α] (front old : List α)
    (hfront : front.length < uintSize) (hold : old ≠ []) :
    deleteFromBuffer (some (front ++ old)) front.length 0 = some (some old) := by
  have hpos : 0 < old.length := List.length_pos.mpr hold
  have hmod : front.length % uintSize = front.length := Nat.mod_eq_of_lt hfront
  have hlt : ¬ (front.length + old.length ≤ front.length) := by omega
  simp [deleteFromBuffer, getNumElementsInBuffer, createBufferFromBufferTemplate,
    copyBufferSubregion, hmod, hpos, hlt]


/-- C3 as stated fails: appending one element to the buffer `[1]` and deleting one
element at offset `K = 1` leaves `[2]`, the added element, not the original `[1]`. -/
theorem C3_add_then_delete_at_K_counterexample :
    (addToBuffer (some [1]) [2]).bind (fun b => deleteFromBuffer b 1 1) = some (some [2]) ∧
    (addToBuffer (some [1]) [2]).bind (fun b => deleteFromBuffer b 1 1) ≠ some (some [1]) := by
  decide

/-- C3 amended: `addToBuffer` prepends, so for a non-empty buffer `old` and `m` new
elements (`m` a 32-bit count) `addToBuffer` followed by `deleteFromBuffer` with
count `m` and offset `0` gives back exactly `old`, in order. -/
theorem C3_add_then_delete_front_restores {α : Type} [Inhabited α] (old addedData : List α)
    (hm : addedData.length < uintSize) (hK : old ≠ []) :
    (addToBuffer (some old) addedData).bind (fun b => deleteFromBuffer b addedData.length 0)
      = some (some old) := by
  rw [addToBuffer_existing]
  exact deleteFromBuffer_front addedData old hm hK

theorem C3_add_then_delete_front_restores_witness :
    (addToBuffer (some [7, 8]) [5]).bind (fun b => deleteFromBuffer b [5].length 0)
      = some (some [7, 8]) :=
  C3_add_then_delete_front_restores [7, 8] [5] (by decide) (by decide)

/-! ## Voxel-vertex mapper: properties -/

theorem stamps_foldlM {ε : Type} (c n : Nat) (fp : ε → List Nat)
    (step : List Nat → ε → Option (List Nat)) (l : List ε)
    (hstep : ∀ e ∈ l, ∀ ids : List Nat, ids.length = n → Stamps c (fp e) (step ids e) ids)
    (ids : List Nat) (hlen : ids.length = n) :
    Stamps c (l.flatMap fp) (l.foldlM step ids) ids := by
  induction l generalizing ids with
  | nil => exact ⟨ids, by simp, rfl, by simp⟩
  | cons e t ih =>
    obtain ⟨mid, hmid, hmlen, hmval⟩ := hstep e (List.mem_cons_self _ _) ids hlen
    obtain ⟨out, hout, holen, hoval⟩ :=
      ih (fun e' he' => hstep e' (List.mem_cons_of_mem _ he')) mid (hmlen.trans hlen)
    refine ⟨out, ?_, holen.trans hmlen, ?_⟩
    · simp [List.foldlM_cons, hmid, hout]
    · intro v
      rw [hoval v, hmval v]
      by_cases h1 : v ∈ t.flatMap fp <;> by_cases h2 : v ∈ fp e <;>
        simp [List.flatMap_cons, List.mem_append, h1, h2]

theorem stamps_stampVertex (vertexIndices : List Nat) (c : Nat) (f : Int) (ids : List Nat)
    (k : Int) (v : Nat) (hv : vectorAt vertexIndices (3 * f + k) = some v) (hlt : v < ids.length) :
    Stamps c ((vectorAt vertexIndices (3 * f + k)).toList)
      (stampVertex vertexIndices c f ids k) ids := by
  refine ⟨ids.set v c, ?_, by simp, ?_⟩
  · simp [stampVertex, hv, hlt]
  · intro w
    rw [List.getElem?_set, hv]
    by_cases hw : v = w
    · subst hw; simp [hlt]
    · have : ¬ w = v := fun h => hw h.symm
      simp [hw, this]


theorem stamps_stampTriangle (vertexIndices : List Nat) (c n : Nat) (f : Int)
    (hf : ∀ k ∈ ([0, 1, 2] : List Int), ∃ v, vectorAt vertexIndices (3 * f + k) = some v ∧ v < n)
    (ids : List Nat) (hlen : ids.length = n) :
    Stamps c (triangleVertices vertexIndices f) (stampTriangle vertexIndices c ids f) ids := by
  unfold triangleVertices stampTriangle
  refine stamps_foldlM c n (fun k => (vectorAt vertexIndices (3 * f + k)).toList) _ _ ?_ ids hlen
  intro k hk ids' hlen'
  obtain ⟨v, hv, hlt⟩ := hf k hk
  exact stamps_stampVertex vertexIndices c f ids' k v hv (hlen' ▸ hlt)

theorem stamps_addVoxelIdToVerts (vertexIndices : List Nat) (faceComponents : List (List Int))
    (c n : Nat) (hc : c < faceComponents.length)
    (hf : ∀ f ∈ faceComponents.getD c [], ∀ k ∈ ([0, 1, 2] : List Int),
      ∃ v, vectorAt vertexIndices (3 * f + k) = some v ∧ v < n)
    (ids : List Nat) (hlen : ids.length = n) :
    Stamps c ((faceComponents.getD c []).flatMap (triangleVertices vertexIndices))
      (addVoxelIdToVerts vertexIndices faceComponents c ids) ids := by
  have hget : faceComponents[c]? = some faceComponents[c] := List.getElem?_eq_getElem hc
  have hD : faceComponents.getD c [] = faceComponents[c] := by
    simp [List.getD, hget]
  rw [hD] at hf ⊢
  simp only [addVoxelIdToVerts, hget]
  exact stamps_foldlM c n (triangleVertices vertexIndices) _ _
    (fun f hfm ids' hlen' => stamps_stampTriangle vertexIndices c n f (hf f hfm) ids' hlen')
    ids hlen

theorem stamps_seq (c : Nat) (fp1 fp2 : List Nat) (ids mid : List Nat)
    (r2 : Option (List Nat))
    (h1len : mid.length = ids.length)
    (h1val : ∀ v, mid[v]? = if v ∈ fp1 then some c else ids[v]?)
    (h2 : Stamps c fp2 r2 mid) :
    Stamps c (fp1 ++ fp2) r2 ids := by
  obtain ⟨out, hout, holen, hoval⟩ := h2
  refine ⟨out, hout, holen.trans h1len, ?_⟩
  intro v
  rw [hoval v, h1val v]
  by_cases a : v ∈ fp1 <;> by_cases b : v ∈ fp2 <;> simp [a, b]

theorem stamps_stampVoxel (vertexIndices : List Nat) (voxels : Voxels) (i c n : Nat)
    (hi : sortedIdx voxels i = some c)
    (hs : c < voxels.surfaceFaceComponents.length)
    (hn : c < voxels.interiorFaceComponents.length)
    (hf : ∀ f ∈ cellFaces voxels c, ∀ k ∈ ([0, 1, 2] : List Int),
      ∃ v, vectorAt vertexIndices (3 * f + k) = some v ∧ v < n)
    (ids : List Nat) (hlen : ids.length = n) :
    Stamps c (cellVertices vertexIndices voxels c) (stampVoxel vertexIndices voxels ids i) ids := by
  have hfs : ∀ f ∈ voxels.surfaceFaceComponents.getD c [], ∀ k ∈ ([0, 1, 2] : List Int),
      ∃ v, vectorAt vertexIndices (3 * f + k) = some v ∧ v < n :=
    fun f hfm => hf f (List.mem_append.mpr (Or.inl hfm))
  have hfi : ∀ f ∈ voxels.interiorFaceComponents.getD c [], ∀ k ∈ ([0, 1, 2] : List Int),
      ∃ v, vectorAt vertexIndices (3 * f + k) = some v ∧ v < n :=
    fun f hfm => hf f (List.mem_append.mpr (Or.inr hfm))
  obtain ⟨mid, hmid, hmlen, hmval⟩ :=
    stamps_addVoxelIdToVerts vertexIndices voxels.surfaceFaceComponents c n hs hfs ids hlen
  have h2 := stamps_addVoxelIdToVerts vertexIndices voxels.interiorFaceComponents c n hn hfi mid
    (hmlen.trans hlen)
  have hseq := stamps_seq c _ _ ids mid _ hmlen hmval h2
  unfold sortedIdx at hi
  unfold stampVoxel cellVertices cellFaces
  rw [List.flatMap_append]
  cases hcode : voxels.mortonCodes[i]? with
  | none => simp [hcode] at hi
  | some code =>
    simp only [hcode] at hi
    simp only [hi, hmid]
    exact hseq


theorem stampVoxel_foldlM (vertexIndices : List Nat) (voxels : Voxels) (n : Nat) (l : List Nat)
    (hstep : ∀ i ∈ l, ∃ c, sortedIdx voxels i = some c ∧
      ∀ ids : List Nat, ids.length = n →
        Stamps c (cellVertices vertexIndices voxels c) (stampVoxel vertexIndices voxels ids i) ids)
    (hown : ∀ i ∈ l, ∀ j ∈ l, ∀ c d, sortedIdx voxels i = some c → sortedIdx voxels j = some d →
      ∀ v, v ∈ cellVertices vertexIndices voxels c → v ∈ cellVertices vertexIndices voxels d →
        c = d)
    (ids : List Nat) (hlen : ids.length = n) :
    ∃ out, l.foldlM (stampVoxel vertexIndices voxels) ids = some out ∧ out.length = n ∧
      (∀ i ∈ l, ∀ c, sortedIdx voxels i = some c →
        ∀ v ∈ cellVertices vertexIndices voxels c, out[v]? = some c) ∧
      (∀ v, (∀ i ∈ l, ∀ c, sortedIdx voxels i = some c →
        v ∉ cellVertices vertexIndices voxels c) → out[v]? = ids[v]?) := by
  induction l generalizing ids with
  | nil => exact ⟨ids, by simp, hlen, by simp, by simp⟩
  | cons i t ih =>
    obtain ⟨c, hc, hstamp⟩ := hstep i (List.mem_cons_self _ _)
    obtain ⟨mid, hmid, hmlen, hmval⟩ := hstamp ids hlen
    obtain ⟨out, hout, holen, hin, hnot⟩ :=
      ih (fun j hj => hstep j (List.mem_cons_of_mem _ hj))
        (fun a ha b hb => hown a (List.mem_cons_of_mem _ ha) b (List.mem_cons_of_mem _ hb))
        mid (hmlen.trans hlen)
    refine ⟨out, ?_, holen, ?_, ?_⟩
    · simp [List.foldlM_cons, hmid, hout]
    · intro j hj d hd v hv
      rcases List.mem_cons.mp hj with rfl | hjt
      · by_cases hex : ∃ a ∈ t, ∃ e, sortedIdx voxels a = some e ∧
            v ∈ cellVertices vertexIndices voxels e
        · obtain ⟨a, ha, e, he, hve⟩ := hex
          have hde : d = e :=
            hown j (List.mem_cons_self _ _) a (List.mem_cons_of_mem _ ha) d e hd he v hv hve
          rw [hde]
          exact hin a ha e he v hve
        · have hfree : ∀ a ∈ t, ∀ e, sortedIdx voxels a = some e →
              v ∉ cellVertices vertexIndices voxels e :=
            fun a ha e he hve => hex ⟨a, ha, e, he, hve⟩
          have hcd : c = d := Option.some.inj (hc.symm.trans hd)
          rw [hnot v hfree, hmval v, hcd]
          simp [hv]
      · exact hin j hjt d hd v hv
    · intro v hv
      have hfree : ∀ a ∈ t, ∀ e, sortedIdx voxels a = some e →
          v ∉ cellVertices vertexIndices voxels e :=
        fun a ha e he => hv a (List.mem_cons_of_mem _ ha) e he
      rw [hnot v hfree, hmval v]
      simp [hv i (List.mem_cons_self _ _) c hc]


/-- C4: when the `N` locality keys resolve onto the cells `0..N-1`, every face index
and vertex index is in range and no render vertex is referenced by two different
cells, `getVoxelIdsForVertices` returns an array of `numVertices` stamps in which
every vertex referenced by a face of cell `c` holds `c`. -/
theorem C4_getVoxelIdsForVertices_stamps_owner (vertexIndices : List Nat) (numVertices : Nat)
    (voxels : Voxels) (N : Nat)
    (hN : voxels.numOccupied = (N : Int))
    (hres : ∀ i < N, ∃ c < N, sortedIdx voxels i = some c)
    (hall : ∀ c < N, ∃ i < N, sortedIdx voxels i = some c)
    (hs : N ≤ voxels.surfaceFaceComponents.length)
    (hn : N ≤ voxels.interiorFaceComponents.length)
    (hface : ∀ c < N, ∀ f ∈ cellFaces voxels c, ∀ k ∈ ([0, 1, 2] : List Int),
      ∃ v < numVertices, vectorAt vertexIndices (3 * f + k) = some v)
    (hown : ∀ c < N, ∀ d < N, ∀ v ∈ cellVertices vertexIndices voxels c,
      v ∈ cellVertices vertexIndices voxels d → c = d) :
    ∃ ids, getVoxelIdsForVertices vertexIndices numVertices voxels = some ids ∧
      ids.length = numVertices ∧
      ∀ c < N, ∀ v ∈ cellVertices vertexIndices voxels c, ids[v]? = some c := by
  have hstep : ∀ i ∈ List.range N, ∃ c, sortedIdx voxels i = some c ∧
      ∀ ids : List Nat, ids.length = numVertices →
        Stamps c (cellVertices vertexIndices voxels c)
          (stampVoxel vertexIndices voxels ids i) ids := by
    intro i hi
    obtain ⟨c, hc, hic⟩ := hres i (List.mem_range.mp hi)
    refine ⟨c, hic, fun ids hlen => ?_⟩
    refine stamps_stampVoxel vertexIndices voxels i c numVertices hic (by omega) (by omega)
      ?_ ids hlen
    intro f hf k hk
    obtain ⟨v, hv, hvk⟩ := hface c hc f hf k hk
    exact ⟨v, hvk, hv⟩
  have hown2 : ∀ i ∈ List.range N, ∀ j ∈ List.range N, ∀ c d, sortedIdx voxels i = some c →
      sortedIdx voxels j = some d →
      ∀ v, v ∈ cellVertices vertexIndices voxels c → v ∈ cellVertices vertexIndices voxels d →
        c = d := by
    intro i hi j hj c d hc hd v hvc hvd
    obtain ⟨c', hc', hic⟩ := hres i (List.mem_range.mp hi)
    obtain ⟨d', hd', hjd⟩ := hres j (List.mem_range.mp hj)
    have e1 : c = c' := Option.some.inj (hc.symm.trans hic)
    have e2 : d = d' := Option.some.inj (hd.symm.trans hjd)
    subst e1 e2
    exact hown c hc' d hd' v hvc hvd
  obtain ⟨out, hout, holen, hin, _⟩ :=
    stampVoxel_foldlM vertexIndices voxels numVertices (List.range N) hstep hown2
      (List.replicate numVertices UINT_MAX) (by simp)
  refine ⟨out, ?_, holen, ?_⟩
  · simp [getVoxelIdsForVertices, hN, hout]
  · intro c hc v hv
    obtain ⟨i, hi, hic⟩ := hall c hc
    exact hin i (List.mem_range.mpr hi) c hic v hv

theorem C4_getVoxelIdsForVertices_stamps_owner_witness :
    ∃ ids, getVoxelIdsForVertices [0, 1, 2, 3, 4, 5] 6 twoCellVoxels = some ids ∧
      ids.length = 6 ∧
      ∀ c < 2, ∀ v ∈ cellVertices [0, 1, 2, 3, 4, 5] twoCellVoxels c, ids[v]? = some c :=
  C4_getVoxelIdsForVertices_stamps_owner [0, 1, 2, 3, 4, 5] 6 twoCellVoxels 2 (by decide)
    (by decide) (by decide) (by decide) (by decide) (by decide) (by decide)

/-! ## Visibility state machine: event handler -/

theorem collectVoxelsToHide_inner_ok (comp : List Int) (s : VoxelSubSceneOverride)
    (hvalid : ∀ id ∈ comp, 0 ≤ id ∧ id.toNat < s.visibleVoxelIdToGlobalId.length) :
    ∃ s', comp.foldlM
      (fun st2 voxelInstanceId =>
        match vectorAt st2.visibleVoxelIdToGlobalId voxelInstanceId with
        | none => none
        | some globalId => some { st2 with voxelsToHide := setInsert st2.voxelsToHide globalId })
      s = some s' ∧ ∃ hide, s' = { s with voxelsToHide := hide } := by
  induction comp generalizing s with
  | nil => exact ⟨s, by simp, s.voxelsToHide, rfl⟩
  | cons id rest ih =>
    obtain ⟨h0, hlt⟩ := hvalid id (List.mem_cons_self _ _)
    have hat : vectorAt s.visibleVoxelIdToGlobalId id
        = some (s.visibleVoxelIdToGlobalId[id.toNat]) := by
      simp [vectorAt, List.getElem?_eq_getElem hlt]; omega
    obtain ⟨s', hs', hide, hh⟩ :=
      ih { s with voxelsToHide := setInsert s.voxelsToHide (s.visibleVoxelIdToGlobalId[id.toNat]) }
        (fun j hj => hvalid j (List.mem_cons_of_mem _ hj))
    refine ⟨s', ?_, hide, ?_⟩
    · simp only [List.foldlM_cons, hat]
      exact hs'
    · rw [hh]

theorem collectVoxelsToHide_ok (activeComponents : List (List Int)) (s : VoxelSubSceneOverride)
    (hvalid : ∀ comp ∈ activeComponents, ∀ id ∈ comp,
      0 ≤ id ∧ id.toNat < s.visibleVoxelIdToGlobalId.length) :
    ∃ hide, collectVoxelsToHide activeComponents s = some { s with voxelsToHide := hide } := by
  unfold collectVoxelsToHide
  induction activeComponents generalizing s with
  | nil => exact ⟨s.voxelsToHide, by simp⟩
  | cons comp rest ih =>
    obtain ⟨s', hs', hide, hh⟩ :=
      collectVoxelsToHide_inner_ok comp s (hvalid comp (List.mem_cons_self _ _))
    subst hh
    obtain ⟨hide2, h2⟩ := ih { s with voxelsToHide := hide }
      (fun c hc => hvalid c (List.mem_cons_of_mem _ hc))
    refine ⟨hide2, ?_⟩
    simp only [List.foldlM_cons, hs']
    exact h2

theorem onShowHideStateChange_not_armed (hasActiveComponents : Bool)
    (activeComponents : List (List Int)) (s : VoxelSubSceneOverride)
    (hdis : s.hideAllowed = false) :
    onShowHideStateChange "hide" true hasActiveComponents activeComponents s
      = some { s with shouldUpdate := true, showHideStateChange := ShowHideStateChange.None } := by
  have h1 : (indexW "hide" "toggleVisibilityAndKeepSelection" != -1) = false := by decide
  have h2 : (indexW "hide" "showHidden" != -1) = false := by decide
  simp [onShowHideStateChange, h1, h2, hdis]

theorem update_none_pending (voxels : Voxels) (container : List RenderItem)
    (s : VoxelSubSceneOverride) (hp : s.showHideStateChange = ShowHideStateChange.None) :
    update voxels container s = some { s with selectionChanged := false, shouldUpdate := false } := by
  cases s
  simp only at hp
  subst hp
  simp [update, applyShowHideStateChange]


/-- C6: for a valid selection, `onShowHideStateChange` returns, and the pending state is
given by the decision table of the handler, read in the order of its tests: unchanged on a
procedure exit; for `hide`, `HideSelected` if hiding is armed and `None` otherwise; for a
name containing `showHidden`, `ShowAll`; for a name containing
`toggleVisibilityAndKeepSelection`, `ShowSelected` if `recentlyHiddenVoxels` is non-empty,
else `HideSelected` if the shape has active components, else `ShowAll`; unchanged for any
other name. -/
theorem C6_onShowHideStateChange_pending_state (procName : String)
    (isProcEntry hasActiveComponents : Bool) (activeComponents : List (List Int))
    (s : VoxelSubSceneOverride)
    (hvalid : ∀ comp ∈ activeComponents, ∀ id ∈ comp,
      0 ≤ id ∧ id.toNat < s.visibleVoxelIdToGlobalId.length) :
    ∃ s', onShowHideStateChange procName isProcEntry hasActiveComponents activeComponents s
        = some s' ∧
      s'.showHideStateChange =
        if isProcEntry = false then s.showHideStateChange
        else if procName = "hide" then
          (if s.hideAllowed = true then ShowHideStateChange.HideSelected
           else ShowHideStateChange.None)
        else if indexW procName "showHidden" ≠ -1 then ShowHideStateChange.ShowAll
        else if indexW procName "toggleVisibilityAndKeepSelection" ≠ -1 then
          (if s.recentlyHiddenVoxels ≠ [] then ShowHideStateChange.ShowSelected
           else if hasActiveComponents = true then ShowHideStateChange.HideSelected
           else ShowHideStateChange.ShowAll)
        else s.showHideStateChange := by
  have h1 : (indexW "hide" "toggleVisibilityAndKeepSelection" != -1) = false := by decide
  have h2 : (indexW "hide" "showHidden" != -1) = false := by decide
  cases hE : isProcEntry
  · exact ⟨s, by simp [onShowHideStateChange], by simp⟩
  · by_cases hh : procName = "hide"
    · subst hh
      cases ha : s.hideAllowed
      · exact ⟨_, onShowHideStateChange_not_armed _ _ s ha, by simp⟩
      · obtain ⟨hide, hc⟩ := collectVoxelsToHide_ok activeComponents
          { s with shouldUpdate := true,
                   showHideStateChange := ShowHideStateChange.HideSelected,
                   hideAllowed := false } hvalid
        refine ⟨{ s with shouldUpdate := true,
                         showHideStateChange := ShowHideStateChange.HideSelected,
                         hideAllowed := false, voxelsToHide := hide }, ?_, ?_⟩
        · simp only [onShowHideStateChange, h1, h2, ha]
          simpa using hc
        · simp
    · by_cases hs : indexW procName "showHidden" = -1
      · by_cases ht : indexW procName "toggleVisibilityAndKeepSelection" = -1
        · exact ⟨s, by simp [onShowHideStateChange, hh, hs, ht], by simp [hh, hs, ht]⟩
        · by_cases hr : s.recentlyHiddenVoxels = []
          · cases hact : hasActiveComponents
            · exact ⟨_, by simp [onShowHideStateChange, hh, hs, ht, hr]; rfl,
                by simp [hh, hs, ht, hr]⟩
            · obtain ⟨hide, hc⟩ := collectVoxelsToHide_ok activeComponents
                { s with shouldUpdate := true,
                         showHideStateChange := ShowHideStateChange.HideSelected,
                         hideAllowed := false } hvalid
              refine ⟨{ s with shouldUpdate := true,
                               showHideStateChange := ShowHideStateChange.HideSelected,
                               hideAllowed := false, voxelsToHide := hide }, ?_, ?_⟩
              · simp only [onShowHideStateChange]
                simpa [hh, hs, ht, hr] using hc
              · simp [hh, hs, ht, hr]
          · have hpos : 0 < s.recentlyHiddenVoxels.length := List.length_pos.mpr hr
            exact ⟨_, by simp [onShowHideStateChange, hh, hs, ht, hpos]; rfl,
              by simp [hh, hs, ht, hr]⟩
      · exact ⟨_, by simp [onShowHideStateChange, hh, hs]; rfl, by simp [hh, hs]⟩


/-! ## Visibility state machine: what a hide leaves untouched -/

theorem hideItemFaces_frame (indicesToHide : List (Nat × Nat)) (s s' : VoxelSubSceneOverride)
    (item : RenderItem) (h : hideItemFaces indicesToHide s item = some s') :
    ∃ b rv rf, s' = { s with meshIndexBuffers := b, recentlyHiddenVoxels := rv,
                             recentlyHiddenFaces := rf } := by
  unfold hideItemFaces at h
  split at h
  · split at h
    · exact absurd h (by simp)
    · exact ⟨_, _, _, (Option.some.inj h).symm⟩
  · exact ⟨s.meshIndexBuffers, s.recentlyHiddenVoxels, s.recentlyHiddenFaces,
      (Option.some.inj h).symm⟩

theorem hideItemFaces_foldlM_frame (indicesToHide : List (Nat × Nat))
    (container : List RenderItem) (s s' : VoxelSubSceneOverride)
    (h : container.foldlM (hideItemFaces indicesToHide) s = some s') :
    ∃ b rv rf, s' = { s with meshIndexBuffers := b, recentlyHiddenVoxels := rv,
                             recentlyHiddenFaces := rf } := by
  induction container generalizing s with
  | nil =>
    simp at h
    exact ⟨s.meshIndexBuffers, s.recentlyHiddenVoxels, s.recentlyHiddenFaces, h.symm⟩
  | cons item rest ih =>
    rw [List.foldlM_cons] at h
    cases hstep : hideItemFaces indicesToHide s item with
    | none => simp [hstep] at h
    | some mid =>
      simp only [hstep, Option.bind_eq_bind, Option.some_bind] at h
      obtain ⟨b, rv, rf, hm⟩ := hideItemFaces_frame indicesToHide s mid item hstep
      obtain ⟨b2, rv2, rf2, hm2⟩ := ih mid h
      exact ⟨b2, rv2, rf2, by rw [hm2, hm]⟩

theorem hideSelectedMeshFaces_frame (voxels : Voxels) (container : List RenderItem)
    (s s' : VoxelSubSceneOverride) (h : hideSelectedMeshFaces voxels container s = some s') :
    ∃ b rv rf, s' = { s with meshIndexBuffers := b, recentlyHiddenVoxels := rv,
                             recentlyHiddenFaces := rf } := by
  unfold hideSelectedMeshFaces at h
  split at h
  · exact absurd h (by simp)
  · exact hideItemFaces_foldlM_frame _ container s s' h

theorem update_hide_frame (voxels : Voxels) (container : List RenderItem)
    (s s' : VoxelSubSceneOverride)
    (hp : s.showHideStateChange = ShowHideStateChange.HideSelected)
    (h : update voxels container s = some s') :
    s'.hideAllowed = s.hideAllowed ∧ s'.showHideStateChange = ShowHideStateChange.None ∧
      s'.shouldUpdate = false ∧ s'.selectionChanged = false ∧
      s'.hiddenVoxels = s.hiddenVoxels ∧ s'.hiddenFaces = s.hiddenFaces := by
  unfold update at h
  split at h
  · exact absurd h (by simp)
  · rename_i s1 h1
    have hs' := (Option.some.inj h).symm
    simp only [applyShowHideStateChange, hp] at h1
    split at h1
    · exact absurd h1 (by simp)
    · rename_i s2 h2
      obtain ⟨b, rv, rf, hm⟩ := hideSelectedMeshFaces_frame voxels container _ s2 h2
      unfold hideSelectedVoxels at h1
      split at h1
      · exact absurd h1 (by simp)
      · have h3 := (Option.some.inj h1).symm
        subst h3 hm hs'
        simp

/-- From a state where hiding is armed, the first `hide` command makes `HideSelected`
pending and disarms hiding. A second `hide` command then makes `None` pending and collects
nothing to hide, whether it comes before `update` has run or after it; after `update` has
performed the first hide, the second command followed by `update` gives back exactly the
state that the first hide left. -/
theorem second_plain_hide_is_noop (voxels : Voxels) (container : List RenderItem)
    (hasActive1 hasActive2 : Bool) (activeComponents1 activeComponents2 : List (List Int))
    (s : VoxelSubSceneOverride)
    (harmed : s.hideAllowed = true)
    (hvalid : ∀ comp ∈ activeComponents1, ∀ id ∈ comp,
      0 ≤ id ∧ id.toNat < s.visibleVoxelIdToGlobalId.length) :
    ∃ s1, onShowHideStateChange "hide" true hasActive1 activeComponents1 s = some s1 ∧
      s1.showHideStateChange = ShowHideStateChange.HideSelected ∧
      s1.hideAllowed = false ∧
      onShowHideStateChange "hide" true hasActive2 activeComponents2 s1
        = some { s1 with shouldUpdate := true,
                         showHideStateChange := ShowHideStateChange.None } ∧
      ∀ s2, update voxels container s1 = some s2 →
        ∃ s3, onShowHideStateChange "hide" true hasActive2 activeComponents2 s2 = some s3 ∧
          s3.showHideStateChange = ShowHideStateChange.None ∧
          s3.voxelsToHide = s2.voxelsToHide ∧
          update voxels container s3 = some s2 := by
  have h1 : (indexW "hide" "toggleVisibilityAndKeepSelection" != -1) = false := by decide
  have h2 : (indexW "hide" "showHidden" != -1) = false := by decide
  obtain ⟨hide, hc⟩ := collectVoxelsToHide_ok activeComponents1
    { s with shouldUpdate := true,
             showHideStateChange := ShowHideStateChange.HideSelected,
             hideAllowed := false } hvalid
  refine ⟨{ s with shouldUpdate := true,
                   showHideStateChange := ShowHideStateChange.HideSelected,
                   hideAllowed := false, voxelsToHide := hide }, ?_, rfl, rfl, ?_, ?_⟩
  · simp only [onShowHideStateChange, h1, h2, harmed]
    simpa using hc
  · exact onShowHideStateChange_not_armed _ _ _ rfl
  · intro s2 hu
    obtain ⟨ha, hp, hsu, hsc, _, _⟩ := update_hide_frame voxels container _ s2 rfl hu
    refine ⟨_, onShowHideStateChange_not_armed _ _ s2 (by simpa using ha), rfl, rfl, ?_⟩
    rw [update_none_pending _ _ _ rfl]
    cases s2
    simp only at hp hsu hsc
    subst hp hsu hsc
    rfl


/-! ## Hiding mesh faces: the scan of one index buffer -/

theorem mem_setInsert (s : List Nat) (x y : Nat) : y ∈ setInsert s x ↔ y ∈ s ∨ y = x := by
  unfold setInsert
  by_cases h : x ∈ s
  · simp only [h, if_true]
    constructor
    · exact Or.inl
    · rintro (h1 | h1)
      · exact h1
      · exact h1 ▸ h
  · simp [h]

theorem setInsert_ne_nil (s : List Nat) (x : Nat) : setInsert s x ≠ [] := by
  unfold setInsert
  by_cases h : x ∈ s
  · simp only [h, if_true]
    exact List.ne_nil_of_mem h
  · simp [h]

theorem hideScan_newIndices (M : List (Nat × Nat)) (n : String) (indices : List Nat)
    (st : HideScan) :
    (indices.foldl (hideScanStep M n) st).newIndices
      = st.newIndices ++ indices.filter (fun i => !isHidden M i) := by
  induction indices generalizing st with
  | nil => simp
  | cons i rest ih =>
    rw [List.foldl_cons, ih]
    cases h : M.lookup i <;> simp [hideScanStep, isHidden, h]

theorem hideScan_faces_self (M : List (Nat × Nat)) (n : String) (indices : List Nat)
    (st : HideScan) :
    mapIndex (indices.foldl (hideScanStep M n) st).recentlyHiddenFaces n
      = mapIndex st.recentlyHiddenFaces n ++ indices.filter (isHidden M) := by
  induction indices generalizing st with
  | nil => simp
  | cons i rest ih =>
    rw [List.foldl_cons, ih]
    cases h : M.lookup i
    · simp [hideScanStep, isHidden, h]
    · simp [hideScanStep, isHidden, h, mapIndex, lookup_mapSet_self]

theorem hideScan_faces_other (M : List (Nat × Nat)) (n n' : String) (hne : n' ≠ n)
    (indices : List Nat) (st : HideScan) :
    (indices.foldl (hideScanStep M n) st).recentlyHiddenFaces.lookup n'
      = st.recentlyHiddenFaces.lookup n' := by
  induction indices generalizing st with
  | nil => simp
  | cons i rest ih =>
    rw [List.foldl_cons, ih]
    cases h : M.lookup i
    · simp [hideScanStep, h]
    · simp [hideScanStep, h, lookup_mapSet_ne _ n n' _ hne]

theorem hideScan_voxels (M : List (Nat × Nat)) (n : String) (indices : List Nat)
    (st : HideScan) (x : Nat) :
    x ∈ (indices.foldl (hideScanStep M n) st).recentlyHiddenVoxels
      ↔ x ∈ st.recentlyHiddenVoxels ∨ ∃ i ∈ indices, M.lookup i = some x := by
  induction indices generalizing st with
  | nil => simp
  | cons i rest ih =>
    rw [List.foldl_cons, ih]
    cases h : M.lookup i
    · simp [hideScanStep, h]
    · rename_i v
      simp only [hideScanStep, h, mem_setInsert, List.mem_cons, exists_eq_or_imp,
        Option.some.injEq]
      constructor
      · rintro ((h1 | h1) | h1)
        · exact Or.inl h1
        · exact Or.inr (Or.inl h1.symm)
        · exact Or.inr (Or.inr h1)
      · rintro (h1 | h1 | h1)
        · exact Or.inl (Or.inl h1)
        · exact Or.inl (Or.inr h1.symm)
        · exact Or.inr h1

theorem hideScan_keys (M : List (Nat × Nat)) (n : String) (indices : List Nat)
    (st : HideScan) :
    (∀ k, k ∈ (indices.foldl (hideScanStep M n) st).recentlyHiddenFaces.map Prod.fst →
      k = n ∨ k ∈ st.recentlyHiddenFaces.map Prod.fst) ∧
    ((st.recentlyHiddenFaces.map Prod.fst).Nodup →
      ((indices.foldl (hideScanStep M n) st).recentlyHiddenFaces.map Prod.fst).Nodup) ∧
    ((st.recentlyHiddenVoxels = [] → st.recentlyHiddenFaces = []) →
      (indices.foldl (hideScanStep M n) st).recentlyHiddenVoxels = [] →
      (indices.foldl (hideScanStep M n) st).recentlyHiddenFaces = []) := by
  induction indices generalizing st with
  | nil => exact ⟨fun k hk => Or.inr hk, id, id⟩
  | cons i rest ih =>
    rw [List.foldl_cons]
    obtain ⟨ih1, ih2, ih3⟩ := ih (hideScanStep M n st i)
    cases h : M.lookup i
    · have hst : hideScanStep M n st i = { st with newIndices := st.newIndices ++ [i] } := by
        simp [hideScanStep, h]
      rw [hst] at ih1 ih2 ih3 ⊢
      exact ⟨ih1, ih2, ih3⟩
    · rename_i v
      have hst : hideScanStep M n st i = { st with
          recentlyHiddenVoxels := setInsert st.recentlyHiddenVoxels v
          recentlyHiddenFaces := mapSet st.recentlyHiddenFaces n
            (mapIndex st.recentlyHiddenFaces n ++ [i]) } := by
        simp [hideScanStep, h]
      rw [hst] at ih1 ih2 ih3 ⊢
      refine ⟨?_, ?_, ?_⟩
      · intro k hk
        rcases ih1 k hk with h1 | h1
        · exact Or.inl h1
        · exact (mem_keys_mapSet _ _ _ _).mp h1
      · intro hnd
        exact ih2 (nodup_keys_mapSet _ _ _ hnd)
      · intro _
        exact ih3 (fun hnil => absurd hnil (setInsert_ne_nil _ _))


/-! ## Hiding mesh faces: the loop over the render items -/

theorem hideItemFaces_step (M : List (Nat × Nat)) (t mid : VoxelSubSceneOverride)
    (item : RenderItem) (h : hideItemFaces M t item = some mid) :
    (item.internalObjectId ∉ t.meshRenderItemIDs ∧ mid = t) ∨
    (item.internalObjectId ∈ t.meshRenderItemIDs ∧
      ∃ indices, t.meshIndexBuffers.lookup item.name = some indices ∧
        mid = { t with
          meshIndexBuffers := mapSet t.meshIndexBuffers item.name
            (indices.filter (fun i => !isHidden M i))
          recentlyHiddenVoxels := (indices.foldl (hideScanStep M item.name)
            { newIndices := [], recentlyHiddenVoxels := t.recentlyHiddenVoxels,
              recentlyHiddenFaces := t.recentlyHiddenFaces }).recentlyHiddenVoxels
          recentlyHiddenFaces := (indices.foldl (hideScanStep M item.name)
            { newIndices := [], recentlyHiddenVoxels := t.recentlyHiddenVoxels,
              recentlyHiddenFaces := t.recentlyHiddenFaces }).recentlyHiddenFaces }) := by
  unfold hideItemFaces at h
  by_cases hm : item.internalObjectId ∈ t.meshRenderItemIDs
  · right
    refine ⟨hm, ?_⟩
    simp only [hm, if_true] at h
    cases hb : t.meshIndexBuffers.lookup item.name with
    | none => simp [hb] at h
    | some indices =>
      simp only [hb] at h
      refine ⟨indices, rfl, ?_⟩
      rw [← Option.some.inj h, hideScan_newIndices]
      simp
  · left
    simp only [hm, if_false] at h
    exact ⟨hm, (Option.some.inj h).symm⟩

theorem filter_hidden_of_kept (M : List (Nat × Nat)) (l : List Nat) :
    (l.filter (fun i => !isHidden M i)).filter (isHidden M) = [] := by
  induction l with
  | nil => rfl
  | cons a rest ih =>
    cases h : isHidden M a <;> simp [List.filter_cons, h, ih]

theorem filter_kept_of_kept (M : List (Nat × Nat)) (l : List Nat) :
    (l.filter (fun i => !isHidden M i)).filter (fun i => !isHidden M i)
      = l.filter (fun i => !isHidden M i) := by
  induction l with
  | nil => rfl
  | cons a rest ih =>
    cases h : isHidden M a <;> simp [List.filter_cons, h, ih]

/-- The loop of `hideSelectedMeshFaces` runs to its end when every mesh render item has
an index buffer, and it neither adds nor drops an index buffer. -/
theorem hideItems_ok (M : List (Nat × Nat)) (container : List RenderItem)
    (t : VoxelSubSceneOverride)
    (hbuf : ∀ it ∈ container, it.internalObjectId ∈ t.meshRenderItemIDs →
      (t.meshIndexBuffers.lookup it.name).isSome = true) :
    ∃ t', container.foldlM (hideItemFaces M) t = some t' ∧
      ∀ m, (t'.meshIndexBuffers.lookup m).isSome = (t.meshIndexBuffers.lookup m).isSome := by
  induction container generalizing t with
  | nil => exact ⟨t, by simp, fun _ => rfl⟩
  | cons item rest ih =>
    by_cases hm : item.internalObjectId ∈ t.meshRenderItemIDs
    · have hsome := hbuf item (List.mem_cons_self _ _) hm
      obtain ⟨indices, hind⟩ := Option.isSome_iff_exists.mp hsome
      have hstep : ∃ mid, hideItemFaces M t item = some mid := by
        simp [hideItemFaces, hm, hind]
      obtain ⟨mid, hmid⟩ := hstep
      rcases hideItemFaces_step M t mid item hmid with ⟨hno, _⟩ | ⟨_, ind2, hind2, hmideq⟩
      · exact absurd hm hno
      · have hkeys : ∀ m, (mid.meshIndexBuffers.lookup m).isSome
            = (t.meshIndexBuffers.lookup m).isSome := by
          intro m
          rw [hmideq]
          exact lookup_isSome_mapSet _ _ _ _ hsome
        have hids : mid.meshRenderItemIDs = t.meshRenderItemIDs := by rw [hmideq]
        obtain ⟨t', ht', hk'⟩ := ih mid (by
          intro it hit hmesh
          rw [hkeys]
          exact hbuf it (List.mem_cons_of_mem _ hit) (hids ▸ hmesh))
        refine ⟨t', ?_, fun m => (hk' m).trans (hkeys m)⟩
        simp [List.foldlM_cons, hmid, ht']
    · have hmid : hideItemFaces M t item = some t := by simp [hideItemFaces, hm]
      obtain ⟨t', ht', hk'⟩ := ih t (fun it hit => hbuf it (List.mem_cons_of_mem _ hit))
      exact ⟨t', by simp [List.foldlM_cons, hmid, ht'], hk'⟩

/-- What the loop of `hideSelectedMeshFaces` does to the index buffer and to the
`recentlyHiddenFaces` entry of the item named `n`: untouched while no mesh render item
of that name has been visited, filtered once one has. -/
theorem hideItems_target (M : List (Nat × Nat)) (n : String) (old r0 : List Nat)
    (container : List RenderItem) (t t' : VoxelSubSceneOverride)
    (hfold : container.foldlM (hideItemFaces M) t = some t') :
    ((t.meshIndexBuffers.lookup n = some old ∧ mapIndex t.recentlyHiddenFaces n = r0) →
      ((∃ it ∈ container, it.internalObjectId ∈ t.meshRenderItemIDs ∧ it.name = n) →
        t'.meshIndexBuffers.lookup n = some (old.filter (fun i => !isHidden M i)) ∧
        mapIndex t'.recentlyHiddenFaces n = r0 ++ old.filter (isHidden M)) ∧
      ((¬ ∃ it ∈ container, it.internalObjectId ∈ t.meshRenderItemIDs ∧ it.name = n) →
        t'.meshIndexBuffers.lookup n = some old ∧ mapIndex t'.recentlyHiddenFaces n = r0)) ∧
    ((t.meshIndexBuffers.lookup n = some (old.filter (fun i => !isHidden M i)) ∧
        mapIndex t.recentlyHiddenFaces n = r0 ++ old.filter (isHidden M)) →
      t'.meshIndexBuffers.lookup n = some (old.filter (fun i => !isHidden M i)) ∧
      mapIndex t'.recentlyHiddenFaces n = r0 ++ old.filter (isHidden M)) := by
  induction container generalizing t with
  | nil =>
    simp at hfold
    subst hfold
    exact ⟨fun h => ⟨fun hex => by simp at hex, fun _ => h⟩, id⟩
  | cons item rest ih =>
    rw [List.foldlM_cons] at hfold
    cases hstep : hideItemFaces M t item with
    | none => simp [hstep] at hfold
    | some mid =>
      simp only [hstep, Option.bind_eq_bind, Option.some_bind] at hfold
      obtain ⟨ihU, ihP⟩ := ih mid hfold
      rcases hideItemFaces_step M t mid item hstep with ⟨hno, hmideq⟩ | ⟨hm, indices, hind, hmideq⟩
      · -- not a mesh render item: nothing changes
        subst hmideq
        refine ⟨fun hU => ⟨fun hex => ?_, fun hnex => ?_⟩, ihP⟩
        · obtain ⟨it, hit, hmesh, hname⟩ := hex
          rcases List.mem_cons.mp hit with rfl | hit'
          · exact absurd hmesh hno
          · exact (ihU hU).1 ⟨it, hit', hmesh, hname⟩
        · exact (ihU hU).2 (fun ⟨it, hit, hmesh, hname⟩ =>
            hnex ⟨it, List.mem_cons_of_mem _ hit, hmesh, hname⟩)
      · have hids : mid.meshRenderItemIDs = t.meshRenderItemIDs := by rw [hmideq]
        by_cases hname : item.name = n
        · -- the visited item is the one named `n`
          have hbufmid : ∀ cur, t.meshIndexBuffers.lookup n = some cur →
              mid.meshIndexBuffers.lookup n = some (cur.filter (fun i => !isHidden M i)) ∧
              mapIndex mid.recentlyHiddenFaces n
                = mapIndex t.recentlyHiddenFaces n ++ cur.filter (isHidden M) := by
            intro cur hcur
            have hic : indices = cur := by
              rw [hname] at hind
              exact Option.some.inj (hind.symm.trans hcur)
            subst hic
            rw [hmideq]
            simp only
            rw [hname, lookup_mapSet_self, hideScan_faces_self]
            exact ⟨rfl, rfl⟩
          refine ⟨fun hU => ?_, fun hP => ?_⟩
          · have hP' := hbufmid old hU.1
            rw [hU.2] at hP'
            exact ⟨fun _ => ihP hP', fun hnex =>
              absurd ⟨item, List.mem_cons_self _ _, hm, hname⟩ hnex⟩
          · have hP' := hbufmid _ hP.1
            rw [hP.2, filter_kept_of_kept, filter_hidden_of_kept, List.append_nil] at hP'
            exact ihP hP'
        · -- another item: the entries of `n` are untouched
          have hne : n ≠ item.name := fun e => hname e.symm
          have hb : mid.meshIndexBuffers.lookup n = t.meshIndexBuffers.lookup n := by
            rw [hmideq]
            exact lookup_mapSet_ne _ _ _ _ hne
          have hr : mapIndex mid.recentlyHiddenFaces n = mapIndex t.recentlyHiddenFaces n := by
            rw [hmideq]
            simp only [mapIndex]
            rw [hideScan_faces_other M item.name n hne]
          refine ⟨fun hU => ⟨fun hex => ?_, fun hnex => ?_⟩, fun hP => ?_⟩
          · obtain ⟨it, hit, hmesh, hnm⟩ := hex
            rcases List.mem_cons.mp hit with rfl | hit'
            · exact absurd hnm hname
            · exact (ihU ⟨hb.trans hU.1, hr.trans hU.2⟩).1 ⟨it, hit', hids ▸ hmesh, hnm⟩
          · exact (ihU ⟨hb.trans hU.1, hr.trans hU.2⟩).2 (fun ⟨it, hit, hmesh, hnm⟩ =>
              hnex ⟨it, List.mem_cons_of_mem _ hit, hids ▸ hmesh, hnm⟩)
          · exact ihP ⟨hb.trans hP.1, hr.trans hP.2⟩


/-! ## Hiding mesh faces: the set of indices to hide -/

theorem isHidden_insertIfAbsent (M : List (Nat × Nat)) (k v idx : Nat) :
    isHidden (insertIfAbsent M k v) idx = (isHidden M idx || decide (idx = k)) := by
  unfold insertIfAbsent isHidden
  cases h : M.lookup k with
  | some w =>
    by_cases hk : idx = k
    · subst hk; simp [h]
    · simp [hk]
  | none =>
    simp only [List.lookup_append]
    by_cases hk : idx = k
    · subst hk; simp [h, List.lookup]
    · have hb : (idx == k) = false := by simpa using hk
      cases h2 : M.lookup idx <;> simp [List.lookup, hb, hk]

theorem marks_foldlM {ε : Type} (fp : ε → List Nat)
    (step : List (Nat × Nat) → ε → Option (List (Nat × Nat))) (l : List ε)
    (hstep : ∀ e ∈ l, ∀ M, Marks (fp e) (step M e) M) (M0 : List (Nat × Nat)) :
    Marks (l.flatMap fp) (l.foldlM step M0) M0 := by
  induction l generalizing M0 with
  | nil => exact ⟨M0, by simp, by simp⟩
  | cons e rest ih =>
    obtain ⟨M1, h1, hv1⟩ := hstep e (List.mem_cons_self _ _) M0
    obtain ⟨M2, h2, hv2⟩ := ih (fun e' he' => hstep e' (List.mem_cons_of_mem _ he')) M1
    refine ⟨M2, by simp [List.foldlM_cons, h1, h2], ?_⟩
    intro idx
    rw [hv2 idx, hv1 idx]
    by_cases a : idx ∈ fp e <;> by_cases b : idx ∈ rest.flatMap fp <;>
      simp [List.flatMap_cons, a, b]

theorem marks_addIndicesToHide (allMeshIndices : List Nat) (faceComponents : List (List Int))
    (c : Nat) (hc : c < faceComponents.length)
    (hf : ∀ f ∈ faceComponents.getD c [], ∀ k ∈ ([0, 1, 2] : List Int),
      (vectorAt allMeshIndices (3 * f + k)).isSome = true)
    (M : List (Nat × Nat)) :
    Marks ((faceComponents.getD c []).flatMap (triangleVertices allMeshIndices))
      (addIndicesToHide allMeshIndices faceComponents c M) M := by
  have hget : faceComponents[c]? = some faceComponents[c] := List.getElem?_eq_getElem hc
  have hD : faceComponents.getD c [] = faceComponents[c] := by
    simp [List.getD, hget]
  rw [hD] at hf ⊢
  simp only [addIndicesToHide, hget]
  refine marks_foldlM (triangleVertices allMeshIndices) _ _ ?_ M
  intro f hfm M1
  unfold triangleVertices
  refine marks_foldlM (fun k => (vectorAt allMeshIndices (3 * f + k)).toList) _ _ ?_ M1
  intro k hk M2
  obtain ⟨v, hv⟩ := Option.isSome_iff_exists.mp (hf f hfm k hk)
  have hv' : vectorAt allMeshIndices (f * 3 + k) = some v := by
    rw [Int.mul_comm]; exact hv
  refine ⟨insertIfAbsent M2 v c, by simp [hv'], ?_⟩
  intro idx
  rw [isHidden_insertIfAbsent]
  simp [hv]

theorem marks_buildIndicesToHide (voxels : Voxels) (allMeshIndices : List Nat)
    (voxelsToHide : List Nat)
    (hcells : ∀ c ∈ voxelsToHide, c < voxels.surfaceFaceComponents.length ∧
      c < voxels.interiorFaceComponents.length)
    (hfaces : ∀ c ∈ voxelsToHide, ∀ f ∈ cellFaces voxels c, ∀ k ∈ ([0, 1, 2] : List Int),
      (vectorAt allMeshIndices (3 * f + k)).isSome = true) :
    ∃ M, buildIndicesToHide voxels allMeshIndices voxelsToHide = some M ∧
      ∀ idx, isHidden M idx = true ↔
        ∃ c ∈ voxelsToHide, idx ∈ cellVertices allMeshIndices voxels c := by
  have h := marks_foldlM (cellVertices allMeshIndices voxels)
    (fun acc voxelInstanceId =>
      match addIndicesToHide allMeshIndices voxels.surfaceFaceComponents voxelInstanceId acc with
      | none => none
      | some acc1 =>
        addIndicesToHide allMeshIndices voxels.interiorFaceComponents voxelInstanceId acc1)
    voxelsToHide (by
      intro c hc M
      obtain ⟨M1, h1, hv1⟩ := marks_addIndicesToHide allMeshIndices
        voxels.surfaceFaceComponents c (hcells c hc).1
        (fun f hf => hfaces c hc f (List.mem_append.mpr (Or.inl hf))) M
      obtain ⟨M2, h2, hv2⟩ := marks_addIndicesToHide allMeshIndices
        voxels.interiorFaceComponents c (hcells c hc).2
        (fun f hf => hfaces c hc f (List.mem_append.mpr (Or.inr hf))) M1
      refine ⟨M2, by simp only [h1, h2], ?_⟩
      intro idx
      rw [hv2 idx, hv1 idx]
      unfold cellVertices cellFaces
      rw [List.flatMap_append]
      simp only [List.mem_append, Bool.decide_or, Bool.or_assoc]) []
  obtain ⟨M, hM, hv⟩ := h
  refine ⟨M, hM, fun idx => ?_⟩
  rw [hv idx]
  simp [isHidden, List.mem_flatMap]


theorem isHidden_eq_belongs (voxels : Voxels) (allMeshIndices voxelsToHide : List Nat)
    (M : List (Nat × Nat))
    (hM : ∀ idx, isHidden M idx = true ↔
      ∃ c ∈ voxelsToHide, idx ∈ cellVertices allMeshIndices voxels c) :
    isHidden M = belongsToHiddenCell voxels allMeshIndices voxelsToHide := by
  funext idx
  unfold belongsToHiddenCell
  by_cases h : ∃ c ∈ voxelsToHide, idx ∈ cellVertices allMeshIndices voxels c
  · rw [(hM idx).mpr h]; simp [h]
  · have : isHidden M idx = false := by
      cases hh : isHidden M idx
      · rfl
      · exact absurd ((hM idx).mp hh) h
    rw [this]; simp [h]

/-- C8: when the cells to hide have face lists whose indices are inside `allMeshIndices`
and every mesh render item has an index buffer, `hideSelectedMeshFaces` returns, and for
every mesh render item of the container the new index buffer is the old one without the
entries that are a render-vertex index of a face of a cell in `voxelsToHide` (the others
stay in order), and the removed entries are appended in buffer order to the item's
`recentlyHiddenFaces` list. -/
theorem C8_hideSelectedMeshFaces_filters_index_buffer (voxels : Voxels)
    (container : List RenderItem) (s : VoxelSubSceneOverride) (item : RenderItem)
    (hitem : item ∈ container) (hmesh : item.internalObjectId ∈ s.meshRenderItemIDs)
    (hcells : ∀ c ∈ s.voxelsToHide, c < voxels.surfaceFaceComponents.length ∧
      c < voxels.interiorFaceComponents.length)
    (hfaces : ∀ c ∈ s.voxelsToHide, ∀ f ∈ cellFaces voxels c, ∀ k ∈ ([0, 1, 2] : List Int),
      (vectorAt s.allMeshIndices (3 * f + k)).isSome = true)
    (hbuf : ∀ it ∈ container, it.internalObjectId ∈ s.meshRenderItemIDs →
      (s.meshIndexBuffers.lookup it.name).isSome = true) :
    ∃ s' old, hideSelectedMeshFaces voxels container s = some s' ∧
      s.meshIndexBuffers.lookup item.name = some old ∧
      s'.meshIndexBuffers.lookup item.name
        = some (old.filter
            (fun idx => !belongsToHiddenCell voxels s.allMeshIndices s.voxelsToHide idx)) ∧
      mapIndex s'.recentlyHiddenFaces item.name
        = mapIndex s.recentlyHiddenFaces item.name
          ++ old.filter (belongsToHiddenCell voxels s.allMeshIndices s.voxelsToHide) := by
  obtain ⟨M, hM, hMv⟩ :=
    marks_buildIndicesToHide voxels s.allMeshIndices s.voxelsToHide hcells hfaces
  obtain ⟨s', hs', _⟩ := hideItems_ok M container s hbuf
  obtain ⟨old, hold⟩ := Option.isSome_iff_exists.mp (hbuf item hitem hmesh)
  have htarget := (hideItems_target M item.name old (mapIndex s.recentlyHiddenFaces item.name)
    container s s' hs').1 ⟨hold, rfl⟩
  obtain ⟨hb, hr⟩ := htarget.1 ⟨item, hitem, hmesh, rfl⟩
  rw [isHidden_eq_belongs voxels s.allMeshIndices s.voxelsToHide M hMv] at hb hr
  exact ⟨s', old, by simp only [hideSelectedMeshFaces, hM, hs'], hold, hb, hr⟩


/-! ## Showing mesh faces -/

theorem showItemFaces_inert (container : List RenderItem) (B : List (String × List Nat))
    (k : String) (f : List Nat)
    (h : (¬ ∃ item ∈ container, item.name = k) ∨ f = []) :
    showItemFaces container B (k, f) = some B := by
  unfold showItemFaces
  cases hfind : container.find? (fun item => item.name == k) with
  | none => rfl
  | some it =>
    rcases h with h | h
    · exact absurd ⟨it, List.mem_of_find?_eq_some hfind,
        by simpa using List.find?_some hfind⟩ h
    · simp [h]

theorem showItemFaces_live (container : List RenderItem) (B : List (String × List Nat))
    (k : String) (f old : List Nat)
    (hin : ∃ item ∈ container, item.name = k) (hf : f ≠ []) (hold : B.lookup k = some old) :
    showItemFaces container B (k, f) = some (mapSet B k (old ++ f)) := by
  unfold showItemFaces
  cases hfind : container.find? (fun item => item.name == k) with
  | none =>
    obtain ⟨item, hitem, hname⟩ := hin
    have := List.find?_eq_none.mp hfind item hitem
    simp [hname] at this
  | some it =>
    have hlen : ¬ f.length = 0 := fun h => hf (List.length_eq_zero.mp h)
    simp [hlen, hold]

theorem showItems_spec (container : List RenderItem) (L : List (String × List Nat))
    (B : List (String × List Nat))
    (hkeys : (L.map Prod.fst).Nodup)
    (hbuf : ∀ k f, (k, f) ∈ L → (∃ item ∈ container, item.name = k) → f ≠ [] →
      (B.lookup k).isSome = true) :
    ∃ B', L.foldlM (showItemFaces container) B = some B' ∧
      (∀ m, (B'.lookup m).isSome = (B.lookup m).isSome) ∧
      (∀ n f, (n, f) ∈ L → (∃ item ∈ container, item.name = n) → f ≠ [] →
        B'.lookup n = (B.lookup n).map (fun old => old ++ f)) ∧
      (∀ n, (∀ f, (n, f) ∈ L → (¬ ∃ item ∈ container, item.name = n) ∨ f = []) →
        B'.lookup n = B.lookup n) := by
  induction L generalizing B with
  | nil => exact ⟨B, by simp, fun _ => rfl, by simp, fun _ _ => rfl⟩
  | cons e rest ih =>
    obtain ⟨k, f⟩ := e
    simp only [List.map_cons, List.nodup_cons] at hkeys
    obtain ⟨hk, hnd⟩ := hkeys
    have hknot : ∀ g, (k, g) ∉ rest := fun g hg =>
      hk (List.mem_map.mpr ⟨(k, g), hg, rfl⟩)
    by_cases hlive : (∃ item ∈ container, item.name = k) ∧ f ≠ []
    · obtain ⟨old, hold⟩ := Option.isSome_iff_exists.mp
        (hbuf k f (List.mem_cons_self _ _) hlive.1 hlive.2)
      have hstep := showItemFaces_live container B k f old hlive.1 hlive.2 hold
      have hsome : (B.lookup k).isSome = true := by rw [hold]; rfl
      obtain ⟨B', hB', hs', hlive', hinert'⟩ := ih (mapSet B k (old ++ f)) hnd (by
        intro k' f' hmem hin hf'
        rw [lookup_isSome_mapSet _ _ _ _ hsome]
        exact hbuf k' f' (List.mem_cons_of_mem _ hmem) hin hf')
      refine ⟨B', by simp [List.foldlM_cons, hstep, hB'], ?_, ?_, ?_⟩
      · intro m
        rw [hs' m, lookup_isSome_mapSet _ _ _ _ hsome]
      · intro n g hmem hin hg
        rcases List.mem_cons.mp hmem with heq | hmem'
        · obtain ⟨rfl, rfl⟩ := Prod.mk.inj heq
          rw [hinert' n (fun g' hg' => absurd hg' (hknot g')), lookup_mapSet_self, hold]
          rfl
        · have hne : n ≠ k := fun e => hknot g (e ▸ hmem')
          rw [hlive' n g hmem' hin hg, lookup_mapSet_ne _ _ _ _ hne]
      · intro n hall
        have hne : n ≠ k := by
          intro e
          subst e
          rcases hall f (List.mem_cons_self _ _) with h | h
          · exact h hlive.1
          · exact hlive.2 h
        rw [hinert' n (fun g hg => hall g (List.mem_cons_of_mem _ hg)),
          lookup_mapSet_ne _ _ _ _ hne]
    · have hstep := showItemFaces_inert container B k f (by
        by_cases h1 : ∃ item ∈ container, item.name = k
        · right
          by_contra h2
          exact hlive ⟨h1, h2⟩
        · exact Or.inl h1)
      obtain ⟨B', hB', hs', hlive', hinert'⟩ := ih B hnd
        (fun k' f' hmem => hbuf k' f' (List.mem_cons_of_mem _ hmem))
      refine ⟨B', by simp [List.foldlM_cons, hstep, hB'], hs', ?_, ?_⟩
      · intro n g hmem hin hg
        rcases List.mem_cons.mp hmem with heq | hmem'
        · obtain ⟨rfl, rfl⟩ := Prod.mk.inj heq
          exact absurd ⟨hin, hg⟩ hlive
        · exact hlive' n g hmem' hin hg
      · intro n hall
        exact hinert' n (fun g hg => hall g (List.mem_cons_of_mem _ hg))

/-- C10: when the passed map holds each item name once and every listed render item of
the container has an index buffer, `showSelectedMeshFaces` returns; every render item of
the container with a non-empty list in the map gets the old buffer contents followed by
that list, in its recorded order; the index buffer of an item that is not in the map is
unchanged; and the passed map is empty afterwards. -/
theorem C10_showSelectedMeshFaces_appends_hidden (container : List RenderItem)
    (selectedRenderItemFaces : RenderItemFaceIdxMap)
    (meshIndexBuffers : List (String × List Nat))
    (hkeys : (selectedRenderItemFaces.map Prod.fst).Nodup)
    (hbuf : ∀ item ∈ container, ∀ faces, (item.name, faces) ∈ selectedRenderItemFaces →
      faces ≠ [] → (meshIndexBuffers.lookup item.name).isSome = true) :
    ∃ r, showSelectedMeshFaces container selectedRenderItemFaces meshIndexBuffers = some r ∧
      r.2 = [] ∧
      (∀ item ∈ container, ∀ faces, (item.name, faces) ∈ selectedRenderItemFaces →
        faces ≠ [] →
        ∃ old, meshIndexBuffers.lookup item.name = some old ∧
          r.1.lookup item.name = some (old ++ faces)) ∧
      (∀ n, n ∉ selectedRenderItemFaces.map Prod.fst →
        r.1.lookup n = meshIndexBuffers.lookup n) := by
  obtain ⟨B', hB', _, hlive, hinert⟩ := showItems_spec container selectedRenderItemFaces
    meshIndexBuffers hkeys (by
      rintro k f hmem ⟨item, hitem, rfl⟩ hf
      exact hbuf item hitem f hmem hf)
  refine ⟨(B', []), by simp [showSelectedMeshFaces, hB'], rfl, ?_, ?_⟩
  · intro item hitem faces hmem hf
    obtain ⟨old, hold⟩ := Option.isSome_iff_exists.mp (hbuf item hitem faces hmem hf)
    refine ⟨old, hold, ?_⟩
    rw [hlive item.name faces hmem ⟨item, hitem, rfl⟩ hf, hold]
    rfl
  · intro n hn
    exact hinert n (fun f hf => absurd (List.mem_map.mpr ⟨(n, f), hf, rfl⟩) hn)


/-! ## Reachable states -/

theorem mem_of_lookup_eq_some {β : Type} (m : List (String × β)) (k : String) (v : β)
    (h : m.lookup k = some v) : (k, v) ∈ m := by
  induction m with
  | nil => simp [List.lookup] at h
  | cons e rest ih =>
    obtain ⟨k0, v0⟩ := e
    simp only [List.lookup] at h
    cases hk : (k == k0)
    · simp only [hk] at h
      exact List.mem_cons_of_mem _ (ih h)
    · simp only [hk] at h
      have : k = k0 := by simpa using hk
      subst this
      rw [Option.some.inj h]
      exact List.mem_cons_self _ _

theorem lookup_eq_some_of_mem {β : Type} (m : List (String × β)) (k : String) (v : β)
    (hnd : (m.map Prod.fst).Nodup) (h : (k, v) ∈ m) : m.lookup k = some v := by
  induction m with
  | nil => simp at h
  | cons e rest ih =>
    obtain ⟨k0, v0⟩ := e
    simp only [List.map_cons, List.nodup_cons] at hnd
    rcases List.mem_cons.mp h with heq | hmem
    · obtain ⟨rfl, rfl⟩ := Prod.mk.inj heq
      simp [List.lookup]
    · have hne : k ≠ k0 := fun e => hnd.1 (e ▸ List.mem_map.mpr ⟨(k, v), hmem, rfl⟩)
      have hb : (k == k0) = false := by simpa using hne
      simp only [List.lookup, hb]
      exact ih hnd.2 hmem

theorem hideItems_keys (M : List (Nat × Nat)) (container : List RenderItem)
    (t t' : VoxelSubSceneOverride)
    (hfold : container.foldlM (hideItemFaces M) t = some t') :
    ((t.recentlyHiddenFaces.map Prod.fst).Nodup →
      (t'.recentlyHiddenFaces.map Prod.fst).Nodup) ∧
    (∀ k ∈ t'.recentlyHiddenFaces.map Prod.fst, k ∈ t.recentlyHiddenFaces.map Prod.fst ∨
      ∃ it ∈ container, it.internalObjectId ∈ t.meshRenderItemIDs ∧ it.name = k) ∧
    ((t.recentlyHiddenVoxels = [] → t.recentlyHiddenFaces = []) →
      t'.recentlyHiddenVoxels = [] → t'.recentlyHiddenFaces = []) := by
  induction container generalizing t with
  | nil =>
    simp at hfold
    subst hfold
    exact ⟨id, fun k hk => Or.inl hk, id⟩
  | cons item rest ih =>
    rw [List.foldlM_cons] at hfold
    cases hstep : hideItemFaces M t item with
    | none => simp [hstep] at hfold
    | some mid =>
      simp only [hstep, Option.bind_eq_bind, Option.some_bind] at hfold
      obtain ⟨ih1, ih2, ih3⟩ := ih mid hfold
      rcases hideItemFaces_step M t mid item hstep with ⟨_, hmideq⟩ | ⟨hm, indices, _, hmideq⟩
      · subst hmideq
        refine ⟨ih1, fun k hk => ?_, ih3⟩
        rcases ih2 k hk with h | ⟨it, hit, hmesh, hname⟩
        · exact Or.inl h
        · exact Or.inr ⟨it, List.mem_cons_of_mem _ hit, hmesh, hname⟩
      · obtain ⟨sc1, sc2, sc3⟩ := hideScan_keys M item.name indices
          { newIndices := [], recentlyHiddenVoxels := t.recentlyHiddenVoxels,
            recentlyHiddenFaces := t.recentlyHiddenFaces }
        have hids : mid.meshRenderItemIDs = t.meshRenderItemIDs := by rw [hmideq]
        have hrf : mid.recentlyHiddenFaces = (indices.foldl (hideScanStep M item.name)
            { newIndices := [], recentlyHiddenVoxels := t.recentlyHiddenVoxels,
              recentlyHiddenFaces := t.recentlyHiddenFaces }).recentlyHiddenFaces := by
          rw [hmideq]
        have hrv : mid.recentlyHiddenVoxels = (indices.foldl (hideScanStep M item.name)
            { newIndices := [], recentlyHiddenVoxels := t.recentlyHiddenVoxels,
              recentlyHiddenFaces := t.recentlyHiddenFaces }).recentlyHiddenVoxels := by
          rw [hmideq]
        refine ⟨fun hnd => ih1 (hrf ▸ sc2 hnd), fun k hk => ?_, fun hc => ih3 ?_⟩
        · rcases ih2 k hk with h | ⟨it, hit, hmesh, hname⟩
          · rw [hrf] at h
            rcases sc1 k h with h1 | h1
            · exact Or.inr ⟨item, List.mem_cons_self _ _, hm, h1.symm⟩
            · exact Or.inl h1
          · exact Or.inr ⟨it, List.mem_cons_of_mem _ hit, hids ▸ hmesh, hname⟩
        · rw [hrf, hrv]
          exact sc3 hc

theorem collectVoxelsToHide_frame (activeComponents : List (List Int))
    (s s1 : VoxelSubSceneOverride) (h : collectVoxelsToHide activeComponents s = some s1) :
    ∃ hide, s1 = { s with voxelsToHide := hide } := by
  unfold collectVoxelsToHide at h
  induction activeComponents generalizing s with
  | nil =>
    simp at h
    exact ⟨s.voxelsToHide, h.symm⟩
  | cons comp rest ih =>
    rw [List.foldlM_cons] at h
    have inner : ∀ (c : List Int) (a b : VoxelSubSceneOverride),
        c.foldlM (fun st2 voxelInstanceId =>
          match vectorAt st2.visibleVoxelIdToGlobalId voxelInstanceId with
          | none => none
          | some globalId =>
            some { st2 with voxelsToHide := setInsert st2.voxelsToHide globalId }) a = some b →
        ∃ hide, b = { a with voxelsToHide := hide } := by
      intro c
      induction c with
      | nil =>
        intro a b hab
        simp at hab
        exact ⟨a.voxelsToHide, hab.symm⟩
      | cons id ids ihc =>
        intro a b hab
        rw [List.foldlM_cons] at hab
        cases hv : vectorAt a.visibleVoxelIdToGlobalId id with
        | none => simp [hv] at hab
        | some g =>
          simp only [hv, Option.bind_eq_bind, Option.some_bind] at hab
          obtain ⟨hide, hb⟩ := ihc _ b hab
          exact ⟨hide, by rw [hb]⟩
    cases hmid : comp.foldlM (fun st2 voxelInstanceId =>
          match vectorAt st2.visibleVoxelIdToGlobalId voxelInstanceId with
          | none => none
          | some globalId =>
            some { st2 with voxelsToHide := setInsert st2.voxelsToHide globalId }) s with
    | none => simp [hmid] at h
    | some mid =>
      simp only [hmid, Option.bind_eq_bind, Option.some_bind] at h
      obtain ⟨hide1, hm⟩ := inner comp s mid hmid
      obtain ⟨hide2, hs1⟩ := ih mid h
      exact ⟨hide2, by rw [hs1, hm]⟩

/-- What an `onShowHideStateChange` call can change, and when it makes a hide pending. -/
theorem onShowHideStateChange_frame (procName : String) (isProcEntry hasActive : Bool)
    (activeComponents : List (List Int)) (s s1 : VoxelSubSceneOverride)
    (hq : s.showHideStateChange = ShowHideStateChange.None)
    (h : onShowHideStateChange procName isProcEntry hasActive activeComponents s = some s1) :
    ∃ pend su ha hide,
      s1 = { s with shouldUpdate := su, showHideStateChange := pend, hideAllowed := ha,
                    voxelsToHide := hide } ∧
      (pend = ShowHideStateChange.HideSelected →
        ha = false ∧ (s.hideAllowed = true ∨ s.recentlyHiddenVoxels = [])) ∧
      (pend ≠ ShowHideStateChange.HideSelected → ha = s.hideAllowed) := by
  have hsame : ∃ pend su ha hide,
      s = { s with shouldUpdate := su, showHideStateChange := pend, hideAllowed := ha,
                   voxelsToHide := hide } ∧
      (pend = ShowHideStateChange.HideSelected →
        ha = false ∧ (s.hideAllowed = true ∨ s.recentlyHiddenVoxels = [])) ∧
      (pend ≠ ShowHideStateChange.HideSelected → ha = s.hideAllowed) :=
    ⟨s.showHideStateChange, s.shouldUpdate, s.hideAllowed, s.voxelsToHide, rfl,
      fun hp => (by rw [hq] at hp; cases hp), fun _ => rfl⟩
  have h1 : (indexW "hide" "toggleVisibilityAndKeepSelection" != -1) = false := by decide
  have h2 : (indexW "hide" "showHidden" != -1) = false := by decide
  cases isProcEntry
  · simp only [onShowHideStateChange, Bool.not_false, if_true] at h
    rw [← Option.some.inj h]; exact hsame
  · by_cases hh : procName = "hide"
    · subst hh
      by_cases ha : s.hideAllowed = true
      · simp only [onShowHideStateChange, h1, h2, ha] at h
        simp at h
        obtain ⟨hide, hs1⟩ := collectVoxelsToHide_frame activeComponents _ s1 h
        exact ⟨ShowHideStateChange.HideSelected, true, false, hide, hs1,
          fun _ => ⟨rfl, Or.inl ha⟩, fun hp => absurd rfl hp⟩
      · rw [onShowHideStateChange_not_armed _ _ s (by simpa using ha)] at h
        exact ⟨ShowHideStateChange.None, true, s.hideAllowed, s.voxelsToHide,
          (Option.some.inj h).symm, fun hp => (by cases hp), fun _ => rfl⟩
    · by_cases hs : indexW procName "showHidden" = -1
      · by_cases ht : indexW procName "toggleVisibilityAndKeepSelection" = -1
        · simp [onShowHideStateChange, hh, hs, ht] at h
          rw [← h]; exact hsame
        · by_cases hr : s.recentlyHiddenVoxels.length > 0
          · simp [onShowHideStateChange, hh, hs, ht, hr] at h
            exact ⟨ShowHideStateChange.ShowSelected, true, s.hideAllowed, s.voxelsToHide,
              h.symm, fun hp => (by cases hp), fun _ => rfl⟩
          · have hnil : s.recentlyHiddenVoxels = [] := List.length_eq_zero.mp (by omega)
            cases hasActive
            · simp only [onShowHideStateChange] at h
              simp [hh, hs, ht, hr] at h
              exact ⟨ShowHideStateChange.ShowAll, true, s.hideAllowed, s.voxelsToHide,
                h.symm, fun hp => (by cases hp), fun _ => rfl⟩
            · simp only [onShowHideStateChange] at h
              simp [hh, hs, ht, hr] at h
              obtain ⟨hide, hs1⟩ := collectVoxelsToHide_frame activeComponents _ s1 h
              exact ⟨ShowHideStateChange.HideSelected, true, false, hide, hs1,
                fun _ => ⟨rfl, Or.inr hnil⟩, fun hp => absurd rfl hp⟩
      · simp [onShowHideStateChange, hh, hs] at h
        exact ⟨ShowHideStateChange.ShowAll, true, s.hideAllowed, s.voxelsToHide,
          h.symm, fun hp => (by cases hp), fun _ => rfl⟩


theorem update_show_invariant (voxels : Voxels) (container : List RenderItem)
    (s s' : VoxelSubSceneOverride)
    (hp : s.showHideStateChange = ShowHideStateChange.ShowAll ∨
      s.showHideStateChange = ShowHideStateChange.ShowSelected)
    (h : update voxels container s = some s') : FrameInvariant s' := by
  unfold update at h
  cases happ : applyShowHideStateChange voxels container { s with selectionChanged := false } with
  | none => simp [happ] at h
  | some s1 =>
    simp only [happ] at h
    have hs' := (Option.some.inj h).symm
    rcases hp with hp | hp
    · simp only [applyShowHideStateChange, hp] at happ
      split at happ
      · exact absurd happ (by simp)
      · have h1 := (Option.some.inj happ).symm
        subst h1 hs'
        exact ⟨rfl, fun _ => rfl, fun _ => rfl⟩
    · simp only [applyShowHideStateChange, hp] at happ
      split at happ
      · exact absurd happ (by simp)
      · have h1 := (Option.some.inj happ).symm
        subst h1 hs'
        exact ⟨rfl, fun _ => rfl, fun _ => rfl⟩

theorem update_hide_coupling (voxels : Voxels) (container : List RenderItem)
    (s s' : VoxelSubSceneOverride)
    (hp : s.showHideStateChange = ShowHideStateChange.HideSelected)
    (hc : s.recentlyHiddenVoxels = [] → s.recentlyHiddenFaces = [])
    (h : update voxels container s = some s') :
    s'.recentlyHiddenVoxels = [] → s'.recentlyHiddenFaces = [] := by
  unfold update at h
  cases happ : applyShowHideStateChange voxels container { s with selectionChanged := false } with
  | none => simp [happ] at h
  | some s1 =>
    simp only [happ] at h
    have hs' := (Option.some.inj h).symm
    simp only [applyShowHideStateChange, hp] at happ
    split at happ
    · exact absurd happ (by simp)
    · rename_i s2 hmesh
      unfold hideSelectedMeshFaces at hmesh
      split at hmesh
      · exact absurd hmesh (by simp)
      · rename_i M hM
        have hk := (hideItems_keys M container _ s2 hmesh).2.2 hc
        unfold hideSelectedVoxels at happ
        split at happ
        · exact absurd happ (by simp)
        · have h1 := (Option.some.inj happ).symm
          subst h1 hs'
          exact hk

theorem frameInvariant_step (voxels : Voxels) (container : List RenderItem)
    (s s' : VoxelSubSceneOverride) (e : Event) (hinv : FrameInvariant s)
    (h : eventThenUpdate voxels container s e = some s') : FrameInvariant s' := by
  obtain ⟨hq, harm, hcoup⟩ := hinv
  unfold eventThenUpdate at h
  cases he : handleEvent e s with
  | none => simp [he] at h
  | some s1 =>
    simp only [he] at h
    cases e with
    | selectionChanged =>
      simp only [handleEvent] at he
      have hs1 := (Option.some.inj he).symm
      have hp1 : s1.showHideStateChange = ShowHideStateChange.None := by
        rw [hs1]; exact hq
      rw [update_none_pending voxels container s1 hp1] at h
      have hs' := (Option.some.inj h).symm
      subst hs' hs1
      exact ⟨hq, fun _ => rfl, fun _ => rfl⟩
    | procCallback procName isProcEntry hasActive comps =>
      simp only [handleEvent] at he
      obtain ⟨pend, su, ha, hide, hs1, hhide, hother⟩ :=
        onShowHideStateChange_frame procName isProcEntry hasActive comps s s1 hq he
      cases pend with
      | None =>
        have hp1 : s1.showHideStateChange = ShowHideStateChange.None := by rw [hs1]
        rw [update_none_pending voxels container s1 hp1] at h
        have hs' := (Option.some.inj h).symm
        have hha := hother (by simp)
        subst hs' hs1 hha
        exact ⟨rfl, harm, hcoup⟩
      | HideSelected =>
        have hp1 : s1.showHideStateChange = ShowHideStateChange.HideSelected := by rw [hs1]
        obtain ⟨hal, hpn, _, _, _, _⟩ := update_hide_frame voxels container s1 s' hp1 h
        have hc1 : s1.recentlyHiddenVoxels = [] → s1.recentlyHiddenFaces = [] := by
          rw [hs1]; exact hcoup
        have hc' := update_hide_coupling voxels container s1 s' hp1 hc1 h
        refine ⟨hpn, fun harmed => ?_, hc'⟩
        rw [hal, hs1] at harmed
        simp only at harmed
        rw [(hhide rfl).1] at harmed
        cases harmed
      | ShowAll =>
        exact update_show_invariant voxels container s1 s' (Or.inl (by rw [hs1])) h
      | ShowSelected =>
        exact update_show_invariant voxels container s1 s' (Or.inr (by rw [hs1])) h

theorem frameInvariant_of_reachable (voxels : Voxels) (container : List RenderItem)
    (init s : VoxelSubSceneOverride) (hinit : FrameInvariant init)
    (h : Reachable voxels container init s) : FrameInvariant s := by
  induction h with
  | start => exact hinit
  | next a b e _ hstep ih => exact frameInvariant_step voxels container a b e ih hstep

theorem frameInvariant_initialState (voxels : Voxels) (allMeshIndices : List Nat)
    (meshIndexBuffers : List (String × List Nat)) (meshRenderItemIDs : List Nat) :
    FrameInvariant (initialState voxels allMeshIndices meshIndexBuffers meshRenderItemIDs) :=
  ⟨rfl, fun _ => rfl, fun _ => rfl⟩


/-! ## Hide followed by show-selected -/

theorem hide_then_show_roundtrip (voxels : Voxels) (container : List RenderItem)
    (s1 : VoxelSubSceneOverride) (item : RenderItem)
    (hempty : s1.recentlyHiddenFaces = [])
    (hitem : item ∈ container) (hmesh : item.internalObjectId ∈ s1.meshRenderItemIDs)
    (hcells : ∀ c ∈ s1.voxelsToHide, c < voxels.surfaceFaceComponents.length ∧
      c < voxels.interiorFaceComponents.length)
    (hfaces : ∀ c ∈ s1.voxelsToHide, ∀ f ∈ cellFaces voxels c, ∀ k ∈ ([0, 1, 2] : List Int),
      (vectorAt s1.allMeshIndices (3 * f + k)).isSome = true)
    (hbuf : ∀ it ∈ container, it.internalObjectId ∈ s1.meshRenderItemIDs →
      (s1.meshIndexBuffers.lookup it.name).isSome = true) :
    ∃ s2 r old new, hideSelectedMeshFaces voxels container s1 = some s2 ∧
      showSelectedMeshFaces container s2.recentlyHiddenFaces s2.meshIndexBuffers = some r ∧
      s1.meshIndexBuffers.lookup item.name = some old ∧
      r.1.lookup item.name = some new ∧ new.Perm old := by
  obtain ⟨M, hM, _⟩ :=
    marks_buildIndicesToHide voxels s1.allMeshIndices s1.voxelsToHide hcells hfaces
  obtain ⟨s2, hs2, hsome⟩ := hideItems_ok M container s1 hbuf
  obtain ⟨old, hold⟩ := Option.isSome_iff_exists.mp (hbuf item hitem hmesh)
  have hmi : mapIndex s1.recentlyHiddenFaces item.name = [] := by
    rw [hempty]; rfl
  obtain ⟨hb2, hr2⟩ := ((hideItems_target M item.name old [] container s1 s2 hs2).1
    ⟨hold, hmi⟩).1 ⟨item, hitem, hmesh, rfl⟩
  rw [List.nil_append] at hr2
  obtain ⟨hnd, hkeys, _⟩ := hideItems_keys M container s1 s2 hs2
  have hnd2 : (s2.recentlyHiddenFaces.map Prod.fst).Nodup := hnd (by rw [hempty]; simp)
  obtain ⟨B', hB', _, hlive, hinert⟩ := showItems_spec container s2.recentlyHiddenFaces
    s2.meshIndexBuffers hnd2 (by
      intro k f hmem _ _
      rw [hsome]
      rcases hkeys k (List.mem_map.mpr ⟨(k, f), hmem, rfl⟩) with h | ⟨it, hit, hm, hname⟩
      · rw [hempty] at h; simp at h
      · rw [← hname]; exact hbuf it hit hm)
  have hnew : B'.lookup item.name
      = some (old.filter (fun i => !isHidden M i) ++ old.filter (isHidden M)) := by
    by_cases hdrop : old.filter (isHidden M) = []
    · rw [hdrop, List.append_nil, ← hb2]
      refine hinert item.name (fun f hf => Or.inr ?_)
      have hl := lookup_eq_some_of_mem _ _ _ hnd2 hf
      simp only [mapIndex, hl, Option.getD_some] at hr2
      rw [hr2]; exact hdrop
    · have hl : s2.recentlyHiddenFaces.lookup item.name = some (old.filter (isHidden M)) := by
        cases hlk : s2.recentlyHiddenFaces.lookup item.name with
        | none =>
          simp only [mapIndex, hlk, Option.getD_none] at hr2
          exact absurd hr2.symm hdrop
        | some f =>
          simp only [mapIndex, hlk, Option.getD_some] at hr2
          rw [hr2]
      rw [hlive item.name _ (mem_of_lookup_eq_some _ _ _ hl) ⟨item, hitem, rfl⟩ hdrop, hb2]
      rfl
  refine ⟨s2, (B', []), old, _, by simp only [hideSelectedMeshFaces, hM, hs2], ?_, hold, hnew, ?_⟩
  · simp [showSelectedMeshFaces, hB']
  · exact (List.perm_append_comm).trans (List.filter_append_perm (isHidden M) old)

theorem hide_then_show_appends_recent (voxels : Voxels) (container : List RenderItem)
    (s1 : VoxelSubSceneOverride) (item : RenderItem)
    (hkeys : (s1.recentlyHiddenFaces.map Prod.fst).Nodup)
    (hrecent : ∀ k ∈ s1.recentlyHiddenFaces.map Prod.fst,
      (∃ it ∈ container, it.name = k) → (s1.meshIndexBuffers.lookup k).isSome = true)
    (hitem : item ∈ container) (hmesh : item.internalObjectId ∈ s1.meshRenderItemIDs)
    (hcells : ∀ c ∈ s1.voxelsToHide, c < voxels.surfaceFaceComponents.length ∧
      c < voxels.interiorFaceComponents.length)
    (hfaces : ∀ c ∈ s1.voxelsToHide, ∀ f ∈ cellFaces voxels c, ∀ k ∈ ([0, 1, 2] : List Int),
      (vectorAt s1.allMeshIndices (3 * f + k)).isSome = true)
    (hbuf : ∀ it ∈ container, it.internalObjectId ∈ s1.meshRenderItemIDs →
      (s1.meshIndexBuffers.lookup it.name).isSome = true) :
    ∃ s2 r old new, hideSelectedMeshFaces voxels container s1 = some s2 ∧
      showSelectedMeshFaces container s2.recentlyHiddenFaces s2.meshIndexBuffers = some r ∧
      s1.meshIndexBuffers.lookup item.name = some old ∧
      r.1.lookup item.name = some new ∧
      new.Perm (old ++ mapIndex s1.recentlyHiddenFaces item.name) := by
  obtain ⟨M, hM, _⟩ :=
    marks_buildIndicesToHide voxels s1.allMeshIndices s1.voxelsToHide hcells hfaces
  obtain ⟨s2, hs2, hsome⟩ := hideItems_ok M container s1 hbuf
  obtain ⟨old, hold⟩ := Option.isSome_iff_exists.mp (hbuf item hitem hmesh)
  obtain ⟨r0, hr0⟩ : ∃ r0, mapIndex s1.recentlyHiddenFaces item.name = r0 := ⟨_, rfl⟩
  rw [hr0]
  obtain ⟨hb2, hr2⟩ := ((hideItems_target M item.name old r0 container s1 s2 hs2).1
    ⟨hold, hr0⟩).1 ⟨item, hitem, hmesh, rfl⟩
  obtain ⟨hnd, hfrom, _⟩ := hideItems_keys M container s1 s2 hs2
  have hnd2 : (s2.recentlyHiddenFaces.map Prod.fst).Nodup := hnd hkeys
  obtain ⟨B', hB', _, hlive, hinert⟩ := showItems_spec container s2.recentlyHiddenFaces
    s2.meshIndexBuffers hnd2 (by
      intro k f hmem hin _
      rw [hsome]
      rcases hfrom k (List.mem_map.mpr ⟨(k, f), hmem, rfl⟩) with h | ⟨it, hit, hm, hname⟩
      · exact hrecent k h hin
      · rw [← hname]; exact hbuf it hit hm)
  have hnew : B'.lookup item.name
      = some (old.filter (fun i => !isHidden M i) ++ (r0 ++ old.filter (isHidden M))) := by
    by_cases hdrop : r0 ++ old.filter (isHidden M) = []
    · rw [hdrop, List.append_nil, ← hb2]
      refine hinert item.name (fun f hf => Or.inr ?_)
      have hl := lookup_eq_some_of_mem _ _ _ hnd2 hf
      simp only [mapIndex, hl, Option.getD_some] at hr2
      rw [hr2]; exact hdrop
    · have hl : s2.recentlyHiddenFaces.lookup item.name
          = some (r0 ++ old.filter (isHidden M)) := by
        cases hlk : s2.recentlyHiddenFaces.lookup item.name with
        | none =>
          have hr3 := hr2
          simp only [mapIndex, hlk, Option.getD_none] at hr3
          exact absurd hr3.symm hdrop
        | some f =>
          have hr3 := hr2
          simp only [mapIndex, hlk, Option.getD_some] at hr3
          rw [hr3]
      rw [hlive item.name _ (mem_of_lookup_eq_some _ _ _ hl) ⟨item, hitem, rfl⟩ hdrop, hb2]
      rfl
  refine ⟨s2, (B', []), old, _, by simp only [hideSelectedMeshFaces, hM, hs2], ?_, hold, hnew, ?_⟩
  · simp [showSelectedMeshFaces, hB']
  · refine (List.Perm.append_left _ List.perm_append_comm).trans ?_
    rw [← List.append_assoc]
    exact List.Perm.append_right _
      ((List.perm_append_comm).trans (List.filter_append_perm (isHidden M) old))

/-- C1: for a state with duplicate-free keys in `recentlyHiddenFaces`, every mesh render
item of the container that has no recently hidden faces before the hide, and every set
`voxelsToHide` of cells whose face lists lie inside `allMeshIndices`,
`hideSelectedMeshFaces` followed by `showSelectedMeshFaces` on `recentlyHiddenFaces`
returns and leaves the item's index buffer with the same multiset of indices as before
the hide. -/
theorem C1_hide_then_show_selected_restores_item_without_recent_faces (voxels : Voxels)
    (container : List RenderItem) (s1 : VoxelSubSceneOverride) (item : RenderItem)
    (hnone : mapIndex s1.recentlyHiddenFaces item.name = [])
    (hkeys : (s1.recentlyHiddenFaces.map Prod.fst).Nodup)
    (hrecent : ∀ k ∈ s1.recentlyHiddenFaces.map Prod.fst,
      (∃ it ∈ container, it.name = k) → (s1.meshIndexBuffers.lookup k).isSome = true)
    (hitem : item ∈ container) (hmesh : item.internalObjectId ∈ s1.meshRenderItemIDs)
    (hcells : ∀ c ∈ s1.voxelsToHide, c < voxels.surfaceFaceComponents.length ∧
      c < voxels.interiorFaceComponents.length)
    (hfaces : ∀ c ∈ s1.voxelsToHide, ∀ f ∈ cellFaces voxels c, ∀ k ∈ ([0, 1, 2] : List Int),
      (vectorAt s1.allMeshIndices (3 * f + k)).isSome = true)
    (hbuf : ∀ it ∈ container, it.internalObjectId ∈ s1.meshRenderItemIDs →
      (s1.meshIndexBuffers.lookup it.name).isSome = true) :
    ∃ s2 r old new, hideSelectedMeshFaces voxels container s1 = some s2 ∧
      showSelectedMeshFaces container s2.recentlyHiddenFaces s2.meshIndexBuffers = some r ∧
      s1.meshIndexBuffers.lookup item.name = some old ∧
      r.1.lookup item.name = some new ∧
      (new : Multiset Nat) = (old : Multiset Nat) := by
  obtain ⟨s2, r, old, new, h1, h2, h3, h4, hperm⟩ :=
    hide_then_show_appends_recent voxels container s1 item hkeys hrecent hitem hmesh hcells
      hfaces hbuf
  rw [hnone, List.append_nil] at hperm
  exact ⟨s2, r, old, new, h1, h2, h3, h4, Multiset.coe_eq_coe.mpr hperm⟩

/-- In every state reached from the initial state by events that are each followed
by `update`, when an event makes a hide pending and the cells to hide have face lists
inside `allMeshIndices`, `hideSelectedMeshFaces` followed by `showSelectedMeshFaces` on
`recentlyHiddenFaces` returns and leaves every mesh render item of the container with an
index buffer that holds the same multiset of indices as before the hide. -/
theorem hide_then_show_selected_between_frames (voxels : Voxels)
    (container : List RenderItem) (allMeshIndices : List Nat)
    (meshIndexBuffers : List (String × List Nat)) (meshRenderItemIDs : List Nat)
    (s s1 : VoxelSubSceneOverride) (e : Event) (item : RenderItem)
    (hreach : Reachable voxels container
      (initialState voxels allMeshIndices meshIndexBuffers meshRenderItemIDs) s)
    (he : handleEvent e s = some s1)
    (hpend : s1.showHideStateChange = ShowHideStateChange.HideSelected)
    (hitem : item ∈ container) (hmesh : item.internalObjectId ∈ s1.meshRenderItemIDs)
    (hcells : ∀ c ∈ s1.voxelsToHide, c < voxels.surfaceFaceComponents.length ∧
      c < voxels.interiorFaceComponents.length)
    (hfaces : ∀ c ∈ s1.voxelsToHide, ∀ f ∈ cellFaces voxels c, ∀ k ∈ ([0, 1, 2] : List Int),
      (vectorAt s1.allMeshIndices (3 * f + k)).isSome = true)
    (hbuf : ∀ it ∈ container, it.internalObjectId ∈ s1.meshRenderItemIDs →
      (s1.meshIndexBuffers.lookup it.name).isSome = true) :
    ∃ s2 r old new, hideSelectedMeshFaces voxels container s1 = some s2 ∧
      showSelectedMeshFaces container s2.recentlyHiddenFaces s2.meshIndexBuffers = some r ∧
      s1.meshIndexBuffers.lookup item.name = some old ∧
      r.1.lookup item.name = some new ∧
      (new : Multiset Nat) = (old : Multiset Nat) := by
  obtain ⟨hq, harm, hcoup⟩ := frameInvariant_of_reachable voxels container _ s
    (frameInvariant_initialState voxels allMeshIndices meshIndexBuffers meshRenderItemIDs) hreach
  have hempty : s1.recentlyHiddenFaces = [] := by
    cases e with
    | selectionChanged =>
      simp only [handleEvent] at he
      rw [← Option.some.inj he] at hpend
      have : s.showHideStateChange = ShowHideStateChange.HideSelected := hpend
      rw [hq] at this
      cases this
    | procCallback procName isProcEntry hasActive comps =>
      simp only [handleEvent] at he
      obtain ⟨pend, su, ha, hide, hs1, hhide, _⟩ :=
        onShowHideStateChange_frame procName isProcEntry hasActive comps s s1 hq he
      have hp : pend = ShowHideStateChange.HideSelected := by
        rw [hs1] at hpend; exact hpend
      have hrv : s.recentlyHiddenVoxels = [] := by
        rcases (hhide hp).2 with h | h
        · exact harm h
        · exact h
      rw [hs1]
      exact hcoup hrv
  obtain ⟨s2, r, old, new, h1, h2, h3, h4, hperm⟩ :=
    hide_then_show_roundtrip voxels container s1 item hempty hitem hmesh hcells hfaces hbuf
  exact ⟨s2, r, old, new, h1, h2, h3, h4, Multiset.coe_eq_coe.mpr hperm⟩


/-! ## The example scene -/

theorem hide_then_show_selected_between_frames_example :
    ∃ s2 r old new,
      hideSelectedMeshFaces fourCellVoxels fourCellContainer hideCellOnePending = some s2 ∧
      showSelectedMeshFaces fourCellContainer s2.recentlyHiddenFaces s2.meshIndexBuffers
        = some r ∧
      hideCellOnePending.meshIndexBuffers.lookup "voxelRenderItem_A" = some old ∧
      r.1.lookup "voxelRenderItem_A" = some new ∧
      (new : Multiset Nat) = (old : Multiset Nat) :=
  hide_then_show_selected_between_frames fourCellVoxels fourCellContainer
    fourCellIndices [("voxelRenderItem_A", fourCellIndices)] [1] fourCellInitial
    hideCellOnePending (Event.procCallback "hide" true true [[1]])
    { internalObjectId := 1, name := "voxelRenderItem_A" }
    (Reachable.start) (by decide) rfl (by decide) (by decide) (by decide) (by decide)
    (by decide)

theorem C1_hide_then_show_selected_restores_item_without_recent_faces_witness :
    mapIndex twoItemHideCellOnePending.recentlyHiddenFaces "voxelRenderItem_A" = [] ∧
    twoItemHideCellOnePending.recentlyHiddenFaces ≠ [] ∧
    ∃ s2 r old new,
      hideSelectedMeshFaces fourCellVoxels twoItemContainer twoItemHideCellOnePending
        = some s2 ∧
      showSelectedMeshFaces twoItemContainer s2.recentlyHiddenFaces s2.meshIndexBuffers
        = some r ∧
      twoItemHideCellOnePending.meshIndexBuffers.lookup "voxelRenderItem_A" = some old ∧
      r.1.lookup "voxelRenderItem_A" = some new ∧
      (new : Multiset Nat) = (old : Multiset Nat) :=
  ⟨rfl, by decide,
    C1_hide_then_show_selected_restores_item_without_recent_faces fourCellVoxels
      twoItemContainer twoItemHideCellOnePending
      { internalObjectId := 1, name := "voxelRenderItem_A" }
      rfl (by decide) (by decide) (by decide) (by decide) (by decide) (by decide)
      (by decide)⟩

/-- C1 on the code: in the example a `hide` command for cell 1, a `SelectionChanged` event
and then `update` lead to a state where cell 1 is recently hidden and plain hide is armed.
A `hide` command for cell 2 then makes a hide pending. From that state
`hideSelectedMeshFaces` followed by `showSelectedMeshFaces` on `recentlyHiddenFaces` turns
the 18 indices of the item's buffer into 24: the faces of cell 1, hidden before, come back
with those of cell 2. The same happens through `update` when the second `hide` is followed
by a visibility toggle. -/
theorem C1_hide_then_show_selected_after_earlier_hide_counterexample :
    ((handleEvent (Event.procCallback "hide" true true [[1]]) fourCellInitial).bind
      (fun s => (handleEvent Event.selectionChanged s).bind
        (update fourCellVoxels fourCellContainer))) = some cellOneHiddenRearmed ∧
    handleEvent (Event.procCallback "hide" true true [[1]]) cellOneHiddenRearmed
      = some hideCellTwoPending ∧
    hideCellTwoPending.meshIndexBuffers.lookup "voxelRenderItem_A"
      = some [0, 1, 2, 3, 4, 5, 12, 13, 14, 15, 16, 17, 18, 19, 20, 21, 22, 23] ∧
    ((hideSelectedMeshFaces fourCellVoxels fourCellContainer hideCellTwoPending).bind
      (fun s2 => showSelectedMeshFaces fourCellContainer s2.recentlyHiddenFaces
        s2.meshIndexBuffers)).map (fun r => r.1.lookup "voxelRenderItem_A")
      = some (some [0, 1, 2, 3, 4, 5, 18, 19, 20, 21, 22, 23,
          6, 7, 8, 9, 10, 11, 12, 13, 14, 15, 16, 17]) ∧
    ((eventThenUpdate fourCellVoxels fourCellContainer cellOneHiddenRearmed
        (Event.procCallback "hide" true true [[1]])).bind
      (fun s => eventThenUpdate fourCellVoxels fourCellContainer s
        (Event.procCallback "toggleVisibilityAndKeepSelection" true true [[1]]))).map
          (fun s => s.meshIndexBuffers.lookup "voxelRenderItem_A")
      = some (some [0, 1, 2, 3, 4, 5, 18, 19, 20, 21, 22, 23,
          6, 7, 8, 9, 10, 11, 12, 13, 14, 15, 16, 17]) ∧
    ¬ (([0, 1, 2, 3, 4, 5, 18, 19, 20, 21, 22, 23,
          6, 7, 8, 9, 10, 11, 12, 13, 14, 15, 16, 17] : List Nat).Perm
        [0, 1, 2, 3, 4, 5, 12, 13, 14, 15, 16, 17, 18, 19, 20, 21, 22, 23]) := by
  refine ⟨by decide, by decide, by decide, by decide, by decide, ?_⟩
  intro h
  exact absurd h.length_eq (by decide)

/-- C2 on the code: with the triangles of cell 1 in no render item, hiding the visible
cells 0 and 1 and then toggling visibility (a `ShowSelected` action) leaves
`visibleVoxelIdToGlobalId = [0, 2, 3]`: cell 1 was in the list before the hide and is not
in it afterwards. -/
theorem C2_hide_then_show_selected_loses_unrecorded_cell :
    ((eventThenUpdate fourCellVoxels fourCellContainer unshadedCellInitial
        (Event.procCallback "hide" true true [[0, 1]])).map
          (fun s => (s.visibleVoxelIdToGlobalId, s.recentlyHiddenVoxels)) = some ([2, 3], [0])) ∧
    ((eventThenUpdate fourCellVoxels fourCellContainer unshadedCellInitial
        (Event.procCallback "hide" true true [[0, 1]])).bind
          (fun s => eventThenUpdate fourCellVoxels fourCellContainer s
            (Event.procCallback "toggleVisibilityAndKeepSelection" true true [[0, 1]]))).map
          (fun s => s.visibleVoxelIdToGlobalId) = some [0, 2, 3] ∧
    1 ∈ unshadedCellInitial.visibleVoxelIdToGlobalId := by
  decide

theorem second_plain_hide_is_noop_example :
    (∃ s1, onShowHideStateChange "hide" true true [[1]] fourCellInitial = some s1 ∧
      s1.showHideStateChange = ShowHideStateChange.HideSelected ∧
      s1.hideAllowed = false ∧
      onShowHideStateChange "hide" true true [[1]] s1
        = some { s1 with shouldUpdate := true,
                         showHideStateChange := ShowHideStateChange.None }) ∧
    (eventThenUpdate fourCellVoxels fourCellContainer fourCellInitial
        (Event.procCallback "hide" true true [[1]])).map
          (fun s => s.visibleVoxelIdToGlobalId) = some [0, 2, 3] ∧
    ((eventThenUpdate fourCellVoxels fourCellContainer fourCellInitial
        (Event.procCallback "hide" true true [[1]])).bind
          (fun s => eventThenUpdate fourCellVoxels fourCellContainer s
            (Event.procCallback "hide" true true [[1]]))).map
          (fun s => s.visibleVoxelIdToGlobalId) = some [0, 2, 3] := by
  obtain ⟨s1, h1, h2, h3, h4, _⟩ := second_plain_hide_is_noop fourCellVoxels
    fourCellContainer true true [[1]] [[1]] fourCellInitial rfl (by decide)
  exact ⟨⟨s1, h1, h2, h3, h4⟩, by decide, by decide⟩

/-- C5 on the code: in the example hiding is armed. A `hide` command with voxel instance 1
selected makes `HideSelected` pending and disarms hiding; a second `hide` command that
arrives before `update` has run makes `None` pending. The `update` that follows performs
no hide action: it leaves the initial state, with all four cells visible and nothing
recently hidden, except that hiding is disarmed and cell 1 stays in `voxelsToHide`. -/
theorem C5_second_hide_before_update_cancels_first :
    fourCellInitial.hideAllowed = true ∧
    (onShowHideStateChange "hide" true true [[1]] fourCellInitial).map
      (fun s => (s.showHideStateChange, s.hideAllowed, s.voxelsToHide))
      = some (ShowHideStateChange.HideSelected, false, [1]) ∧
    ((onShowHideStateChange "hide" true true [[1]] fourCellInitial).bind
      (onShowHideStateChange "hide" true true [[1]])).map
      (fun s => (s.showHideStateChange, s.hideAllowed, s.voxelsToHide))
      = some (ShowHideStateChange.None, false, [1]) ∧
    ((onShowHideStateChange "hide" true true [[1]] fourCellInitial).bind
      (onShowHideStateChange "hide" true true [[1]])).bind
      (update fourCellVoxels fourCellContainer)
      = some { fourCellInitial with hideAllowed := false, voxelsToHide := [1] } ∧
    fourCellInitial.visibleVoxelIdToGlobalId = [0, 1, 2, 3] ∧
    fourCellInitial.recentlyHiddenVoxels = [] := by
  decide

theorem C6_onShowHideStateChange_pending_state_witness :
    ∃ s', onShowHideStateChange "toggleVisibilityAndKeepSelection" true true [[1]]
        fourCellInitial = some s' ∧
      s'.showHideStateChange = ShowHideStateChange.HideSelected := by
  obtain ⟨s', h1, h2⟩ := C6_onShowHideStateChange_pending_state
    "toggleVisibilityAndKeepSelection" true true [[1]] fourCellInitial (by decide)
  exact ⟨s', h1, h2.trans (by decide)⟩

/-- C7 on the code: with the triangles of cell 1 in no render item, hiding cell 1 of
`[0, 1, 2, 3]` and then running show-hidden leaves `visibleVoxelIdToGlobalId = [0, 2, 3]`
with all four hidden sets empty, not the full list `[0, 1, 2, 3]`. -/
theorem C7_show_all_does_not_restore_unrecorded_cell :
    ((eventThenUpdate fourCellVoxels fourCellContainer unshadedCellInitial
        (Event.procCallback "hide" true true [[1]])).bind
          (fun s => eventThenUpdate fourCellVoxels fourCellContainer s
            (Event.procCallback "showHidden" true true [[1]]))).map
          (fun s => (s.visibleVoxelIdToGlobalId, s.hiddenVoxels, s.recentlyHiddenVoxels))
      = some ([0, 2, 3], [], []) ∧
    ((eventThenUpdate fourCellVoxels fourCellContainer unshadedCellInitial
        (Event.procCallback "hide" true true [[1]])).bind
          (fun s => eventThenUpdate fourCellVoxels fourCellContainer s
            (Event.procCallback "showHidden" true true [[1]]))).map
          (fun s => (s.hiddenFaces, s.recentlyHiddenFaces))
      = some ([], []) ∧
    fourCellVoxels.numOccupied = 4 := by
  decide

theorem C8_hideSelectedMeshFaces_filters_index_buffer_witness :
    (∃ s' old, hideSelectedMeshFaces fourCellVoxels fourCellContainer hideCellOnePending
        = some s' ∧
      hideCellOnePending.meshIndexBuffers.lookup "voxelRenderItem_A" = some old ∧
      s'.meshIndexBuffers.lookup "voxelRenderItem_A"
        = some (old.filter (fun idx => !belongsToHiddenCell fourCellVoxels
            hideCellOnePending.allMeshIndices hideCellOnePending.voxelsToHide idx)) ∧
      mapIndex s'.recentlyHiddenFaces "voxelRenderItem_A"
        = mapIndex hideCellOnePending.recentlyHiddenFaces "voxelRenderItem_A"
          ++ old.filter (belongsToHiddenCell fourCellVoxels
            hideCellOnePending.allMeshIndices hideCellOnePending.voxelsToHide)) ∧
    (hideSelectedMeshFaces fourCellVoxels fourCellContainer hideCellOnePending).map
        (fun s => (s.meshIndexBuffers, s.recentlyHiddenFaces))
      = some ([("voxelRenderItem_A",
          [0, 1, 2, 3, 4, 5, 12, 13, 14, 15, 16, 17, 18, 19, 20, 21, 22, 23])],
        [("voxelRenderItem_A", [6, 7, 8, 9, 10, 11])]) :=
  ⟨C8_hideSelectedMeshFaces_filters_index_buffer fourCellVoxels fourCellContainer
    hideCellOnePending { internalObjectId := 1, name := "voxelRenderItem_A" }
    (by decide) (by decide) (by decide) (by decide) (by decide), by decide⟩

/-- C9 as stated fails: with one visible cell and two cells queued for hiding, the size
passed to `reserve` wraps and `hideSelectedVoxels` throws instead of filtering the list. -/
theorem C9_hideSelectedVoxels_throws_counterexample :
    hideSelectedVoxels moreToHideThanVisible = none ∧
    ¬ ∃ s', hideSelectedVoxels moreToHideThanVisible = some s' ∧
      s'.visibleVoxelIdToGlobalId = [0] ∧ s'.voxelsToHide = [] := by
  have h : hideSelectedVoxels moreToHideThanVisible = none := by decide
  refine ⟨h, ?_⟩
  rintro ⟨s', hs', _⟩
  rw [h] at hs'
  cases hs'

/-- C9 amended: when `voxelsToHide` holds no more entries than
`visibleVoxelIdToGlobalId`, `hideSelectedVoxels` returns; the new list is the old one
without the entries that are in `voxelsToHide`, the others in their previous order, and
`voxelsToHide` is empty afterwards. -/
theorem C9_hideSelectedVoxels_filters_visible (s : VoxelSubSceneOverride)
    (hsize : s.voxelsToHide.length ≤ s.visibleVoxelIdToGlobalId.length) :
    ∃ s', hideSelectedVoxels s = some s' ∧
      s'.visibleVoxelIdToGlobalId
        = s.visibleVoxelIdToGlobalId.filter (fun g => decide (g ∉ s.voxelsToHide)) ∧
      s'.voxelsToHide = [] := by
  have hlt : ¬ s.visibleVoxelIdToGlobalId.length < s.voxelsToHide.length := by omega
  refine ⟨{ s with
      visibleVoxelIdToGlobalId :=
        s.visibleVoxelIdToGlobalId.filter (fun g => !(s.voxelsToHide.contains g))
      voxelsToHide := [] }, by simp only [hideSelectedVoxels, hlt, if_false], ?_, rfl⟩
  simp only
  apply List.filter_congr
  intro g _
  simp

theorem C9_hideSelectedVoxels_filters_visible_witness :
    ∃ s', hideSelectedVoxels hideCellOnePending = some s' ∧
      s'.visibleVoxelIdToGlobalId = [0, 2, 3] ∧ s'.voxelsToHide = [] := by
  obtain ⟨s', h1, h2, h3⟩ := C9_hideSelectedVoxels_filters_visible hideCellOnePending
    (by decide)
  exact ⟨s', h1, h2.trans (by decide), h3⟩

theorem C10_showSelectedMeshFaces_appends_hidden_witness :
    ∃ r, showSelectedMeshFaces fourCellContainer [("voxelRenderItem_A", [6, 7, 8])]
        [("voxelRenderItem_A", [0, 1, 2, 3, 4, 5])] = some r ∧
      r.2 = [] ∧
      r.1.lookup "voxelRenderItem_A" = some [0, 1, 2, 3, 4, 5, 6, 7, 8] := by
  obtain ⟨r, h1, h2, h3, _⟩ := C10_showSelectedMeshFaces_appends_hidden fourCellContainer
    [("voxelRenderItem_A", [6, 7, 8])] [("voxelRenderItem_A", [0, 1, 2, 3, 4, 5])]
    (by decide)
    (by
      intro item _ faces hmem _
      simp only [List.mem_singleton, Prod.mk.injEq] at hmem
      rw [hmem.1]
      decide)
  obtain ⟨old, ho, hn⟩ := h3 { internalObjectId := 1, name := "voxelRenderItem_A" }
    (by decide) [6, 7, 8] (by decide) (by decide)
  have hold : old = [0, 1, 2, 3, 4, 5] := by
    have : (some old : Option (List Nat)) = some [0, 1, 2, 3, 4, 5] := ho.symm.trans (by decide)
    exact Option.some.inj this
  subst hold
  exact ⟨r, h1, h2, hn⟩



/-! ## Buffer arena: removing a range -/

theorem copyBufferSubregion_front {α : Type} (old : List α) (d : α) (n offset : Nat)
    (h1 : offset ≤ old.length) (h2 : offset ≤ n) :
    copyBufferSubregion old (List.replicate n d) 0 0 offset
      = some (old.take offset ++ List.replicate (n - offset) d) := by
  unfold copyBufferSubregion
  have hc : 0 + offset ≤ old.length ∧ 0 + offset ≤ (List.replicate n d).length := by
    simp only [List.length_replicate]; omega
  rw [if_pos hc]
  simp

theorem copyBufferSubregion_back {α : Type} (old front : List α) (d : α) (e m : Nat)
    (he : e + m = old.length) :
    copyBufferSubregion old (front ++ List.replicate m d) e front.length m
      = some (front ++ old.drop e) := by
  unfold copyBufferSubregion
  have hc : e + m ≤ old.length ∧ front.length + m ≤ (front ++ List.replicate m d).length := by
    simp only [List.length_append, List.length_replicate]; omega
  rw [if_pos hc]
  have h1 : List.take m (List.drop e old) = List.drop e old :=
    List.take_of_length_le (by simp only [List.length_drop]; omega)
  have h2 : List.drop (front.length + m) (front ++ List.replicate m d) = [] :=
    List.drop_of_length_le (by simp)
  rw [h1, h2, List.take_left' rfl, List.append_nil]

theorem deleteFromBuffer_unfold {α : Type} [Inhabited α] (old : List α) (count offset : Nat)
    (hcount : count < old.length) :
    deleteFromBuffer (some old) count offset =
      match (if offset > 0 then
          copyBufferSubregion old (List.replicate (old.length - count) default) 0 0 offset
        else some (List.replicate (old.length - count) default)) with
      | none => none
      | some nb =>
        if (offset + count) % uintSize < old.length then
          match copyBufferSubregion old nb ((offset + count) % uintSize) offset
              (old.length - (offset + count) % uintSize) with
          | none => none
          | some copied => some (some copied)
        else
          some (some nb) := by
  have hnge : ¬ (count ≥ old.length) := by omega
  unfold deleteFromBuffer
  simp only [getNumElementsInBuffer, createBufferFromBufferTemplate, if_neg hnge]

/-- C14: for a buffer of `K` elements (`K` a 32-bit count), `count < K` and
`offset + count ≤ K`, `deleteFromBuffer` yields a buffer of `K - count` elements: the old
elements before `offset` followed by the old elements from `offset + count` on, each in
their order. -/
theorem C14_deleteFromBuffer_keeps_front_and_back {α : Type} [Inhabited α] (old : List α)
    (count offset : Nat) (hK : old.length < uintSize) (hcount : count < old.length)
    (hrange : offset + count ≤ old.length) :
    deleteFromBuffer (some old) count offset
      = some (some (old.take offset ++ old.drop (offset + count))) ∧
    (old.take offset ++ old.drop (offset + count)).length = old.length - count := by
  have hmod : (offset + count) % uintSize = offset + count :=
    Nat.mod_eq_of_lt (by omega)
  refine ⟨?_, by simp only [List.length_append, List.length_take, List.length_drop]; omega⟩
  rw [deleteFromBuffer_unfold old count offset hcount, hmod]
  have hfront : (if offset > 0 then
        copyBufferSubregion old (List.replicate (old.length - count) default) 0 0 offset
      else some (List.replicate (old.length - count) default))
      = some (old.take offset ++ List.replicate (old.length - count - offset) (default : α)) := by
    by_cases h0 : offset > 0
    · rw [if_pos h0]
      exact copyBufferSubregion_front old default _ offset (by omega) (by omega)
    · have hz : offset = 0 := by omega
      subst hz
      simp
  rw [hfront]
  simp only
  have hlen : (old.take offset).length = offset := by
    rw [List.length_take]; omega
  by_cases hend : offset + count < old.length
  · rw [if_pos hend]
    have hm : old.length - count - offset = old.length - (offset + count) := by omega
    rw [hm]
    have hb := copyBufferSubregion_back old (old.take offset) (default : α) (offset + count)
      (old.length - (offset + count)) (by omega)
    rw [hlen] at hb
    rw [hb]
  · rw [if_neg hend]
    have hm : old.length - count - offset = 0 := by omega
    have hd : old.drop (offset + count) = [] := List.drop_of_length_le (by omega)
    rw [hm, hd]
    simp

theorem C14_deleteFromBuffer_keeps_front_and_back_witness :
    deleteFromBuffer (some [10, 11, 12, 13, 14]) 2 1 = some (some [10, 13, 14]) ∧
    ([10, 13, 14] : List Nat).length = 5 - 2 :=
  C14_deleteFromBuffer_keeps_front_and_back [10, 11, 12, 13, 14] 2 1 (by decide) (by decide)
    (by decide)

/-! ## Buffer arena: memory reports -/

/-- C15: for a buffer of `K` elements and `count ≥ K`, `deleteFromBuffer` leaves the null
handle, and its only call is one release report of the old buffer's byte size: no buffer
is created. -/
theorem C15_deleteFromBuffer_all_releases_once {α : Type} [Inhabited α] (sizeofT : Nat)
    (old : List α) (count offset : Nat) (hcount : count ≥ old.length) :
    deleteFromBuffer (some old) count offset = some none ∧
    deleteFromBufferCalls sizeofT (some old) count offset
      = [DeviceEvent.releaseGPUMemory (sizeofT * old.length)] := by
  constructor
  · simp [deleteFromBuffer, getNumElementsInBuffer, hcount]
  · simp [deleteFromBufferCalls, getNumElementsInBuffer, hcount, notifyMayaOfMemoryUsage]

theorem C15_deleteFromBuffer_all_releases_once_witness :
    deleteFromBuffer (some [7, 8, 9]) 5 1 = some none ∧
    deleteFromBufferCalls 4 (some [7, 8, 9]) 5 1
      = [DeviceEvent.releaseGPUMemory (4 * [7, 8, 9].length)] :=
  C15_deleteFromBuffer_all_releases_once 4 [7, 8, 9] 5 1 (by decide)

/-- The reports of `addToBuffer` on an existing buffer: the new buffer is reported as
acquired by `createBufferFromBufferTemplate` and once more at the end. -/
theorem addToBufferCalls_reports {α : Type} [Inhabited α] (sizeofT : Nat)
    (old addedData : List α) :
    memoryReports (addToBufferCalls sizeofT (some old) addedData)
      = [DeviceEvent.holdGPUMemory (sizeofT * (old.length + addedData.length)),
         DeviceEvent.releaseGPUMemory (sizeofT * old.length),
         DeviceEvent.holdGPUMemory (sizeofT * (old.length + addedData.length))] := by
  have hlen : (vectorResize addedData (old.length + addedData.length)).length
      = old.length + addedData.length := by
    simp only [vectorResize, List.length_append, List.length_take, List.length_replicate]
    omega
  simp [addToBufferCalls, memoryReports, createBufferCalls, notifyMayaOfMemoryUsage,
    getNumElementsInBuffer, createBufferFromBufferTemplate, hlen]

/-- The reports of `deleteFromBuffer` when it removes fewer elements than the buffer
holds: one acquire of the new buffer, one release of the old one. -/
theorem deleteFromBufferCalls_reports {α : Type} [Inhabited α] (sizeofT : Nat)
    (old : List α) (count offset : Nat) (hcount : count < old.length) :
    memoryReports (deleteFromBufferCalls sizeofT (some old) count offset)
      = [DeviceEvent.holdGPUMemory (sizeofT * (old.length - count)),
         DeviceEvent.releaseGPUMemory (sizeofT * old.length)] := by
  have hnge : ¬ (count ≥ old.length) := by omega
  have hnle : ¬ (old.length ≤ count) := by omega
  unfold deleteFromBufferCalls
  simp only [getNumElementsInBuffer, if_neg hnge]
  by_cases h0 : offset > 0 <;> by_cases h1 : (offset + count) % uintSize < old.length <;>
    simp [memoryReports, createBufferCalls, notifyMayaOfMemoryUsage, h0, h1, List.filter]

/-- C16 on the code: adding one 4-byte element to a buffer of one element reports the
new 8-byte buffer as acquired twice and the old 4-byte buffer as released once, so the
memory counted as held grows by 12 bytes, not by the 4 bytes that the buffer grew. -/
theorem C16_addToBuffer_reports_new_buffer_twice :
    memoryReports (addToBufferCalls 4 (some [1]) [2])
      = [DeviceEvent.holdGPUMemory 8, DeviceEvent.releaseGPUMemory 4,
         DeviceEvent.holdGPUMemory 8] ∧
    heldMemoryChange (addToBufferCalls 4 (some [1]) [2]) = 12 ∧
    memoryReports (deleteFromBufferCalls 4 (some [2, 1]) 1 0)
      = [DeviceEvent.holdGPUMemory 4, DeviceEvent.releaseGPUMemory 8] ∧
    heldMemoryChange (deleteFromBufferCalls 4 (some [2, 1]) 1 0) = -4 := by
  decide



/-! ## Voxel-vertex mapper: indices out of range -/

theorem stampVoxel_foldlM_untouched (vertexIndices : List Nat) (voxels : Voxels) (n : Nat)
    (l : List Nat)
    (hstep : ∀ i ∈ l, ∃ c, sortedIdx voxels i = some c ∧
      ∀ ids : List Nat, ids.length = n →
        Stamps c (cellVertices vertexIndices voxels c) (stampVoxel vertexIndices voxels ids i) ids)
    (ids : List Nat) (hlen : ids.length = n) :
    ∃ out, l.foldlM (stampVoxel vertexIndices voxels) ids = some out ∧ out.length = n ∧
      (∀ v, (∀ i ∈ l, ∀ c, sortedIdx voxels i = some c →
        v ∉ cellVertices vertexIndices voxels c) → out[v]? = ids[v]?) := by
  induction l generalizing ids with
  | nil => exact ⟨ids, by simp, hlen, by simp⟩
  | cons i t ih =>
    obtain ⟨c, hc, hstamp⟩ := hstep i (List.mem_cons_self _ _)
    obtain ⟨mid, hmid, hmlen, hmval⟩ := hstamp ids hlen
    obtain ⟨out, hout, holen, hnot⟩ :=
      ih (fun j hj => hstep j (List.mem_cons_of_mem _ hj)) mid (hmlen.trans hlen)
    refine ⟨out, ?_, holen, ?_⟩
    · simp [List.foldlM_cons, hmid, hout]
    · intro v hv
      have hfree : ∀ a ∈ t, ∀ e, sortedIdx voxels a = some e →
          v ∉ cellVertices vertexIndices voxels e :=
        fun a ha e he => hv a (List.mem_cons_of_mem _ ha) e he
      rw [hnot v hfree, hmval v]
      simp [hv i (List.mem_cons_self _ _) c hc]

/-- C17 as stated fails: the mapper reads `vertexIndices[3 * faceIndex + k]` and writes
`vertexVoxelIds[vertexIndex]` without a bounds check. With one triangle in the index
buffer and a cell that names triangle 1, the read is past the end of the buffer; with
a triangle that names vertex 7 of 3 vertices, the write is past the end of the stamp
array. Neither call has a defined result. -/
theorem C17_getVoxelIdsForVertices_out_of_range_counterexample :
    getVoxelIdsForVertices [0, 1, 2] 3 strayFaceVoxels = none ∧
    getVoxelIdsForVertices [0, 1, 7] 3 oneCellVoxels = none := by
  decide

/-- C17 amended: when the `N` locality keys resolve to cells below `N` and every face
index and vertex index of these cells is in range, `getVoxelIdsForVertices` returns an
array of `numVertices` stamps in which every vertex that no face of a cell references
holds `UINT_MAX`. -/
theorem C17_getVoxelIdsForVertices_unreferenced_keep_UINT_MAX (vertexIndices : List Nat)
    (numVertices : Nat) (voxels : Voxels) (N : Nat)
    (hN : voxels.numOccupied = (N : Int))
    (hres : ∀ i < N, ∃ c < N, sortedIdx voxels i = some c)
    (hs : N ≤ voxels.surfaceFaceComponents.length)
    (hn : N ≤ voxels.interiorFaceComponents.length)
    (hface : ∀ c < N, ∀ f ∈ cellFaces voxels c, ∀ k ∈ ([0, 1, 2] : List Int),
      ∃ v < numVertices, vectorAt vertexIndices (3 * f + k) = some v) :
    ∃ ids, getVoxelIdsForVertices vertexIndices numVertices voxels = some ids ∧
      ids.length = numVertices ∧
      ∀ v < numVertices, (∀ c < N, v ∉ cellVertices vertexIndices voxels c) →
        ids[v]? = some UINT_MAX := by
  have hstep : ∀ i ∈ List.range N, ∃ c, sortedIdx voxels i = some c ∧
      ∀ ids : List Nat, ids.length = numVertices →
        Stamps c (cellVertices vertexIndices voxels c)
          (stampVoxel vertexIndices voxels ids i) ids := by
    intro i hi
    obtain ⟨c, hc, hic⟩ := hres i (List.mem_range.mp hi)
    refine ⟨c, hic, fun ids hlen => ?_⟩
    refine stamps_stampVoxel vertexIndices voxels i c numVertices hic (by omega) (by omega)
      ?_ ids hlen
    intro f hf k hk
    obtain ⟨v, hv, hvk⟩ := hface c hc f hf k hk
    exact ⟨v, hvk, hv⟩
  obtain ⟨out, hout, holen, hnot⟩ :=
    stampVoxel_foldlM_untouched vertexIndices voxels numVertices (List.range N) hstep
      (List.replicate numVertices UINT_MAX) (by simp)
  refine ⟨out, ?_, holen, ?_⟩
  · simp [getVoxelIdsForVertices, hN, hout]
  · intro v hv hfree
    have h := hnot v (fun i hi c hic => by
      obtain ⟨c', hc', hic'⟩ := hres i (List.mem_range.mp hi)
      have e : c = c' := Option.some.inj (hic.symm.trans hic')
      subst e
      exact hfree c hc')
    rw [h]
    simp [hv]

theorem C17_getVoxelIdsForVertices_unreferenced_keep_UINT_MAX_witness :
    ∃ ids, getVoxelIdsForVertices [0, 1, 2, 3, 4, 5] 8 twoCellVoxels = some ids ∧
      ids.length = 8 ∧
      ∀ v < 8, (∀ c < 2, v ∉ cellVertices [0, 1, 2, 3, 4, 5] twoCellVoxels c) →
        ids[v]? = some UINT_MAX :=
  C17_getVoxelIdsForVertices_unreferenced_keep_UINT_MAX [0, 1, 2, 3, 4, 5] 8 twoCellVoxels 2
    (by decide) (by decide) (by decide) (by decide) (by decide)



/-! ## Export of the deformed geometry: properties -/

theorem scatterVertex_spec {α : Type} (positionData rawPositions : List α) (i c : Nat)
    (hP : i * 3 + 2 < positionData.length) (hc : c * 3 + 2 < rawPositions.length)
    (hsize : rawPositions.length ≤ uintSize) :
    ∃ out, scatterVertex positionData rawPositions i c = some out ∧
      out.length = rawPositions.length ∧
      (∀ k < 3, out[c * 3 + k]? = positionData[i * 3 + k]?) ∧
      (∀ d, d ≠ c → ∀ k < 3, out[d * 3 + k]? = rawPositions[d * 3 + k]?) := by
  have h0 : positionData[i * 3]? = some positionData[i * 3] :=
    List.getElem?_eq_getElem (by omega)
  have h1 : positionData[i * 3 + 1]? = some positionData[i * 3 + 1] :=
    List.getElem?_eq_getElem (by omega)
  have h2 : positionData[i * 3 + 2]? = some positionData[i * 3 + 2] :=
    List.getElem?_eq_getElem (by omega)
  have m0 : (c * 3) % uintSize = c * 3 := Nat.mod_eq_of_lt (by omega)
  have m1 : (c * 3 + 1) % uintSize = c * 3 + 1 := Nat.mod_eq_of_lt (by omega)
  have m2 : (c * 3 + 2) % uintSize = c * 3 + 2 := Nat.mod_eq_of_lt (by omega)
  have l0 : c * 3 < rawPositions.length := by omega
  have l1 : c * 3 + 1 < rawPositions.length := by omega
  refine ⟨((rawPositions.set (c * 3) positionData[i * 3]).set (c * 3 + 1)
      positionData[i * 3 + 1]).set (c * 3 + 2) positionData[i * 3 + 2], ?_, by simp, ?_, ?_⟩
  · simp [scatterVertex, pointerWrite, h0, h1, h2, m0, m1, m2, l0, l1, hc]
  · intro k hk
    have hk3 : k = 0 ∨ k = 1 ∨ k = 2 := by omega
    rcases hk3 with rfl | rfl | rfl
    · simp [List.getElem?_set, l0, h0]
    · simp [List.getElem?_set, l1, h1]
    · simp [List.getElem?_set, hc, h2]
  · intro d hd k hk
    have a0 : c * 3 ≠ d * 3 + k := by omega
    have a1 : c * 3 + 1 ≠ d * 3 + k := by omega
    have a2 : c * 3 + 2 ≠ d * 3 + k := by omega
    simp [List.getElem?_set, a0, a1, a2]

theorem scatterFrom_spec {α : Type} (positionData : List α) (l : List Nat) (i0 : Nat)
    (rawPositions : List α)
    (hP : (i0 + l.length) * 3 ≤ positionData.length)
    (hc : ∀ c ∈ l, c * 3 + 2 < rawPositions.length)
    (hsize : rawPositions.length ≤ uintSize) :
    ∃ out, scatterFrom positionData i0 l rawPositions = some out ∧
      out.length = rawPositions.length ∧
      (∀ j c, l[j]? = some c → (∀ j2, j < j2 → l[j2]? ≠ some c) →
        ∀ k < 3, out[c * 3 + k]? = positionData[(i0 + j) * 3 + k]?) ∧
      (∀ c, c ∉ l → ∀ k < 3, out[c * 3 + k]? = rawPositions[c * 3 + k]?) := by
  induction l generalizing i0 rawPositions with
  | nil => exact ⟨rawPositions, rfl, rfl, by simp, by simp⟩
  | cons c0 t ih =>
    have hlen : (c0 :: t).length = t.length + 1 := rfl
    rw [hlen] at hP
    obtain ⟨mid, hmid, hmlen, hmin, hmout⟩ :=
      scatterVertex_spec positionData rawPositions i0 c0 (by omega)
        (hc c0 (List.mem_cons_self _ _)) hsize
    obtain ⟨out, hout, holen, hin, hnot⟩ :=
      ih (i0 + 1) mid (by omega)
        (fun c hcm => by rw [hmlen]; exact hc c (List.mem_cons_of_mem _ hcm))
        (by rw [hmlen]; exact hsize)
    refine ⟨out, ?_, holen.trans hmlen, ?_, ?_⟩
    · simp only [scatterFrom, hmid]
      exact hout
    · intro j c hj hlast k hk
      cases j with
      | zero =>
        have hcc : c0 = c := by simpa using hj
        subst hcc
        have hfree : c0 ∉ t := by
          intro hmem
          obtain ⟨n, hn, hget⟩ := List.getElem_of_mem hmem
          have := hlast (n + 1) (by omega)
          apply this
          simp [List.getElem?_eq_getElem hn, hget]
        rw [hnot c0 hfree k hk, hmin k hk]
        simp
      | succ j1 =>
        have hj1 : t[j1]? = some c := by simpa using hj
        have hlast1 : ∀ j2, j1 < j2 → t[j2]? ≠ some c := by
          intro j2 h12
          have := hlast (j2 + 1) (by omega)
          simpa using this
        have := hin j1 c hj1 hlast1 k hk
        rw [this]
        have e : (i0 + 1 + j1) * 3 + k = (i0 + (j1 + 1)) * 3 + k := by ring
        rw [e]
    · intro c hcn k hk
      have hne : c ≠ c0 := fun h => hcn (h ▸ List.mem_cons_self _ _)
      have hnt : c ∉ t := fun h => hcn (List.mem_cons_of_mem _ h)
      rw [hnot c hnt k hk, hmout c hne k hk]

/-- C18: for a mesh whose raw point and normal arrays can hold the data (memory-safety
preconditions of the raw-pointer writes), a vertex map `M` whose entries are vertices of
the mesh, and a position array `P` with `|P| ≥ 3 * |M|`, `copyGeometryDataToMesh` returns,
the canonical vertex `c = M[i]` holds `P[3i..3i+2]` for the largest `i` with `M[i] = c`,
and every vertex that is not an entry of `M` keeps its position. -/
theorem C18_copyGeometryDataToMesh_last_writer_wins {α : Type}
    (positionsBuffer normalsBuffer : List α) (exportVertexIdMap : List Nat) (mesh : MeshData α)
    (hP : 3 * exportVertexIdMap.length ≤ positionsBuffer.length)
    (hnormals : normalsBuffer.length ≤ mesh.rawNormals.length)
    (hcanon : ∀ c ∈ exportVertexIdMap, c * 3 + 2 < mesh.rawPoints.length)
    (hsize : mesh.rawPoints.length ≤ uintSize) :
    ∃ out, copyGeometryDataToMesh positionsBuffer normalsBuffer exportVertexIdMap (some mesh)
        = some (some out) ∧
      out.rawPoints.length = mesh.rawPoints.length ∧
      (∀ i c, exportVertexIdMap[i]? = some c →
        (∀ j, i < j → exportVertexIdMap[j]? ≠ some c) →
        ∀ k < 3, ∃ p, positionsBuffer[i * 3 + k]? = some p ∧
          out.rawPoints[c * 3 + k]? = some p) ∧
      (∀ c, c ∉ exportVertexIdMap → ∀ k < 3,
        out.rawPoints[c * 3 + k]? = mesh.rawPoints[c * 3 + k]?) := by
  obtain ⟨pts, hpts, hplen, hin, hnot⟩ :=
    scatterFrom_spec positionsBuffer exportVertexIdMap 0 mesh.rawPoints (by omega) hcanon hsize
  refine ⟨{ rawPoints := pts,
            rawNormals := normalsBuffer ++ mesh.rawNormals.drop normalsBuffer.length },
    ?_, hplen, ?_, hnot⟩
  · simp [copyGeometryDataToMesh, copyBufferToPointer, getRawNormals, getRawPoints, hnormals,
      hpts]
  · intro i c hi hlast k hk
    have hilt : i < exportVertexIdMap.length := by
      by_contra hge
      rw [List.getElem?_eq_none (by omega)] at hi
      cases hi
    have hklt : i * 3 + k < positionsBuffer.length := by omega
    refine ⟨positionsBuffer[i * 3 + k], List.getElem?_eq_getElem hklt, ?_⟩
    have := hin i c hi hlast k hk
    simp only [Nat.zero_add] at this
    rw [this, List.getElem?_eq_getElem hklt]

theorem C18_copyGeometryDataToMesh_last_writer_wins_witness :
    ∃ out, copyGeometryDataToMesh [10, 11, 12, 20, 21, 22, 30, 31, 32] [7, 7, 7] [1, 0, 1]
        (some { rawPoints := [0, 0, 0, 0, 0, 0, 5, 5, 5], rawNormals := [1, 1, 1] })
        = some (some out) ∧
      out.rawPoints.length
        = (MeshData.mk [0, 0, 0, 0, 0, 0, 5, 5, 5] [1, 1, 1] : MeshData Nat).rawPoints.length ∧
      (∀ i c, [1, 0, 1][i]? = some c →
        (∀ j, i < j → [1, 0, 1][j]? ≠ some c) →
        ∀ k < 3, ∃ p, [10, 11, 12, 20, 21, 22, 30, 31, 32][i * 3 + k]? = some p ∧
          out.rawPoints[c * 3 + k]? = some p) ∧
      (∀ c, c ∉ [1, 0, 1] → ∀ k < 3,
        out.rawPoints[c * 3 + k]?
          = (MeshData.mk [0, 0, 0, 0, 0, 0, 5, 5, 5] [1, 1, 1] : MeshData Nat).rawPoints[c * 3 + k]?) :=
  C18_copyGeometryDataToMesh_last_writer_wins [10, 11, 12, 20, 21, 22, 30, 31, 32] [7, 7, 7]
    [1, 0, 1] { rawPoints := [0, 0, 0, 0, 0, 0, 5, 5, 5], rawNormals := [1, 1, 1] }
    (by decide) (by decide) (by decide) (by decide)

/-- An export over three vertices, evaluated: vertex 1 holds the position of the extracted
vertex 2 (its last writer), vertex 0 that of the extracted vertex 1, vertex 2 is kept. -/
theorem copyGeometryDataToMesh_example :
    (copyGeometryDataToMesh [10, 11, 12, 20, 21, 22, 30, 31, 32] [7, 7, 7] [1, 0, 1]
        (some { rawPoints := [0, 0, 0, 0, 0, 0, 5, 5, 5], rawNormals := [1, 1, 1] })).map
      (fun r => r.map (fun m => (m.rawPoints, m.rawNormals)))
      = some (some ([20, 21, 22, 30, 31, 32, 5, 5, 5], [7, 7, 7])) := by
  decide

/-- C19 on the code: with a path that resolves to no mesh, `copyGeometryDataToMesh` does
not return early. It copies the normals buffer to the null pointer that `getRawNormals`
returned, and writes every mapped position through the null pointer that `getRawPoints`
returned: the call has no defined result as soon as the normals buffer or the vertex map
is non-empty. -/
theorem C19_copyGeometryDataToMesh_unresolved_mesh_is_undefined :
    (copyGeometryDataToMesh [10, 11, 12] [7, 7, 7] [0] (none : Option (MeshData Nat))).isNone
      = true ∧
    (copyGeometryDataToMesh [10, 11, 12] [] [0] (none : Option (MeshData Nat))).isNone
      = true := by
  decide



/-! ## Paint buffers: properties -/

theorem intMul_ok (N : Nat) (e : Nat) (he : e ≤ 8) (hN : (N : Int) * 8 ≤ INT_MAX) :
    intMul (N : Int) (e : Int) = some (((N * e : Nat) : Int)) := by
  unfold intMul
  have h1 : (N : Int) * (e : Int) ≤ (N : Int) * 8 :=
    Int.mul_le_mul_of_nonneg_left (by exact_mod_cast he) (Int.ofNat_nonneg N)
  have h2 : (0 : Int) ≤ (N : Int) * (e : Int) :=
    Int.mul_nonneg (Int.ofNat_nonneg N) (Int.ofNat_nonneg e)
  have h3 : -INT_MAX - 1 ≤ (N : Int) * (e : Int) := by
    unfold INT_MAX at *; omega
  rw [if_pos ⟨h3, le_trans h1 hN⟩]
  simp

theorem emptyPaintData_ok (n : Nat) :
    emptyPaintData (n : Int) = some (List.replicate n 0) := by
  simp [emptyPaintData]

theorem allocatePaintBuffers_frame (N : Nat) (e : Nat) (he : e ≤ 8) (f : Bool)
    (hN : (N : Int) * 8 ≤ INT_MAX) (s : VoxelShape) (voxels : Voxels)
    (hv : s.voxels = some voxels) (hocc : voxels.numOccupied = (N : Int)) :
    ∃ s1, allocatePaintBuffers (e : Int) f s = some s1 ∧ s1.voxels = s.voxels ∧
      s1.paintDeltaBuffer = s.paintDeltaBuffer ∧
      s1.paintDeltaAllocations = s.paintDeltaAllocations ∧
      s1.paintDeltaCompute = s.paintDeltaCompute := by
  unfold allocatePaintBuffers
  rw [hv]
  simp only [hocc, intMul_ok N e he hN, emptyPaintData_ok]
  cases f
  · exact ⟨_, rfl, rfl, rfl, rfl, rfl⟩
  · exact ⟨_, rfl, rfl, rfl, rfl, rfl⟩

theorem getPaintView_allocated_frame (N : Nat) (hN : (N : Int) * 8 ≤ INT_MAX) (s : VoxelShape)
    (voxels : Voxels) (hv : s.voxels = some voxels) (hocc : voxels.numOccupied = (N : Int))
    (xs : List Nat) (hbuf : s.paintDeltaBuffer = some xs) (paintMode : VoxelEditMode) :
    ∃ s1, getPaintView s paintMode = some s1 ∧ s1.voxels = s.voxels ∧
      s1.paintDeltaBuffer = s.paintDeltaBuffer ∧
      s1.paintDeltaAllocations = s.paintDeltaAllocations ∧
      s1.paintDeltaCompute = s.paintDeltaCompute := by
  have h86 : (6 : Nat) ≤ 8 := by decide
  have hnn : s.paintDeltaBuffer.isNone = false := by rw [hbuf]; rfl
  unfold getPaintView
  simp only [hnn, Bool.false_eq_true, if_false]
  cases hb : (paintMode == VoxelEditMode.FacePaint)
  · cases hi : s.particlePaintViews.isInitialized
    · simpa [hi] using allocatePaintBuffers_frame N 8 (le_refl 8) false hN s voxels hv hocc
    · simp [hi]
  · cases hi : s.facePaintViews.isInitialized
    · simpa [hi] using allocatePaintBuffers_frame N 6 h86 true hN s voxels hv hocc
    · simp [hi]

theorem allocatePaintDeltaBuffer_spec (N : Nat) (hN : (N : Int) * 8 ≤ INT_MAX) (s : VoxelShape)
    (voxels : Voxels) (hv : s.voxels = some voxels) (hocc : voxels.numOccupied = (N : Int)) :
    ∃ s1, allocatePaintDeltaBuffer s = some s1 ∧ s1.voxels = s.voxels ∧
      s1.paintDeltaBuffer = some (List.replicate (8 * N) 0) ∧
      s1.paintDeltaAllocations = s.paintDeltaAllocations + 1 := by
  have hm : intMul (N : Int) 8 = some (((N * 8 : Nat) : Int)) := by
    simpa using intMul_ok N 8 (le_refl 8) hN
  unfold allocatePaintDeltaBuffer
  rw [hv]
  simp only [hocc, hm, emptyPaintData_ok]
  exact ⟨_, rfl, rfl, by simp [createReadWriteBuffer, Nat.mul_comm], rfl⟩

theorem getPaintView_first (N : Nat) (hN : (N : Int) * 8 ≤ INT_MAX) (s : VoxelShape)
    (voxels : Voxels) (hv : s.voxels = some voxels) (hocc : voxels.numOccupied = (N : Int))
    (hnull : s.paintDeltaBuffer = none) (paintMode : VoxelEditMode) :
    ∃ s1, getPaintView s paintMode = some s1 ∧
      DeltaAllocated N (s.paintDeltaAllocations + 1) s1 ∧
      s1.paintDeltaBuffer = some (List.replicate (8 * N) 0) := by
  obtain ⟨a, ha, hva, hba, hca⟩ := allocatePaintDeltaBuffer_spec N hN s voxels hv hocc
  obtain ⟨s1, hs1, hv1, hb1, hc1, _⟩ :=
    getPaintView_allocated_frame N hN a voxels (hva.trans hv) hocc _ hba paintMode
  have hsame : getPaintView s paintMode = getPaintView a paintMode := by
    unfold getPaintView
    rw [hnull, hba]
    simp only [Option.isNone_none, Option.isNone_some, if_true, Bool.false_eq_true, if_false, ha]
  refine ⟨s1, hsame.trans hs1, ⟨⟨voxels, hv1.trans (hva.trans hv), hocc⟩, ⟨_, hb1.trans hba, ?_⟩,
    hc1.trans hca⟩, hb1.trans hba⟩
  simp

theorem subscribeToPaintStateChanges_spec (N : Nat) (hN : (N : Int) * 8 ≤ INT_MAX)
    (s : VoxelShape) (voxels : Voxels) (hv : s.voxels = some voxels)
    (hocc : voxels.numOccupied = (N : Int)) (paintMode : VoxelEditMode) :
    ∃ s1, subscribeToPaintStateChanges s paintMode = some s1 ∧ s1.voxels = s.voxels ∧
      s1.paintDeltaBuffer = s.paintDeltaBuffer ∧
      s1.paintDeltaAllocations = s.paintDeltaAllocations ∧
      s1.paintDeltaCompute.numElements
        = (if paintMode = VoxelEditMode.FacePaint then 6 * N else 8 * N) := by
  have h86 : (6 : Nat) ≤ 8 := by decide
  have hmax : (N : Int) * 8 < (uintSize : Int) := by
    unfold INT_MAX at hN; unfold uintSize; push_cast; omega
  have hmod : ∀ e : Nat, e ≤ 8 → (((N * e : Nat) : Int) % (uintSize : Int)).toNat = N * e := by
    intro e he
    have h1 : ((N * e : Nat) : Int) ≤ (N : Int) * 8 := by
      push_cast
      exact Int.mul_le_mul_of_nonneg_left (by exact_mod_cast he) (Int.ofNat_nonneg N)
    have h2 : (0 : Int) ≤ ((N * e : Nat) : Int) := Int.ofNat_nonneg _
    rw [Int.emod_eq_of_lt h2 (lt_of_le_of_lt h1 hmax)]
    exact Int.toNat_ofNat _
  unfold subscribeToPaintStateChanges
  rw [hv]
  by_cases hf : paintMode = VoxelEditMode.FacePaint
  · have hm := intMul_ok N 6 h86 hN
    simp only [Nat.cast_ofNat] at hm
    simp only [hf, beq_self_eq_true, if_true, hocc, hm]
    refine ⟨_, rfl, rfl, rfl, rfl, ?_⟩
    show (((N * 6 : Nat) : Int) % (uintSize : Int)).toNat = 6 * N
    rw [hmod 6 h86, Nat.mul_comm]
  · have hm := intMul_ok N 8 (le_refl 8) hN
    simp only [Nat.cast_ofNat] at hm
    have hb : (paintMode == VoxelEditMode.FacePaint) = false := by simpa using hf
    simp only [hb, Bool.false_eq_true, if_false, hocc, hm, hf]
    refine ⟨_, rfl, rfl, rfl, rfl, ?_⟩
    show (((N * 8 : Nat) : Int) % (uintSize : Int)).toNat = 8 * N
    rw [hmod 8 (le_refl 8), Nat.mul_comm]

theorem runPaintCall_frame (N : Nat) (hN : (N : Int) * 8 ≤ INT_MAX) (k : Nat) (s : VoxelShape)
    (hs : DeltaAllocated N k s) (call : PaintCall) :
    ∃ s1, runPaintCall s call = some s1 ∧ DeltaAllocated N k s1 ∧
      s1.paintDeltaBuffer = s.paintDeltaBuffer := by
  obtain ⟨⟨voxels, hv, hocc⟩, ⟨xs, hbuf, hlen⟩, hk⟩ := hs
  cases call with
  | getPaintView paintMode =>
    obtain ⟨s1, hs1, hv1, hb1, hc1, _⟩ :=
      getPaintView_allocated_frame N hN s voxels hv hocc xs hbuf paintMode
    exact ⟨s1, hs1, ⟨⟨voxels, hv1.trans hv, hocc⟩, ⟨xs, hb1.trans hbuf, hlen⟩, hc1.trans hk⟩, hb1⟩
  | onEditModeChange newMode isThisShape =>
    unfold runPaintCall onEditModeChange
    simp only
    split
    · obtain ⟨s1, hs1, hv1, hb1, hc1, _⟩ :=
        getPaintView_allocated_frame N hN s voxels hv hocc xs hbuf newMode
      obtain ⟨s2, hs2, hv2, hb2, hc2, _⟩ :=
        subscribeToPaintStateChanges_spec N hN s1 voxels (hv1.trans hv) hocc newMode
      refine ⟨s2, ?_, ⟨⟨voxels, hv2.trans (hv1.trans hv), hocc⟩,
        ⟨xs, hb2.trans (hb1.trans hbuf), hlen⟩, hc2.trans (hc1.trans hk)⟩, hb2.trans hb1⟩
      simp only [hs1, hs2]
    · exact ⟨s, rfl, ⟨⟨voxels, hv, hocc⟩, ⟨xs, hbuf, hlen⟩, hk⟩, rfl⟩

theorem runPaintCalls_frame (N : Nat) (hN : (N : Int) * 8 ≤ INT_MAX) (k : Nat)
    (calls : List PaintCall) (s : VoxelShape) (hs : DeltaAllocated N k s) :
    ∃ s1, runPaintCalls calls s = some s1 ∧ DeltaAllocated N k s1 ∧
      s1.paintDeltaBuffer = s.paintDeltaBuffer := by
  induction calls generalizing s with
  | nil => exact ⟨s, rfl, hs, rfl⟩
  | cons call rest ih =>
    obtain ⟨s1, hs1, hd1, hb1⟩ := runPaintCall_frame N hN k s hs call
    obtain ⟨s2, hs2, hd2, hb2⟩ := ih s1 hd1
    refine ⟨s2, ?_, hd2, hb2.trans hb1⟩
    unfold runPaintCalls at hs2 ⊢
    simp only [List.foldlM_cons, hs1]
    exact hs2

/-- C20: over `N` occupied cells (with `8 * N` an `int`), the first `getPaintView` call
allocates the paint delta buffer with `8 * N` elements; no later `getPaintView` call or
edit-mode change allocates it again or replaces it; and the element count that
`subscribeToPaintStateChanges` hands to the delta compute pass is `6 * N` in face-paint
mode and `8 * N` otherwise, which the delta buffer can hold. -/
theorem C20_paint_delta_buffer_allocated_once (N : Nat) (hN : (N : Int) * 8 ≤ INT_MAX)
    (s : VoxelShape) (voxels : Voxels) (hv : s.voxels = some voxels)
    (hocc : voxels.numOccupied = (N : Int)) (hnull : s.paintDeltaBuffer = none)
    (firstMode : VoxelEditMode) (calls : List PaintCall) (paintMode : VoxelEditMode) :
    ∃ s1 s2 s3, getPaintView s firstMode = some s1 ∧ runPaintCalls calls s1 = some s2 ∧
      subscribeToPaintStateChanges s2 paintMode = some s3 ∧
      s1.paintDeltaBuffer = some (List.replicate (8 * N) 0) ∧
      s1.paintDeltaAllocations = s.paintDeltaAllocations + 1 ∧
      s2.paintDeltaBuffer = s1.paintDeltaBuffer ∧
      s2.paintDeltaAllocations = s1.paintDeltaAllocations ∧
      s3.paintDeltaBuffer = s1.paintDeltaBuffer ∧
      s3.paintDeltaAllocations = s1.paintDeltaAllocations ∧
      s3.paintDeltaCompute.numElements
        = (if paintMode = VoxelEditMode.FacePaint then 6 * N else 8 * N) ∧
      s3.paintDeltaCompute.numElements ≤ getNumElementsInBuffer s3.paintDeltaBuffer := by
  obtain ⟨s1, hs1, hd1, hb1⟩ := getPaintView_first N hN s voxels hv hocc hnull firstMode
  obtain ⟨s2, hs2, hd2, hb2⟩ :=
    runPaintCalls_frame N hN (s.paintDeltaAllocations + 1) calls s1 hd1
  obtain ⟨⟨v2, hv2, hocc2⟩, _, hk2⟩ := hd2
  obtain ⟨s3, hs3, _, hb3, hc3, hn3⟩ :=
    subscribeToPaintStateChanges_spec N hN s2 v2 hv2 hocc2 paintMode
  refine ⟨s1, s2, s3, hs1, hs2, hs3, hb1, hd1.2.2, hb2, hk2.trans hd1.2.2.symm, hb3.trans hb2,
    hc3.trans (hk2.trans hd1.2.2.symm), hn3, ?_⟩
  rw [hn3, hb3, hb2, hb1]
  simp only [getNumElementsInBuffer, List.length_replicate]
  split <;> omega

theorem C20_paint_delta_buffer_allocated_once_witness :
    ∃ s1 s2 s3, getPaintView (unpaintedShape twoCellVoxels) VoxelEditMode.FacePaint = some s1 ∧
      runPaintCalls [PaintCall.onEditModeChange VoxelEditMode.ParticlePaint true,
        PaintCall.getPaintView VoxelEditMode.FacePaint] s1 = some s2 ∧
      subscribeToPaintStateChanges s2 VoxelEditMode.FacePaint = some s3 ∧
      s1.paintDeltaBuffer = some (List.replicate (8 * 2) 0) ∧
      s1.paintDeltaAllocations = (unpaintedShape twoCellVoxels).paintDeltaAllocations + 1 ∧
      s2.paintDeltaBuffer = s1.paintDeltaBuffer ∧
      s2.paintDeltaAllocations = s1.paintDeltaAllocations ∧
      s3.paintDeltaBuffer = s1.paintDeltaBuffer ∧
      s3.paintDeltaAllocations = s1.paintDeltaAllocations ∧
      s3.paintDeltaCompute.numElements
        = (if VoxelEditMode.FacePaint = VoxelEditMode.FacePaint then 6 * 2 else 8 * 2) ∧
      s3.paintDeltaCompute.numElements ≤ getNumElementsInBuffer s3.paintDeltaBuffer :=
  C20_paint_delta_buffer_allocated_once 2 (by decide) (unpaintedShape twoCellVoxels)
    twoCellVoxels rfl rfl rfl VoxelEditMode.FacePaint
    [PaintCall.onEditModeChange VoxelEditMode.ParticlePaint true,
      PaintCall.getPaintView VoxelEditMode.FacePaint] VoxelEditMode.FacePaint

/-- The scenario of two cells in face-paint mode, evaluated: the pass is handed 12
elements while the delta buffer, allocated once, holds 16. -/
theorem paint_two_cells_face_mode :
    ((getPaintView (unpaintedShape twoCellVoxels) VoxelEditMode.FacePaint).bind
        (fun s1 => (runPaintCalls [PaintCall.onEditModeChange VoxelEditMode.ParticlePaint true,
            PaintCall.onEditModeChange VoxelEditMode.FacePaint true] s1))).map
      (fun s => (s.paintDeltaCompute.numElements, getNumElementsInBuffer s.paintDeltaBuffer,
        s.paintDeltaAllocations))
      = some (12, 16, 1) := by
  decide



/-! ## Selection change: recently hidden becomes hidden -/

theorem mem_foldl_setInsert (l s : List Nat) (x : Nat) :
    x ∈ l.foldl setInsert s ↔ x ∈ s ∨ x ∈ l := by
  induction l generalizing s with
  | nil => simp
  | cons a t ih =>
    rw [List.foldl_cons, ih, mem_setInsert, List.mem_cons]
    constructor
    · rintro ((h | h) | h)
      · exact Or.inl h
      · exact Or.inr (Or.inl h)
      · exact Or.inr (Or.inr h)
    · rintro (h | h | h)
      · exact Or.inl (Or.inl h)
      · exact Or.inl (Or.inr h)
      · exact Or.inr h

theorem mapIndex_mergeFaces (R H : RenderItemFaceIdxMap) (hnd : (R.map Prod.fst).Nodup)
    (name : String) :
    mapIndex (R.foldl
      (fun hiddenFaces entry =>
        match hiddenFaces.lookup entry.1 with
        | none => mapSet hiddenFaces entry.1 entry.2
        | some existing => mapSet hiddenFaces entry.1 (existing ++ entry.2)) H) name
      = mapIndex H name ++ mapIndex R name := by
  induction R generalizing H with
  | nil => simp [mapIndex, List.lookup]
  | cons e t ih =>
    obtain ⟨k, v⟩ := e
    simp only [List.map_cons, List.nodup_cons] at hnd
    rw [List.foldl_cons, ih _ hnd.2]
    have hstep : ∀ n, mapIndex
        (match H.lookup k with
          | none => mapSet H k v
          | some existing => mapSet H k (existing ++ v)) n
        = if n = k then mapIndex H k ++ v else mapIndex H n := by
      intro n
      by_cases hn : n = k
      · subst hn
        cases hl : H.lookup n with
        | none => simp [mapIndex, lookup_mapSet_self, hl]
        | some existing => simp [mapIndex, lookup_mapSet_self, hl]
      · cases hl : H.lookup k with
        | none => simp [mapIndex, lookup_mapSet_ne _ _ _ _ hn, hn]
        | some existing => simp [mapIndex, lookup_mapSet_ne _ _ _ _ hn, hn]
    simp only at hstep ⊢
    rw [hstep name]
    by_cases hn : name = k
    · subst hn
      have hnone : t.lookup name = none := by
        cases hl : t.lookup name with
        | none => rfl
        | some w =>
          exact absurd ((lookup_isSome_iff t name).mp (by rw [hl]; rfl)) hnd.1
      simp [mapIndex, List.lookup, hnone]
    · have hb : (name == k) = false := by simpa using hn
      simp [mapIndex, List.lookup, hb, hn]

theorem invalidateRecentlyHidden_spec (s : VoxelSubSceneOverride)
    (hnd : (s.recentlyHiddenFaces.map Prod.fst).Nodup) :
    (invalidateRecentlyHidden s).recentlyHiddenVoxels = [] ∧
    (invalidateRecentlyHidden s).recentlyHiddenFaces = [] ∧
    (∀ x, x ∈ (invalidateRecentlyHidden s).hiddenVoxels ↔
      x ∈ s.hiddenVoxels ∨ x ∈ s.recentlyHiddenVoxels) ∧
    (∀ itemName, mapIndex (invalidateRecentlyHidden s).hiddenFaces itemName
      = mapIndex s.hiddenFaces itemName ++ mapIndex s.recentlyHiddenFaces itemName) ∧
    (invalidateRecentlyHidden s).hideAllowed = true :=
  ⟨rfl, rfl, fun x => mem_foldl_setInsert s.recentlyHiddenVoxels s.hiddenVoxels x,
    fun itemName => mapIndex_mergeFaces s.recentlyHiddenFaces s.hiddenFaces hnd itemName, rfl⟩

/-- C11: after `onSelectionChanged`, and after `invalidateRecentlyHidden` alone,
`recentlyHiddenVoxels` and `recentlyHiddenFaces` are empty, `hiddenVoxels` holds exactly
the old `hiddenVoxels` and the old `recentlyHiddenVoxels`, for every render item
`hiddenFaces` holds its old list followed by the item's old `recentlyHiddenFaces` list,
and `hideAllowed` is true. (The keys of the map `recentlyHiddenFaces` are distinct.) -/
theorem C11_selection_change_commits_recently_hidden (s : VoxelSubSceneOverride)
    (hnd : (s.recentlyHiddenFaces.map Prod.fst).Nodup) :
    ∀ s' ∈ [onSelectionChanged s, invalidateRecentlyHidden s],
      s'.recentlyHiddenVoxels = [] ∧
      s'.recentlyHiddenFaces = [] ∧
      (∀ x, x ∈ s'.hiddenVoxels ↔ x ∈ s.hiddenVoxels ∨ x ∈ s.recentlyHiddenVoxels) ∧
      (∀ itemName, mapIndex s'.hiddenFaces itemName
        = mapIndex s.hiddenFaces itemName ++ mapIndex s.recentlyHiddenFaces itemName) ∧
      s'.hideAllowed = true := by
  intro s' hs'
  simp only [List.mem_cons, List.mem_singleton, List.not_mem_nil, or_false] at hs'
  rcases hs' with rfl | rfl
  · exact invalidateRecentlyHidden_spec { s with shouldUpdate := true, selectionChanged := true }
      hnd
  · exact invalidateRecentlyHidden_spec s hnd

theorem C11_selection_change_commits_recently_hidden_witness :
    (onSelectionChanged cellOneRecentlyHidden).recentlyHiddenVoxels = [] ∧
    (onSelectionChanged cellOneRecentlyHidden).recentlyHiddenFaces = [] ∧
    (∀ x, x ∈ (onSelectionChanged cellOneRecentlyHidden).hiddenVoxels ↔
      x ∈ cellOneRecentlyHidden.hiddenVoxels ∨ x ∈ cellOneRecentlyHidden.recentlyHiddenVoxels) ∧
    (∀ itemName, mapIndex (onSelectionChanged cellOneRecentlyHidden).hiddenFaces itemName
      = mapIndex cellOneRecentlyHidden.hiddenFaces itemName
        ++ mapIndex cellOneRecentlyHidden.recentlyHiddenFaces itemName) ∧
    (onSelectionChanged cellOneRecentlyHidden).hideAllowed = true :=
  C11_selection_change_commits_recently_hidden cellOneRecentlyHidden (by decide)
    (onSelectionChanged cellOneRecentlyHidden) (List.mem_cons_self _ _)

/-- The selection change of the example, evaluated. -/
theorem onSelectionChanged_example :
    (onSelectionChanged cellOneRecentlyHidden).hiddenVoxels = [0, 1] ∧
    (onSelectionChanged cellOneRecentlyHidden).hiddenFaces
      = [("voxelRenderItem_A", [0, 1, 2, 3, 4, 5, 6, 7, 8, 9, 10, 11])] ∧
    (onSelectionChanged cellOneRecentlyHidden).recentlyHiddenVoxels = [] ∧
    (onSelectionChanged cellOneRecentlyHidden).recentlyHiddenFaces = [] ∧
    (onSelectionChanged cellOneRecentlyHidden).hideAllowed = true := by
  decide



/-! ## Reachable states: the visible list and the hidden sets -/

theorem foldlM_invariant {α β : Type} (f : β → α → Option β) (P : β → Prop) (l : List α)
    (b b' : β) (hstep : ∀ x a y, a ∈ l → P x → f x a = some y → P y) (hb : P b)
    (h : l.foldlM f b = some b') : P b' := by
  induction l generalizing b with
  | nil =>
    simp at h
    exact h ▸ hb
  | cons a t ih =>
    rw [List.foldlM_cons] at h
    cases hm : f b a with
    | none => simp [hm] at h
    | some mid =>
      simp only [hm, Option.bind_eq_bind, Option.some_bind] at h
      exact ih mid (fun x a' y ha' => hstep x a' y (List.mem_cons_of_mem _ ha'))
        (hstep b a mid (List.mem_cons_self _ _) hb hm) h

theorem nodup_setInsert (s : List Nat) (x : Nat) (h : s.Nodup) : (setInsert s x).Nodup := by
  unfold setInsert
  split
  · exact h
  · rename_i hx
    exact List.Nodup.append h (List.nodup_singleton x)
      (fun a ha hb => hx ((List.mem_singleton.mp hb) ▸ ha))

theorem nodup_foldl_setInsert (l s : List Nat) (h : s.Nodup) :
    (l.foldl setInsert s).Nodup := by
  induction l generalizing s with
  | nil => exact h
  | cons a t ih => exact ih _ (nodup_setInsert s a h)

theorem vectorAt_mem {α : Type} (v : List α) (i : Int) (x : α) (h : vectorAt v i = some x) :
    x ∈ v := by
  unfold vectorAt at h
  split at h
  · exact absurd h (by simp)
  · exact List.getElem?_mem h

theorem mem_of_lookup_index (M : List (Nat × Nat)) (i v : Nat) (h : M.lookup i = some v) :
    (i, v) ∈ M := by
  induction M with
  | nil => simp [List.lookup] at h
  | cons e rest ih =>
    obtain ⟨k0, v0⟩ := e
    simp only [List.lookup] at h
    cases hk : (i == k0)
    · simp only [hk] at h
      exact List.mem_cons_of_mem _ (ih h)
    · simp only [hk] at h
      have : i = k0 := by simpa using hk
      subst this
      rw [Option.some.inj h]
      exact List.mem_cons_self _ _

theorem insertIfAbsent_values (M : List (Nat × Nat)) (k v : Nat) (S : List Nat)
    (hM : ∀ p ∈ M, p.2 ∈ S) (hv : v ∈ S) : ∀ p ∈ insertIfAbsent M k v, p.2 ∈ S := by
  unfold insertIfAbsent
  split
  · exact hM
  · intro p hp
    rcases List.mem_append.mp hp with h | h
    · exact hM p h
    · rw [List.mem_singleton.mp h]
      exact hv

theorem addIndicesToHide_values (allMeshIndices : List Nat) (faceComponents : List (List Int))
    (c : Nat) (M M' : List (Nat × Nat)) (S : List Nat) (hc : c ∈ S)
    (hM : ∀ p ∈ M, p.2 ∈ S)
    (h : addIndicesToHide allMeshIndices faceComponents c M = some M') :
    ∀ p ∈ M', p.2 ∈ S := by
  unfold addIndicesToHide at h
  split at h
  · exact absurd h (by simp)
  · refine foldlM_invariant _ (fun A => ∀ p ∈ A, p.2 ∈ S) _ M M' ?_ hM h
    intro A faceIdx B _ hA hB
    refine foldlM_invariant _ (fun A => ∀ p ∈ A, p.2 ∈ S) _ A B ?_ hA hB
    intro A2 k B2 _ hA2 hB2
    split at hB2
    · exact absurd hB2 (by simp)
    · rw [← Option.some.inj hB2]
      exact insertIfAbsent_values A2 _ c S hA2 hc

theorem buildIndicesToHide_values (voxels : Voxels) (allMeshIndices voxelsToHide : List Nat)
    (M : List (Nat × Nat))
    (h : buildIndicesToHide voxels allMeshIndices voxelsToHide = some M) :
    ∀ p ∈ M, p.2 ∈ voxelsToHide := by
  unfold buildIndicesToHide at h
  refine foldlM_invariant _ (fun A => ∀ p ∈ A, p.2 ∈ voxelsToHide) _ [] M ?_ (by simp) h
  intro A c B hc hA hB
  split at hB
  · exact absurd hB (by simp)
  · rename_i A1 hA1
    exact addIndicesToHide_values allMeshIndices _ c A1 B voxelsToHide hc
      (addIndicesToHide_values allMeshIndices _ c A A1 voxelsToHide hc hA hA1) hB

theorem hideScan_nodup (M : List (Nat × Nat)) (n : String) (indices : List Nat)
    (st : HideScan) (h : st.recentlyHiddenVoxels.Nodup) :
    (indices.foldl (hideScanStep M n) st).recentlyHiddenVoxels.Nodup := by
  induction indices generalizing st with
  | nil => exact h
  | cons i rest ih =>
    rw [List.foldl_cons]
    apply ih
    unfold hideScanStep
    split
    · exact h
    · exact nodup_setInsert _ _ h

theorem hideItems_recentlyHiddenVoxels (M : List (Nat × Nat)) (container : List RenderItem)
    (t t' : VoxelSubSceneOverride)
    (hfold : container.foldlM (hideItemFaces M) t = some t') :
    (t.recentlyHiddenVoxels.Nodup → t'.recentlyHiddenVoxels.Nodup) ∧
    (∀ x ∈ t'.recentlyHiddenVoxels, x ∈ t.recentlyHiddenVoxels ∨ ∃ i, M.lookup i = some x) := by
  refine foldlM_invariant (hideItemFaces M)
    (fun u => (t.recentlyHiddenVoxels.Nodup → u.recentlyHiddenVoxels.Nodup) ∧
      (∀ x ∈ u.recentlyHiddenVoxels, x ∈ t.recentlyHiddenVoxels ∨ ∃ i, M.lookup i = some x))
    container t t' ?_ ⟨id, fun x hx => Or.inl hx⟩ hfold
  intro u item w _ hu hw
  rcases hideItemFaces_step M u w item hw with ⟨_, hweq⟩ | ⟨_, indices, _, hweq⟩
  · rw [hweq]; exact hu
  · have hrv : w.recentlyHiddenVoxels = (indices.foldl (hideScanStep M item.name)
        { newIndices := [], recentlyHiddenVoxels := u.recentlyHiddenVoxels,
          recentlyHiddenFaces := u.recentlyHiddenFaces }).recentlyHiddenVoxels := by
      rw [hweq]
    rw [hrv]
    refine ⟨fun hnd => hideScan_nodup M item.name indices _ (hu.1 hnd), fun x hx => ?_⟩
    rcases (hideScan_voxels M item.name indices _ x).mp hx with h1 | ⟨i, _, hi⟩
    · exact hu.2 x h1
    · exact Or.inr ⟨i, hi⟩

theorem update_hide_voxels (voxels : Voxels) (container : List RenderItem)
    (s s' : VoxelSubSceneOverride)
    (hp : s.showHideStateChange = ShowHideStateChange.HideSelected)
    (h : update voxels container s = some s') :
    s'.voxelsToHide = [] ∧
    s'.visibleVoxelIdToGlobalId
      = s.visibleVoxelIdToGlobalId.filter (fun g => !(s.voxelsToHide.contains g)) ∧
    (s.recentlyHiddenVoxels.Nodup → s'.recentlyHiddenVoxels.Nodup) ∧
    (∀ x ∈ s'.recentlyHiddenVoxels, x ∈ s.recentlyHiddenVoxels ∨ x ∈ s.voxelsToHide) := by
  unfold update at h
  cases happ : applyShowHideStateChange voxels container { s with selectionChanged := false } with
  | none => simp [happ] at h
  | some s1 =>
    simp only [happ] at h
    have hs' := (Option.some.inj h).symm
    simp only [applyShowHideStateChange, hp] at happ
    split at happ
    · exact absurd happ (by simp)
    · rename_i s2 hmesh
      obtain ⟨b, rv, rf, hframe⟩ := hideSelectedMeshFaces_frame voxels container _ s2 hmesh
      unfold hideSelectedMeshFaces at hmesh
      split at hmesh
      · exact absurd hmesh (by simp)
      · rename_i M hM
        obtain ⟨hnd, hmem⟩ := hideItems_recentlyHiddenVoxels M container _ s2 hmesh
        have hvals := buildIndicesToHide_values voxels _ _ M hM
        have hvis : s2.visibleVoxelIdToGlobalId = s.visibleVoxelIdToGlobalId := by rw [hframe]
        have hhide : s2.voxelsToHide = s.voxelsToHide := by rw [hframe]
        unfold hideSelectedVoxels at happ
        split at happ
        · exact absurd happ (by simp)
        · have h1 := (Option.some.inj happ).symm
          subst h1 hs'
          refine ⟨rfl, ?_, hnd, fun x hx => ?_⟩
          · show s2.visibleVoxelIdToGlobalId.filter _ = _
            rw [hvis, hhide]
          · rcases hmem x hx with h1 | ⟨i, hi⟩
            · exact Or.inl h1
            · exact Or.inr (hvals (i, x) (mem_of_lookup_index M i x hi))

theorem update_showAll_voxels (voxels : Voxels) (container : List RenderItem)
    (s s' : VoxelSubSceneOverride)
    (hp : s.showHideStateChange = ShowHideStateChange.ShowAll)
    (h : update voxels container s = some s') :
    s'.voxelsToHide = s.voxelsToHide ∧
    s'.visibleVoxelIdToGlobalId = sortAscending (s.visibleVoxelIdToGlobalId
      ++ s.recentlyHiddenVoxels.foldl setInsert s.hiddenVoxels) ∧
    s'.hiddenVoxels = [] ∧ s'.recentlyHiddenVoxels = [] := by
  unfold update at h
  cases happ : applyShowHideStateChange voxels container { s with selectionChanged := false } with
  | none => simp [happ] at h
  | some s1 =>
    simp only [happ] at h
    have hs' := (Option.some.inj h).symm
    simp only [applyShowHideStateChange, hp] at happ
    split at happ
    · exact absurd happ (by simp)
    · have h1 := (Option.some.inj happ).symm
      subst h1 hs'
      exact ⟨rfl, rfl, rfl, rfl⟩

theorem update_showSelected_voxels (voxels : Voxels) (container : List RenderItem)
    (s s' : VoxelSubSceneOverride)
    (hp : s.showHideStateChange = ShowHideStateChange.ShowSelected)
    (h : update voxels container s = some s') :
    s'.voxelsToHide = s.voxelsToHide ∧
    s'.visibleVoxelIdToGlobalId
      = sortAscending (s.visibleVoxelIdToGlobalId ++ s.recentlyHiddenVoxels) ∧
    s'.hiddenVoxels = s.hiddenVoxels ∧ s'.recentlyHiddenVoxels = [] := by
  unfold update at h
  cases happ : applyShowHideStateChange voxels container { s with selectionChanged := false } with
  | none => simp [happ] at h
  | some s1 =>
    simp only [happ] at h
    have hs' := (Option.some.inj h).symm
    simp only [applyShowHideStateChange, hp] at happ
    split at happ
    · exact absurd happ (by simp)
    · have h1 := (Option.some.inj happ).symm
      subst h1 hs'
      exact ⟨rfl, rfl, rfl, rfl⟩

theorem mem_sortAscending (l : List Nat) (x : Nat) : x ∈ sortAscending l ↔ x ∈ l :=
  (List.perm_insertionSort (fun a b => a ≤ b) l).mem_iff

theorem sortAscending_sorted (l : List Nat) (h : l.Nodup) :
    (sortAscending l).Sorted (· < ·) := by
  have hs : (sortAscending l).Sorted (· ≤ ·) := List.sorted_insertionSort (· ≤ ·) l
  have hn : (sortAscending l).Nodup :=
    (List.perm_insertionSort (fun a b => a ≤ b) l).nodup_iff.mpr h
  exact hs.lt_of_le hn

theorem collectVoxelsToHide_mem (activeComponents : List (List Int))
    (s s1 : VoxelSubSceneOverride) (h : collectVoxelsToHide activeComponents s = some s1) :
    ∀ x ∈ s1.voxelsToHide, x ∈ s.voxelsToHide ∨ x ∈ s.visibleVoxelIdToGlobalId := by
  unfold collectVoxelsToHide at h
  have key := foldlM_invariant _
    (fun u : VoxelSubSceneOverride =>
      u.visibleVoxelIdToGlobalId = s.visibleVoxelIdToGlobalId ∧
      ∀ x ∈ u.voxelsToHide, x ∈ s.voxelsToHide ∨ x ∈ s.visibleVoxelIdToGlobalId)
    activeComponents s s1 ?_ ⟨rfl, fun x hx => Or.inl hx⟩ h
  · exact key.2
  · intro u comp w _ hu hw
    refine foldlM_invariant _
      (fun u : VoxelSubSceneOverride =>
        u.visibleVoxelIdToGlobalId = s.visibleVoxelIdToGlobalId ∧
        ∀ x ∈ u.voxelsToHide, x ∈ s.voxelsToHide ∨ x ∈ s.visibleVoxelIdToGlobalId)
      comp u w ?_ hu hw
    intro a id b _ ha hb
    split at hb
    · exact absurd hb (by simp)
    · rename_i g hg
      rw [← Option.some.inj hb]
      refine ⟨ha.1, fun x hx => ?_⟩
      rcases (mem_setInsert a.voxelsToHide g x).mp hx with h1 | h1
      · exact ha.2 x h1
      · right
        rw [h1, ← ha.1]
        exact vectorAt_mem _ _ _ hg

theorem pendingStep_voxelsToHide (pending : ShowHideStateChange)
    (activeComponents : List (List Int)) (s s1 : VoxelSubSceneOverride)
    (h : (if pending != ShowHideStateChange.HideSelected then
        some { s with shouldUpdate := true, showHideStateChange := pending }
      else collectVoxelsToHide activeComponents
        { s with shouldUpdate := true, showHideStateChange := pending, hideAllowed := false })
      = some s1) :
    (s1.showHideStateChange ≠ ShowHideStateChange.HideSelected →
      s1.voxelsToHide = s.voxelsToHide) ∧
    (∀ x ∈ s1.voxelsToHide, x ∈ s.voxelsToHide ∨ x ∈ s.visibleVoxelIdToGlobalId) := by
  split at h
  · rw [← Option.some.inj h]
    exact ⟨fun _ => rfl, fun x hx => Or.inl hx⟩
  · rename_i hpend
    have hmem := collectVoxelsToHide_mem activeComponents _ s1 h
    obtain ⟨hide, hs1⟩ := collectVoxelsToHide_frame activeComponents _ s1 h
    refine ⟨fun hne => absurd ?_ hne, hmem⟩
    rw [hs1]
    simpa using hpend

theorem onShowHideStateChange_voxelsToHide (procName : String) (isProcEntry hasActive : Bool)
    (activeComponents : List (List Int)) (s s1 : VoxelSubSceneOverride)
    (h : onShowHideStateChange procName isProcEntry hasActive activeComponents s = some s1) :
    (s1.showHideStateChange ≠ ShowHideStateChange.HideSelected →
      s1.voxelsToHide = s.voxelsToHide) ∧
    (∀ x ∈ s1.voxelsToHide, x ∈ s.voxelsToHide ∨ x ∈ s.visibleVoxelIdToGlobalId) := by
  unfold onShowHideStateChange at h
  split at h
  · rw [← Option.some.inj h]
    exact ⟨fun _ => rfl, fun x hx => Or.inl hx⟩
  · simp only at h
    split at h
    · rw [← Option.some.inj h]
      exact ⟨fun _ => rfl, fun x hx => Or.inl hx⟩
    · exact pendingStep_voxelsToHide _ activeComponents s s1 h

theorem visibleInvariant_step (voxels : Voxels) (container : List RenderItem)
    (s s' : VoxelSubSceneOverride) (e : Event) (hf : FrameInvariant s)
    (hv : VisibleInvariant s)
    (h : eventThenUpdate voxels container s e = some s') : VisibleInvariant s' := by
  obtain ⟨hq, _, _⟩ := hf
  obtain ⟨i1, i2, i3, i4, i5, i6, i7⟩ := hv
  unfold eventThenUpdate at h
  cases he : handleEvent e s with
  | none => simp [he] at h
  | some s1 =>
    simp only [he] at h
    cases e with
    | selectionChanged =>
      simp only [handleEvent] at he
      have hs1 := (Option.some.inj he).symm
      have hp1 : s1.showHideStateChange = ShowHideStateChange.None := by
        rw [hs1]; exact hq
      rw [update_none_pending voxels container s1 hp1] at h
      have hs' := (Option.some.inj h).symm
      subst hs' hs1
      refine ⟨i1, i2, nodup_foldl_setInsert _ _ i3, List.nodup_nil, fun x hx => ?_,
        fun x hx => (by cases hx), fun x hx => (by cases hx)⟩
      rcases (mem_foldl_setInsert s.recentlyHiddenVoxels s.hiddenVoxels x).mp hx with h1 | h1
      · exact i5 x h1
      · exact i6 x h1
    | procCallback procName isProcEntry hasActive comps =>
      simp only [handleEvent] at he
      obtain ⟨pend, su, ha, hide, hs1, _, _⟩ :=
        onShowHideStateChange_frame procName isProcEntry hasActive comps s s1 hq he
      obtain ⟨hkeep, hnew⟩ :=
        onShowHideStateChange_voxelsToHide procName isProcEntry hasActive comps s s1 he
      have e1 : s1.visibleVoxelIdToGlobalId = s.visibleVoxelIdToGlobalId := by rw [hs1]
      have e2 : s1.hiddenVoxels = s.hiddenVoxels := by rw [hs1]
      have e3 : s1.recentlyHiddenVoxels = s.recentlyHiddenVoxels := by rw [hs1]
      have e4 : s1.showHideStateChange = pend := by rw [hs1]
      have hvis_nodup : s.visibleVoxelIdToGlobalId.Nodup := i2.nodup
      cases pend with
      | None =>
        have hk := hkeep (by rw [e4]; simp)
        rw [update_none_pending voxels container s1 e4] at h
        have hs' := (Option.some.inj h).symm
        subst hs'
        exact ⟨hk.trans i1, e1 ▸ i2, e2 ▸ i3, e3 ▸ i4,
          fun x hx => e1 ▸ i5 x (e2 ▸ hx), fun x hx => e1 ▸ i6 x (e3 ▸ hx),
          fun x hx => e2 ▸ i7 x (e3 ▸ hx)⟩
      | HideSelected =>
        obtain ⟨_, _, _, _, hhid, _⟩ := update_hide_frame voxels container s1 s' e4 h
        obtain ⟨u1, u2, u3, u4⟩ := update_hide_voxels voxels container s1 s' e4 h
        rw [e1] at u2
        rw [e3] at u3 u4
        rw [e2] at hhid
        have hsub : ∀ x ∈ s'.visibleVoxelIdToGlobalId, x ∈ s.visibleVoxelIdToGlobalId := by
          intro x hx
          rw [u2] at hx
          exact (List.mem_filter.mp hx).1
        have hvis : ∀ x ∈ s1.voxelsToHide, x ∈ s.visibleVoxelIdToGlobalId := by
          intro x hx
          rcases hnew x hx with h1 | h1
          · rw [i1] at h1; cases h1
          · exact h1
        refine ⟨u1, ?_, hhid ▸ i3, u3 i4, fun x hx hx2 => ?_, fun x hx hx2 => ?_,
          fun x hx hx2 => ?_⟩
        · rw [u2]
          exact List.Sorted.filter _ i2
        · rw [hhid] at hx
          exact i5 x hx (hsub x hx2)
        · rcases u4 x hx with h1 | h1
          · exact i6 x h1 (hsub x hx2)
          · rw [u2] at hx2
            have := (List.mem_filter.mp hx2).2
            simp [h1] at this
        · rw [hhid] at hx2
          rcases u4 x hx with h1 | h1
          · exact i7 x h1 hx2
          · exact i5 x hx2 (hvis x h1)
      | ShowAll =>
        have hk := hkeep (by rw [e4]; simp)
        obtain ⟨u1, u2, u3, u4⟩ := update_showAll_voxels voxels container s1 s' e4 h
        rw [e1, e2, e3] at u2
        refine ⟨(u1.trans hk).trans i1, ?_, u3 ▸ List.nodup_nil, u4 ▸ List.nodup_nil,
          fun x hx => ?_, fun x hx => ?_, fun x hx => ?_⟩
        · rw [u2]
          apply sortAscending_sorted
          refine List.Nodup.append hvis_nodup (nodup_foldl_setInsert _ _ i3) ?_
          intro x hx1 hx2
          rcases (mem_foldl_setInsert _ _ x).mp hx2 with h1 | h1
          · exact i5 x h1 hx1
          · exact i6 x h1 hx1
        · rw [u3] at hx; cases hx
        · rw [u4] at hx; cases hx
        · rw [u4] at hx; cases hx
      | ShowSelected =>
        have hk := hkeep (by rw [e4]; simp)
        obtain ⟨u1, u2, u3, u4⟩ := update_showSelected_voxels voxels container s1 s' e4 h
        rw [e1, e3] at u2
        rw [e2] at u3
        refine ⟨(u1.trans hk).trans i1, ?_, u3 ▸ i3, u4 ▸ List.nodup_nil,
          fun x hx hx2 => ?_, fun x hx => ?_, fun x hx => ?_⟩
        · rw [u2]
          apply sortAscending_sorted
          refine List.Nodup.append hvis_nodup i4 ?_
          intro x hx1 hx2
          exact i6 x hx2 hx1
        · rw [u3] at hx
          rw [u2, mem_sortAscending] at hx2
          rcases List.mem_append.mp hx2 with h1 | h1
          · exact i5 x hx h1
          · exact i7 x h1 hx
        · rw [u4] at hx; cases hx
        · rw [u4] at hx; cases hx

theorem visibleInvariant_initialState (voxels : Voxels) (allMeshIndices : List Nat)
    (meshIndexBuffers : List (String × List Nat)) (meshRenderItemIDs : List Nat) :
    VisibleInvariant (initialState voxels allMeshIndices meshIndexBuffers meshRenderItemIDs) :=
  ⟨rfl, List.sorted_lt_range _, List.nodup_nil, List.nodup_nil, fun x hx => (by cases hx),
    fun x hx => (by cases hx), fun x hx => (by cases hx)⟩

theorem visibleInvariant_of_reachable (voxels : Voxels) (container : List RenderItem)
    (init s : VoxelSubSceneOverride) (hf : FrameInvariant init) (hv : VisibleInvariant init)
    (h : Reachable voxels container init s) : VisibleInvariant s := by
  induction h with
  | start => exact hv
  | next a b e hab hstep ih =>
    exact visibleInvariant_step voxels container a b e
      (frameInvariant_of_reachable voxels container init a hf hab) ih hstep


/-- C12: in every state reached from the initial state by events (procedure callbacks such
as `hide`, `showHidden` and the visibility toggle, and selection changes) that are each
followed by `update`, no global voxel ID of `hiddenVoxels` is in
`visibleVoxelIdToGlobalId`. -/
theorem C12_hidden_voxels_are_not_visible (voxels : Voxels) (container : List RenderItem)
    (allMeshIndices : List Nat) (meshIndexBuffers : List (String × List Nat))
    (meshRenderItemIDs : List Nat) (s : VoxelSubSceneOverride)
    (hreach : Reachable voxels container
      (initialState voxels allMeshIndices meshIndexBuffers meshRenderItemIDs) s) :
    ∀ x ∈ s.hiddenVoxels, x ∉ s.visibleVoxelIdToGlobalId :=
  (visibleInvariant_of_reachable voxels container _ s
    (frameInvariant_initialState voxels allMeshIndices meshIndexBuffers meshRenderItemIDs)
    (visibleInvariant_initialState voxels allMeshIndices meshIndexBuffers meshRenderItemIDs)
    hreach).2.2.2.2.1

theorem C12_hidden_voxels_are_not_visible_witness :
    1 ∈ cellOneCommitted.hiddenVoxels ∧ 1 ∉ cellOneCommitted.visibleVoxelIdToGlobalId :=
  ⟨by decide,
    C12_hidden_voxels_are_not_visible fourCellVoxels fourCellContainer fourCellIndices
      [("voxelRenderItem_A", fourCellIndices)] [1] cellOneCommitted
      (Reachable.next cellOneHidden cellOneCommitted Event.selectionChanged
        (Reachable.next fourCellInitial cellOneHidden (Event.procCallback "hide" true true [[1]])
          Reachable.start (by decide))
        (by decide))
      1 (by decide)⟩

/-- C13: in every state reached from the initial state, whose `visibleVoxelIdToGlobalId`
is the 1:1 list `[0, ..., N-1]`, by events that are each followed by `update`,
`visibleVoxelIdToGlobalId` is sorted in ascending order and has no duplicate. -/
theorem C13_visible_list_sorted_without_duplicates (voxels : Voxels)
    (container : List RenderItem) (allMeshIndices : List Nat)
    (meshIndexBuffers : List (String × List Nat)) (meshRenderItemIDs : List Nat)
    (s : VoxelSubSceneOverride)
    (hreach : Reachable voxels container
      (initialState voxels allMeshIndices meshIndexBuffers meshRenderItemIDs) s) :
    s.visibleVoxelIdToGlobalId.Sorted (· ≤ ·) ∧ s.visibleVoxelIdToGlobalId.Nodup := by
  have hsorted := (visibleInvariant_of_reachable voxels container _ s
    (frameInvariant_initialState voxels allMeshIndices meshIndexBuffers meshRenderItemIDs)
    (visibleInvariant_initialState voxels allMeshIndices meshIndexBuffers meshRenderItemIDs)
    hreach).2.1
  exact ⟨hsorted.imp (fun h => Nat.le_of_lt h), hsorted.nodup⟩

theorem C13_visible_list_sorted_without_duplicates_witness :
    cellOneShownAgain.visibleVoxelIdToGlobalId.Sorted (· ≤ ·) ∧
      cellOneShownAgain.visibleVoxelIdToGlobalId.Nodup :=
  C13_visible_list_sorted_without_duplicates fourCellVoxels fourCellContainer fourCellIndices
    [("voxelRenderItem_A", fourCellIndices)] [1] cellOneShownAgain
    (Reachable.next cellOneHidden cellOneShownAgain
      (Event.procCallback "toggleVisibilityAndKeepSelection" true true [[1]])
      (Reachable.next fourCellInitial cellOneHidden (Event.procCallback "hide" true true [[1]])
        Reachable.start (by decide))
      (by decide))

/-- The visible lists of the example, evaluated: `[0, 2, 3]` with cell 1 hidden, and the
sorted list `[0, 1, 2, 3]` after cell 1 is shown again. -/
theorem visible_list_example :
    cellOneCommitted.visibleVoxelIdToGlobalId = [0, 2, 3] ∧
    cellOneCommitted.hiddenVoxels = [1] ∧
    cellOneShownAgain.visibleVoxelIdToGlobalId = [0, 1, 2, 3] := by
  decide



/-! ## Rounded-up division -/

theorem intWrap_numerator (n d : Int) (hn : 0 ≤ n) (hd : 0 < d)
    (hrep : n + d - 1 ≤ INT_MAX) : intWrap (intWrap (n + d) - 1) = n + d - 1 := by
  have hmax : INT_MAX = 2147483647 := rfl
  unfold intWrap
  omega

/-- C22: for `int` values `n ≥ 0` and `d > 0` with `n + d - 1` representable as an `int`,
`divideRoundUp n d` returns the least `g` with `g * d ≥ n`, which is `0` for `n = 0`. -/
theorem C22_divideRoundUp_is_ceiling (n d : Int) (hn : 0 ≤ n) (hd : 0 < d)
    (hrep : n + d - 1 ≤ INT_MAX) :
    ∃ g, divideRoundUp n d = some g ∧ n ≤ g * d ∧ (∀ g2 : Int, n ≤ g2 * d → g ≤ g2) ∧
      (n = 0 → g = 0) := by
  have hmax : INT_MAX = 2147483647 := rfl
  have h3 : intDiv (n + d - 1) d = some ((n + d - 1) / d) := by
    unfold intDiv
    rw [if_neg (by omega), if_neg (by omega), Int.tdiv_eq_ediv (by omega) (by omega)]
  have hmod := Int.emod_add_ediv (n + d - 1) d
  have hnn := Int.emod_nonneg (n + d - 1) (by omega : d ≠ 0)
  have hlt := Int.emod_lt_of_pos (n + d - 1) hd
  have hcomm : d * ((n + d - 1) / d) = (n + d - 1) / d * d := Int.mul_comm _ _
  refine ⟨(n + d - 1) / d, ?_, ?_, ?_, ?_⟩
  · simp only [divideRoundUp, intWrap_numerator n d hn hd hrep, h3]
  · omega
  · intro g2 hg2
    by_contra hcon
    have hle : g2 + 1 ≤ (n + d - 1) / d := by omega
    have hmul : (g2 + 1) * d ≤ (n + d - 1) / d * d :=
      Int.mul_le_mul_of_nonneg_right hle (by omega)
    have hexp : (g2 + 1) * d = g2 * d + d := by ring
    omega
  · intro h0
    subst h0
    have : (0 + d - 1) / d = 0 := Int.ediv_eq_zero_of_lt (by omega) (by omega)
    exact this

theorem C22_divideRoundUp_is_ceiling_witness :
    ∃ g, divideRoundUp 10 4 = some g ∧ (10 : Int) ≤ g * 4 ∧
      (∀ g2 : Int, (10 : Int) ≤ g2 * 4 → g ≤ g2) ∧ ((10 : Int) = 0 → g = 0) :=
  C22_divideRoundUp_is_ceiling 10 4 (by decide) (by decide) (by decide)

/-- Work-group counts, evaluated: 10 vertices in groups of 4 take 3 groups, 8 take 2, and
no vertex takes none. At the edge `n + d - 1 = INT_MAX` the sum `n + d` wraps to
`INT_MIN` and the subtraction of 1 wraps back. -/
theorem divideRoundUp_example :
    divideRoundUp 10 4 = some 3 ∧ divideRoundUp 8 4 = some 2 ∧ divideRoundUp 0 4 = some 0 ∧
    intWrap (2147483647 + 1) = -2147483648 ∧
    divideRoundUp 2147483647 1 = some 2147483647 := by
  decide

/-! ## Buffer arena: adding elements -/

/-- C23: for an existing buffer of `K` elements and a list of `m` new elements,
`addToBuffer` yields a buffer of `K + m` elements whose first `m` elements are the new
data in order and whose last `K` elements are the old contents in order. -/
theorem C23_addToBuffer_prepends {α : Type} [Inhabited α] (old addedData : List α) :
    ∃ r, addToBuffer (some old) addedData = some (some r) ∧
      r.length = old.length + addedData.length ∧
      r.take addedData.length = addedData ∧
      r.drop addedData.length = old ∧
      r = addedData ++ old := by
  refine ⟨addedData ++ old, addToBuffer_existing old addedData, ?_, ?_, ?_, rfl⟩
  · simp [Nat.add_comm]
  · simp
  · simp



/-! ## Half-precision conversion: properties -/

theorem and_sign_bit (a : Nat) : a &&& 0x8000 = a / 32768 % 2 * 32768 := by
  have h := Nat.and_two_pow a 15
  simp only [Nat.testBit_to_div_mod] at h
  norm_num at h
  rw [h]
  by_cases h1 : a / 32768 % 2 = 1
  · simp [h1]
  · have h0 : a / 32768 % 2 = 0 := by omega
    simp [h0]

theorem floatToHalf_fields (bits : Nat) :
    floatToHalf bits =
      if (bits / 8388608 % 256 + (4294967296 - 112)) % 4294967296 ≤ 0 then
        (bits / 65536 / 32768 % 2 * 32768) % 65536
      else if (bits / 8388608 % 256 + (4294967296 - 112)) % 4294967296 ≥ 31 then
        (bits / 65536 / 32768 % 2 * 32768 ||| 0x7C00) % 65536
      else
        (bits / 65536 / 32768 % 2 * 32768
          ||| (((bits / 8388608 % 256 + (4294967296 - 112)) % 4294967296) <<< 10) % 4294967296
          ||| (bits % 8388608 / 8192)) % 65536 := by
  have hs : (bits >>> 16) &&& 0x8000 = bits / 65536 / 32768 % 2 * 32768 := by
    rw [and_sign_bit, Nat.shiftRight_eq_div_pow]
  have he : (bits >>> 23) &&& 0xFF = bits / 8388608 % 256 := by
    have := Nat.and_pow_two_sub_one_eq_mod (bits >>> 23) 8
    rw [Nat.shiftRight_eq_div_pow] at this ⊢
    norm_num at this ⊢
    exact this
  have hm : bits &&& 0x007FFFFF = bits % 8388608 := by
    have := Nat.and_pow_two_sub_one_eq_mod bits 23
    norm_num at this ⊢
    exact this
  have hshift : ∀ x : Nat, x >>> 13 = x / 8192 := fun x => by
    rw [Nat.shiftRight_eq_div_pow]
  simp only [floatToHalf, uintSize, hs, he, hm, hshift]

/-- The patterns whose exponent field is below 112 (zero, the subnormal floats and the
small normal floats): the wrapped `exponent` is at least `2^32 - 112`, so the branch taken
is the one for infinities and NaN. -/
theorem floatToHalf_small_exponent (bits : Nat) (he : bits / 8388608 % 256 < 112) :
    floatToHalf bits = (bits / 65536 / 32768 % 2 * 32768 ||| 0x7C00) % 65536 := by
  rw [floatToHalf_fields]
  rw [if_neg (by omega), if_pos (by omega)]

/-- C24 on the code: `+0.0f`, `-0.0f`, the smallest subnormal float and `2^-16` (exponent
field 111) are converted to the infinity patterns `0x7C00` and `0xFC00`, not to a signed
zero; only the exponent field 112 (`2^-15`) gives the signed zero. -/
theorem C24_floatToHalf_zero_gives_infinity :
    floatToHalf 0x00000000 = 0x7C00 ∧ floatToHalf 0x80000000 = 0xFC00 ∧
    floatToHalf 0x00000001 = 0x7C00 ∧ floatToHalf 0x37800000 = 0x7C00 ∧
    floatToHalf 0x38000000 = 0x0000 ∧ floatToHalf 0xB8000000 = 0x8000 := by
  decide

/-- C29: for a 32-bit pattern whose exponent field is between 113 and 142 and whose low
13 fraction bits are zero, `floatToHalf` returns the pattern with the same sign bit, the
exponent field lowered by 112 and the high 10 fraction bits; it is a normal binary16
pattern, and the number it encodes is the number that the binary32 pattern encodes. -/
theorem C29_floatToHalf_exact_on_normal_halves (bits : Nat) (hbits : bits < 2 ^ 32)
    (hlow : 113 ≤ bits / 2 ^ 23 % 256) (hhigh : bits / 2 ^ 23 % 256 ≤ 142)
    (hfrac : bits % 2 ^ 13 = 0) :
    floatToHalf bits
      = bits / 2 ^ 31 * 2 ^ 15 + (bits / 2 ^ 23 % 256 - 112) * 2 ^ 10 + bits % 2 ^ 23 / 2 ^ 13 ∧
    1 ≤ floatToHalf bits / 2 ^ 10 % 32 ∧ floatToHalf bits / 2 ^ 10 % 32 ≤ 30 ∧
    binary16Value (floatToHalf bits) = binary32Value bits := by
  obtain ⟨e, he⟩ : ∃ e, e = bits / 2 ^ 23 % 256 := ⟨_, rfl⟩
  obtain ⟨m, hm⟩ : ∃ m, m = bits % 2 ^ 23 := ⟨_, rfl⟩
  obtain ⟨s, hs⟩ : ∃ s, s = bits / 2 ^ 31 := ⟨_, rfl⟩
  obtain ⟨k, hk⟩ : ∃ k, k = m / 2 ^ 13 := ⟨_, rfl⟩
  rw [← he] at hlow hhigh
  have he2 := he
  have hm2 := hm
  have hs2 := hs
  have hk2 := hk
  norm_num at hbits hfrac he2 hm2 hs2 hk2
  have hs3 : s < 2 := by omega
  have hm3 : m < 8388608 := by omega
  have hk3 : k < 1024 := by omega
  have hmk : m = 8192 * k := by omega
  have hsign : bits / 65536 / 32768 % 2 * 32768 = 32768 * s := by omega
  have hexp : (bits / 8388608 % 256 + (4294967296 - 112)) % 4294967296 = e - 112 := by omega
  have hpattern : floatToHalf bits = s * 32768 + (e - 112) * 1024 + k := by
    rw [floatToHalf_fields, hexp, if_neg (by omega), if_neg (by omega), hsign, ← hm2, ← hk2]
    have h1 : ((e - 112) <<< 10) % 4294967296 = 2 ^ 10 * (e - 112) := by
      rw [Nat.shiftLeft_eq, Nat.mul_comm]
      exact Nat.mod_eq_of_lt (by norm_num; omega)
    have hk10 : k < 2 ^ 10 := by norm_num; omega
    have h2 : 2 ^ 10 * (e - 112) ||| k = 2 ^ 10 * (e - 112) + k :=
      (@Nat.mul_add_lt_is_or 10 k hk10 (e - 112)).symm
    have hb15 : 2 ^ 10 * (e - 112) + k < 2 ^ 15 := by norm_num; omega
    have h3 : 2 ^ 15 * s ||| (2 ^ 10 * (e - 112) + k) = 2 ^ 15 * s + (2 ^ 10 * (e - 112) + k) :=
      (@Nat.mul_add_lt_is_or 15 _ hb15 s).symm
    have h15 : 32768 * s = 2 ^ 15 * s := by norm_num
    rw [h1, Nat.or_assoc, h2, h15, h3]
    norm_num
    omega
  have hfield : (s * 32768 + (e - 112) * 1024 + k) / 2 ^ 10 % 32 = e - 112 := by
    norm_num; omega
  have hsfield : (s * 32768 + (e - 112) * 1024 + k) / 2 ^ 15 = s := by
    norm_num; omega
  have hkfield : (s * 32768 + (e - 112) * 1024 + k) % 2 ^ 10 = k := by
    norm_num; omega
  refine ⟨?_, ?_, ?_, ?_⟩
  · rw [hpattern, ← hs, ← he, ← hm, ← hk]; norm_num
  · rw [hpattern, hfield]; omega
  · rw [hpattern, hfield]; omega
  · rw [hpattern]
    unfold binary16Value binary32Value
    rw [hsfield, hfield, hkfield, ← hs, ← he, ← hm, hmk]
    have hcast : (((e - 112 : Nat) : Int) - 15) = (e : Int) - 127 := by omega
    rw [hcast]
    push_cast
    ring

theorem C29_floatToHalf_exact_on_normal_halves_witness :
    floatToHalf 0x3F800000
      = 0x3F800000 / 2 ^ 31 * 2 ^ 15 + (0x3F800000 / 2 ^ 23 % 256 - 112) * 2 ^ 10
        + 0x3F800000 % 2 ^ 23 / 2 ^ 13 ∧
    1 ≤ floatToHalf 0x3F800000 / 2 ^ 10 % 32 ∧ floatToHalf 0x3F800000 / 2 ^ 10 % 32 ≤ 30 ∧
    binary16Value (floatToHalf 0x3F800000) = binary32Value 0x3F800000 :=
  C29_floatToHalf_exact_on_normal_halves 0x3F800000 (by decide) (by decide) (by decide)
    (by decide)

/-- Conversions of exactly representable numbers, evaluated: `1.0f` gives `0x3C00`,
`-2.0f` gives `0xC000`, `0.5f` gives `0x3800` and `65504.0f` gives `0x7BFF`. -/
theorem floatToHalf_example :
    floatToHalf 0x3F800000 = 0x3C00 ∧ floatToHalf 0xC0000000 = 0xC000 ∧
    floatToHalf 0x3F000000 = 0x3800 ∧ floatToHalf 0x477FE000 = 0x7BFF := by
  decide



/-! ## Morton codes: properties -/

theorem or_and_distrib (a b c : Nat) : (a ||| b) &&& c = (a &&& c) ||| (b &&& c) := by
  rw [Nat.and_comm, Nat.and_or_distrib_left, Nat.and_comm c a, Nat.and_comm c b]

theorem shiftRight_or (a b i : Nat) : (a ||| b) >>> i = a >>> i ||| b >>> i := by
  apply Nat.eq_of_testBit_eq
  intro j
  simp only [Nat.testBit_shiftRight, Nat.testBit_or]

theorem compactBits_masked (v : Nat) : compactBits v = compactBits (v &&& 0x09249249) := by
  simp only [compactBits, Nat.and_assoc, Nat.and_self]

set_option maxRecDepth 100000 in
/-- What one coordinate below 1024 contributes to the three interleaved lanes of a code. -/
theorem spreadBits_lanes : ∀ a < 1024,
    compactBits (spreadBits a) = a ∧
    spreadBits a &&& 0x09249249 = spreadBits a ∧
    ((spreadBits a <<< 1) % uintSize) &&& 0x09249249 = 0 ∧
    ((spreadBits a <<< 2) % uintSize) &&& 0x09249249 = 0 ∧
    (spreadBits a >>> 1) &&& 0x09249249 = 0 ∧
    (((spreadBits a <<< 1) % uintSize) >>> 1) &&& 0x09249249 = spreadBits a ∧
    (((spreadBits a <<< 2) % uintSize) >>> 1) &&& 0x09249249 = 0 ∧
    (spreadBits a >>> 2) &&& 0x09249249 = 0 ∧
    (((spreadBits a <<< 1) % uintSize) >>> 2) &&& 0x09249249 = 0 ∧
    (((spreadBits a <<< 2) % uintSize) >>> 2) &&& 0x09249249 = spreadBits a := by
  decide

theorem fromMortonCode_toMortonCode (x y z : Nat) (hx : x < 1024) (hy : y < 1024)
    (hz : z < 1024) : fromMortonCode (toMortonCode x y z) = (x, y, z) := by
  obtain ⟨x0, x1, x2, x3, x4, x5, x6, x7, x8, x9⟩ := spreadBits_lanes x hx
  obtain ⟨y0, y1, y2, y3, y4, y5, y6, y7, y8, y9⟩ := spreadBits_lanes y hy
  obtain ⟨z0, z1, z2, z3, z4, z5, z6, z7, z8, z9⟩ := spreadBits_lanes z hz
  have hX : compactBits (toMortonCode x y z) = x := by
    rw [compactBits_masked]
    simp only [toMortonCode, or_and_distrib, x1, y2, z3, Nat.or_zero]
    exact x0
  have hY : compactBits (toMortonCode x y z >>> 1) = y := by
    rw [compactBits_masked]
    simp only [toMortonCode, shiftRight_or, or_and_distrib, x4, y5, z6, Nat.or_zero,
      Nat.zero_or]
    exact y0
  have hZ : compactBits (toMortonCode x y z >>> 2) = z := by
    rw [compactBits_masked]
    simp only [toMortonCode, shiftRight_or, or_and_distrib, x7, y8, z9, Nat.or_zero,
      Nat.zero_or]
    exact z0
  simp only [fromMortonCode, hX, hY, hZ]

/-- C27: for coordinates below 1024, `fromMortonCode (toMortonCode x y z)` is `(x, y, z)`,
and two coordinate triples below 1024 with the same code are equal. -/
theorem C27_morton_code_roundtrip (x y z : Nat) (hx : x < 1024) (hy : y < 1024)
    (hz : z < 1024) :
    fromMortonCode (toMortonCode x y z) = (x, y, z) ∧
    ∀ x2 y2 z2 : Nat, x2 < 1024 → y2 < 1024 → z2 < 1024 →
      toMortonCode x y z = toMortonCode x2 y2 z2 → (x, y, z) = (x2, y2, z2) := by
  refine ⟨fromMortonCode_toMortonCode x y z hx hy hz, ?_⟩
  intro x2 y2 z2 hx2 hy2 hz2 hcode
  rw [← fromMortonCode_toMortonCode x y z hx hy hz, hcode,
    fromMortonCode_toMortonCode x2 y2 z2 hx2 hy2 hz2]

theorem C27_morton_code_roundtrip_witness :
    fromMortonCode (toMortonCode 5 1023 512) = (5, 1023, 512) ∧
    ∀ x2 y2 z2 : Nat, x2 < 1024 → y2 < 1024 → z2 < 1024 →
      toMortonCode 5 1023 512 = toMortonCode x2 y2 z2 → (5, 1023, 512) = (x2, y2, z2) :=
  C27_morton_code_roundtrip 5 1023 512 (by decide) (by decide) (by decide)

/-- Morton codes, evaluated: the bits of `x`, `y` and `z` take every third position. -/
theorem toMortonCode_example :
    toMortonCode 1 0 0 = 1 ∧ toMortonCode 0 1 0 = 2 ∧ toMortonCode 0 0 1 = 4 ∧
    toMortonCode 3 0 0 = 9 ∧ toMortonCode 1023 1023 1023 = 1073741823 ∧
    fromMortonCode 1073741823 = (1023, 1023, 1023) := by
  decide

/-- C28 as stated fails: `spreadBits` does not mask its argument first, and its first
mask `0x030000FF` lets the bits 24 and 25 of the argument through. The coordinate `2^24`
has its low 10 bits zero and yet gives the code `2^24`, the code of the coordinate 256. -/
theorem C28_toMortonCode_high_bits_counterexample :
    toMortonCode 16777216 0 0 = 16777216 ∧
    toMortonCode (16777216 % 1024) (0 % 1024) (0 % 1024) = 0 ∧
    toMortonCode 256 0 0 = 16777216 := by
  decide

theorem maskBits_first : ∀ i < 32,
    (0x030000FF : Nat).testBit i = decide (i < 8 ∨ i = 24 ∨ i = 25) := by
  decide

theorem spreadBits_first_step (x : Nat) (h : x / 2 ^ 24 % 4 = 0) :
    (x ||| (x <<< 16) % uintSize) &&& 0x030000FF
      = (x % 1024 ||| ((x % 1024) <<< 16) % uintSize) &&& 0x030000FF := by
  have h24 : x.testBit 24 = false := by
    rw [Nat.testBit_to_div_mod]
    norm_num at h ⊢
    omega
  have h25 : x.testBit 25 = false := by
    rw [Nat.testBit_to_div_mod]
    norm_num at h ⊢
    omega
  have hu : uintSize = 2 ^ 32 := by decide
  have hk : (1024 : Nat) = 2 ^ 10 := by decide
  rw [hu, hk]
  apply Nat.eq_of_testBit_eq
  intro i
  simp only [Nat.testBit_and, Nat.testBit_or, Nat.testBit_mod_two_pow, Nat.testBit_shiftLeft]
  by_cases hi : i < 32
  · rw [maskBits_first i hi]
    by_cases h8 : i < 8
    · have a1 : ¬ (i ≥ 16) := by omega
      have a2 : i < 10 := by omega
      simp [h8, a1, a2]
    · by_cases e24 : i = 24
      · subst e24
        simp [h24]
      · by_cases e25 : i = 25
        · subst e25
          simp [h25]
        · simp [h8, e24, e25]
  · have hm : (0x030000FF : Nat).testBit i = false :=
      Nat.testBit_lt_two_pow (lt_of_lt_of_le (by decide : (0x030000FF : Nat) < 2 ^ 32)
        (Nat.pow_le_pow_right (by decide) (by omega)))
    simp [hm]

theorem spreadBits_low_bits (x : Nat) (h : x / 2 ^ 24 % 4 = 0) :
    spreadBits x = spreadBits (x % 1024) := by
  simp only [spreadBits]
  rw [spreadBits_first_step x h]

/-- C28 amended: for coordinates whose bits 24 and 25 are zero (all coordinates below
`2^24` among them), `toMortonCode` depends only on the low 10 bits of each coordinate. -/
theorem C28_toMortonCode_low_bits (x y z : Nat) (hx : x / 2 ^ 24 % 4 = 0)
    (hy : y / 2 ^ 24 % 4 = 0) (hz : z / 2 ^ 24 % 4 = 0) :
    toMortonCode x y z = toMortonCode (x % 1024) (y % 1024) (z % 1024) := by
  simp only [toMortonCode, spreadBits_low_bits x hx, spreadBits_low_bits y hy,
    spreadBits_low_bits z hz]

theorem C28_toMortonCode_low_bits_witness :
    toMortonCode 67112965 2048 1025
      = toMortonCode (67112965 % 1024) (2048 % 1024) (1025 % 1024) :=
  C28_toMortonCode_low_bits 67112965 2048 1025 (by decide) (by decide) (by decide)



/-! ## Buffer arena: the ranges of the region copies -/

/-- C30 as stated fails: for the buffer `[1, 2, 3]`, `count = 1` and `offset = 3`,
`deleteFromBuffer` issues a copy of 3 elements to the start of the new buffer, which has
2 elements. -/
theorem C30_deleteFromBuffer_copy_out_of_range_counterexample :
    DeviceEvent.copySubresourceRegion 0 0 3 ∈ deleteFromBufferCalls 4 (some [1, 2, 3]) 1 3 ∧
    ¬ (0 + 3 ≤ [1, 2, 3].length - 1) ∧
    deleteFromBuffer (some [1, 2, 3]) 1 3 = none := by
  decide

/-- C30 amended: for a buffer of `K` elements (`K` a 32-bit count), `count < K` and
`offset + count ≤ K`, every region copy that `deleteFromBuffer` issues reads inside the
`K` elements of the old buffer and writes inside the `K - count` elements of the new
one. -/
theorem C30_deleteFromBuffer_copies_in_range {α : Type} [Inhabited α] (sizeofT : Nat)
    (old : List α) (count offset : Nat) (hK : old.length < uintSize)
    (hcount : count < old.length) (hrange : offset + count ≤ old.length)
    (src dst n : Nat)
    (hmem : DeviceEvent.copySubresourceRegion src dst n
      ∈ deleteFromBufferCalls sizeofT (some old) count offset) :
    src + n ≤ old.length ∧ dst + n ≤ old.length - count := by
  have hnge : ¬ (count ≥ old.length) := by omega
  have hmod : (offset + count) % uintSize = offset + count := Nat.mod_eq_of_lt (by omega)
  simp only [deleteFromBufferCalls, getNumElementsInBuffer, if_neg hnge, hmod,
    createBufferCalls, notifyMayaOfMemoryUsage, List.mem_append, List.mem_cons,
    List.mem_singleton, if_true, if_false] at hmem
  rcases hmem with ((h | h) | h) | h
  · rcases h with h | h
    · cases h
    · simp at h
  · split at h
    · simp only [List.mem_singleton, DeviceEvent.copySubresourceRegion.injEq] at h
      omega
    · simp at h
  · split at h
    · simp only [List.mem_singleton, DeviceEvent.copySubresourceRegion.injEq] at h
      omega
    · simp at h
  · simp at h

theorem C30_deleteFromBuffer_copies_in_range_witness :
    DeviceEvent.copySubresourceRegion 3 1 2
      ∈ deleteFromBufferCalls 4 (some [10, 11, 12, 13, 14]) 2 1 ∧
    (3 + 2 ≤ [10, 11, 12, 13, 14].length ∧ 1 + 2 ≤ [10, 11, 12, 13, 14].length - 2) :=
  ⟨by decide,
    C30_deleteFromBuffer_copies_in_range 4 [10, 11, 12, 13, 14] 2 1 (by decide) (by decide)
      (by decide) 3 1 2 (by decide)⟩

/-! ## Reachable states: a hidden cell that no set records -/

/-- C25 on the code: with the triangles of cell 1 in no render item, a `hide` of cell 1
followed by `update` leaves cell 1 of the four cells in none of
`visibleVoxelIdToGlobalId`, `recentlyHiddenVoxels` and `hiddenVoxels`. -/
theorem C25_hidden_cell_is_in_no_list :
    (eventThenUpdate fourCellVoxels fourCellContainer unshadedCellInitial
        (Event.procCallback "hide" true true [[1]])).map
      (fun s => (s.visibleVoxelIdToGlobalId, s.recentlyHiddenVoxels, s.hiddenVoxels))
      = some ([0, 2, 3], [], []) ∧
    unshadedCellInitial.visibleVoxelIdToGlobalId = [0, 1, 2, 3] ∧
    fourCellVoxels.numOccupied = 4 := by
  decide

/-! ## Geometry build: the vertex map -/

theorem foldl_push_back (data map : List Nat) :
    data.foldl (fun m vertexId => m ++ [vertexId]) map = map ++ data := by
  induction data generalizing map with
  | nil => simp
  | cons a t ih => simp [List.foldl_cons, ih]

/-- A build appends the extractor's vertex IDs to the map that it finds. -/
theorem createMeshRenderItems_vertexMap (e : GeometryExtractor) (s : MeshBuild) :
    (createMeshRenderItems (some e) s).1.extractedVertexIdMap
      = s.extractedVertexIdMap ++ e.vertexIds := by
  have hitems : ∀ (items : List (Nat × String × List Nat)) (st : MeshBuild),
      (items.foldl
        (fun st item =>
          { st with
            meshIndexBuffers := mapSet st.meshIndexBuffers item.2.1 item.2.2
            meshRenderItemIDs := setInsert st.meshRenderItemIDs item.1 })
        st).extractedVertexIdMap = st.extractedVertexIdMap := by
    intro items
    induction items with
    | nil => intro st; rfl
    | cons a t ih => intro st; rw [List.foldl_cons, ih]
  simp only [createMeshRenderItems, getVertexIdMapping, getAllMeshIndices, foldl_push_back,
    hitems]

/-- C26 on the code: `createMeshRenderItems` clears four members and not
`extractedVertexIdMap`. The first build leaves the map of its extraction; the rebuild for
an export, whose extractor has 3 vertices, leaves 7 entries, of which the first four are
those of the first extraction (entry 2 is vertex 1, not vertex 2). The export then reads
the positions of 7 extracted vertices from a buffer that holds 3. -/
theorem C26_rebuild_appends_to_vertex_map :
    (createMeshRenderItems (some seamExtraction) emptyMeshBuild).1.extractedVertexIdMap
      = [0, 1, 1, 2] ∧
    (createMeshRenderItems (some exportExtraction)
        (createMeshRenderItems (some seamExtraction) emptyMeshBuild).1).2
      = some [0, 1, 1, 2, 0, 1, 2] ∧
    exportExtraction.vertexCount = 3 ∧
    exportExtraction.vertexIds = [0, 1, 2] ∧
    (createMeshRenderItems (some exportExtraction)
        (createMeshRenderItems (some seamExtraction) emptyMeshBuild).1).1.allMeshIndices
      = [0, 1, 2] ∧
    (copyGeometryDataToMesh [10, 11, 12, 20, 21, 22, 30, 31, 32] [] [0, 1, 1, 2, 0, 1, 2]
        (some { rawPoints := [0, 0, 0, 0, 0, 0, 0, 0, 0], rawNormals := [] })).isNone = true := by
  decide


end Cubit
